import Mathlib

/-!
# WioLTE driver: SMS PDU decoding, URL splitting, HTTP framing, socket allocation,
signal strength, clock, stored messages, registration polling, GNSS location

A shallow embedding of the pure parts of `src/WioLTE.cpp` and of the command
sequences it drives over the AT serial channel.

Conventions of the embedding

* A C string is the list of its characters before the terminating NUL.
* A `byte` is a natural number below 256; buffers are lists of them.
* A pointer into a buffer is its offset from the start of the buffer.
* Every array access of the PDU decoder goes through `readData` or
  `checkWrite`, which record an access outside the array as the outcome
  `Run.outOfBounds` instead of a value.
* A `double` is a fraction; every `double` operation rounds its exact result to the
  nearest value with a 53-bit significand, ties to even; `(int)x` truncates toward zero.
* A polling loop takes the readings of its stopwatch as a function of the round.
-/

namespace WioLTE

/-! ## Outcomes of code whose array accesses are tracked -/

/-- The arrays the SMS decoder touches. -/
inductive Buffer where
  | data
  | message
  | dialNumber
  deriving DecidableEq, Repr

/-- Outcome of a fragment of the decoder: it ran through (`ok`), it left through
`RET_ERR(-1, E_UNKNOWN)` (`unknown`), or it accessed `buf[idx]` with `idx` outside the
array (`outOfBounds`), which is undefined behaviour in C. -/
inductive Run (α : Type) where
  | ok (a : α)
  | unknown
  | outOfBounds (buf : Buffer) (idx : Int)
  deriving DecidableEq, Repr

/-- Sequencing: the first outcome that is not `ok` ends the fragment. -/
def Run.bind {α β : Type} (x : Run α) (f : α → Run β) : Run β :=
  match x with
  | .ok a => f a
  | .unknown => .unknown
  | .outOfBounds b i => .outOfBounds b i

instance : Monad Run where
  pure := Run.ok
  bind := Run.bind

/-- The statement `if (!cond) return RET_ERR(-1, E_UNKNOWN);`. -/
def require (cond : Bool) : Run Unit :=
  if cond then .ok () else .unknown

/-- The read `data[i]` of a byte array of `data.length` bytes. -/
def readData (data : List Nat) (i : Nat) : Run Nat :=
  match data[i]? with
  | some b => .ok b
  | none => .outOfBounds .data i

/-- The write `buf[idx] = ...` into a caller buffer of `size` elements. -/
def checkWrite (buf : Buffer) (size : Int) (idx : Int) : Run Unit :=
  if 0 ≤ idx ∧ idx < size then .ok () else .outOfBounds buf idx

/-! ## Helper functions -/

/-- Source: `HexToInt`. -/
def HexToInt (c : Char) : Int :=
  if '0' ≤ c ∧ c ≤ '9' then (c.toNat : Int) - ('0'.toNat : Int)
  else if 'a' ≤ c ∧ c ≤ 'f' then (c.toNat : Int) - ('a'.toNat : Int) + 10
  else if 'A' ≤ c ∧ c ≤ 'F' then (c.toNat : Int) - ('A'.toNat : Int) + 10
  else -1

/-- The character `s[i]` of a C string; the terminating NUL sits at `s[s.length]`. -/
def charAt (s : List Char) (i : Nat) : Char :=
  s.getD i (Char.ofNat 0)

/-- The loop of `ConvertHexToBytes`, with `k` iterations left from index `i`. -/
def convertHexLoop (hex : List Char) : Nat → Nat → Option (List Nat)
  | 0, _ => some []
  | k + 1, i =>
    let high := HexToInt (charAt hex (i * 2))
    let low := HexToInt (charAt hex (i * 2 + 1))
    if high < 0 ∨ low < 0 then none
    else
      match convertHexLoop hex k (i + 1) with
      | none => none
      | some rest => some ((high * 16 + low).toNat :: rest)

/-- Source: `ConvertHexToBytes`; `none` is the return value `false`, `some data` the
bytes stored in `data[0 .. dataSize)`. -/
def ConvertHexToBytes (hex : List Char) (dataSize : Nat) : Option (List Nat) :=
  convertHexLoop hex dataSize 0

/-- The loop of `SmAddressFieldToString`, with `k` iterations left from index `i`;
`addressValue` is the offset of `&addressField[2]`. Yields the characters stored in
`str[i ..]`. -/
def addressLoop (data : List Nat) (addressValue : Nat) (strSize : Int) :
    Nat → Nat → Run (List Nat)
  | 0, _ => .ok []
  | k + 1, i => do
    let b ← readData data (addressValue + i / 2)
    let c := if i % 2 = 0 then '0'.toNat + (b &&& 0x0f) else '0'.toNat + (b >>> 4)
    checkWrite .dialNumber strSize i
    let rest ← addressLoop data addressValue strSize k (i + 1)
    pure (c :: rest)

/-- Source: `SmAddressFieldToString`, for the address field at offset `addressField`
of `data`. `none` is the return value `false`; `some str` is `true` with the characters
of `str` before the NUL written at `str[addressLength]`. -/
def SmAddressFieldToString (data : List Nat) (addressField : Nat) (strSize : Int) :
    Run (Option (List Nat)) := do
  let addressLength ← readData data addressField
  let addressValue := addressField + 2
  if (addressLength : Int) + 1 > strSize then pure none
  else do
    let str ← addressLoop data addressValue strSize addressLength 0
    checkWrite .dialNumber strSize addressLength
    pure (some str)

/-! ## The PDU decoder of `ReceiveSMS` -/

/-- The body of the unpacking loop of `ReceiveSMS` for index `i`: the value stored in
`message[i]`; `sm` is the offset of the packed user data in `data`. -/
def septetAt (data : List Nat) (sm : Nat) (i : Nat) : Run Nat := do
  let offset := i - i / 8
  let shift := i % 8
  if shift = 0 then do
    let b ← readData data (sm + offset)
    pure (b &&& 0x7f)
  else do
    let hi ← readData data (sm + offset)
    let lo ← readData data (sm + (offset - 1))
    pure (((hi * 256 + lo) <<< shift >>> 8) &&& 0x7f)

/-- The unpacking loop of `ReceiveSMS`, with `k` iterations left from index `i`. -/
def unpackLoop (data : List Nat) (sm : Nat) (messageSize : Int) :
    Nat → Nat → Run (List Nat)
  | 0, _ => .ok []
  | k + 1, i => do
    let c ← septetAt data sm i
    checkWrite .message messageSize i
    let rest ← unpackLoop data sm messageSize k (i + 1)
    pure (c :: rest)

/-- What a successful decode leaves behind: the return value `smSize`, the characters
`message[0 .. smSize)` and, when the address was decoded, the characters of
`dialNumber`. -/
structure SmsResult where
  smSize : Int
  message : List Nat
  dialNumber : Option (List Nat)
  deriving DecidableEq, Repr

/-- The offsets found by the header walk of `ReceiveSMS`. -/
structure PduHeader where
  tpMti : Nat
  tpUdhi : Bool
  tpOaSize : Nat
  tpPid : Nat
  tpDcs : Nat
  tpScts : Nat
  tpUd : Nat
  deriving DecidableEq, Repr

/-- Source: `ReceiveSMS`, from `smscInfoSize = data` to the check of `tpUd`. -/
def headerWalk (data : List Nat) : Run PduHeader := do
  let dataEnd := data.length
  let smscInfoSize := 0
  let tpMti := smscInfoSize + 1 + (← readData data smscInfoSize)
  require (!(tpMti ≥ dataEnd))
  let mti ← readData data tpMti
  require (!((mti &&& 0x03) != 0x00))
  let tpUdhi := if (mti &&& 0x40) != 0 then true else false
  let tpOaSize := tpMti + 1
  require (!(tpOaSize ≥ dataEnd))
  let oaSize ← readData data tpOaSize
  let tpPid := tpOaSize + 2 + oaSize / 2 + oaSize % 2
  require (!(tpPid ≥ dataEnd))
  let tpDcs := tpPid + 1
  require (!(tpDcs ≥ dataEnd))
  let tpScts := tpDcs + 1
  require (!(tpScts ≥ dataEnd))
  let tpUd := tpScts + 7
  require (!(tpUd ≥ dataEnd))
  pure { tpMti, tpUdhi, tpOaSize, tpPid, tpDcs, tpScts, tpUd }

/-- Source: `ReceiveSMS`, the `if (!tpUdhi) ... else ...` that sets `smSize` and `sm`.
Yields `(smSize, sm)`. -/
def userDataLayout (data : List Nat) (h : PduHeader) : Run (Int × Nat) := do
  if !h.tpUdhi then do
    let ud0 ← readData data h.tpUd
    pure ((ud0 : Int), h.tpUd + 1)
  else do
    require (!(h.tpUd + 1 ≥ data.length))
    let ud0 ← readData data h.tpUd
    let ud1 ← readData data (h.tpUd + 1)
    pure ((ud0 : Int) - (1 + (ud1 : Int)), h.tpUd + 2 + ud1)

/-- Source: `ReceiveSMS`, the `if (dialNumber != NULL && dialNumberSize >= 1)` block.
`dialNumber` is `none` for a NULL pointer and `some dialNumberSize` otherwise. -/
def decodeDialNumber (data : List Nat) (h : PduHeader) (dialNumber : Option Int) :
    Run (Option (List Nat)) :=
  match dialNumber with
  | none => pure none
  | some dialNumberSize =>
    if dialNumberSize ≥ 1 then do
      match ← SmAddressFieldToString data h.tpOaSize dialNumberSize with
      | none => .unknown
      | some str => pure (some str)
    else pure none

/-- Source: `ReceiveSMS`, from the size check of `message` to `message[smSize] = 0`. -/
def unpackUserData (data : List Nat) (smSize : Int) (sm : Nat) (messageSize : Int) :
    Run (List Nat) := do
  require (!(messageSize < smSize + 1))
  let message ← unpackLoop data sm messageSize smSize.toNat 0
  checkWrite .message messageSize smSize
  pure message

/-- Source: `ReceiveSMS`, the decode of the PDU bytes `data` (lines 751 to 797). -/
def decodePdu (data : List Nat) (messageSize : Int) (dialNumber : Option Int) :
    Run SmsResult := do
  let h ← headerWalk data
  let number ← decodeDialNumber data h dialNumber
  let (smSize, sm) ← userDataLayout data h
  let message ← unpackUserData data smSize sm messageSize
  pure { smSize := smSize, message := message, dialNumber := number }

/-- Source: `ReceiveSMS`, from `hexSize = strlen(hex)` to `message[smSize] = 0`: the
conversion of the fetched hex text and the decode of its bytes. -/
def decodeHexPdu (hex : List Char) (messageSize : Int) (dialNumber : Option Int) :
    Run SmsResult :=
  let hexSize := hex.length
  if hexSize % 2 != 0 then .unknown
  else
    let dataSize := hexSize / 2
    match ConvertHexToBytes hex dataSize with
    | none => .unknown
    | some data => decodePdu data messageSize dialNumber

/-- The number a byte sequence spells when read as a little-endian bit stream:
the sum over `k` of `sm[k] * 256 ^ k`. -/
def leValue : List Nat → Nat
  | [] => 0
  | b :: rest => b + 256 * leValue rest

/-! ## Sample inputs -/

/-- An SMS-DELIVER PDU with the UDHI bit set: empty SMSC field, TP-MTI 0x40, an empty
originating address of type 0x81, PID, DCS, seven timestamp bytes, user-data length 5,
a user-data header of length 1 (payload 0x09) and the packed text `ABC`. -/
def sampleUdhPdu : List Nat :=
  [0, 0x40, 0, 0x81, 0, 0, 1, 2, 3, 4, 5, 6, 7, 5, 1, 9, 0x41, 0xE1, 0x10]

/-- A delivered message as a modem reports it (SMSC +31624000000, sender 31641600986,
text `How are you?`). -/
def sampleHexPdu : List Char :=
  "07911326040000F0040B911346610089F60000208062917314080CC8F71D14969741F977FD07".toList

/-! ## URL splitting and HTTP framing -/

/-- The C library test `strncmp(a, b, n) == 0`: the first `n` characters agree, or
both strings end at the same earlier position. -/
def strncmpEq : List Char → List Char → Nat → Bool
  | _, _, 0 => true
  | [], [], _ + 1 => true
  | x :: xs, y :: ys, n + 1 => x == y && strncmpEq xs ys n
  | _, _, _ + 1 => false

/-- The scan `for (ptr = *host; *ptr != 0; ptr++) if (*ptr == '/') break;` of `SplitUrl`:
the number of characters passed, `ptr - *host`. -/
def scanHost : List Char → Nat
  | [] => 0
  | c :: rest => if c == '/' then 0 else scanHost rest + 1

/-- Source: `SplitUrl`. `none` is the return value `false`; `some (host, uri)` is `true`
with `host` the `hostLength` characters from `*host` and `uri` the `uriLength`
characters from `*uri`. -/
def SplitUrl (url : List Char) : Option (List Char × List Char) :=
  let start : Option Nat :=
    if strncmpEq url "http://".toList 7 then some 7
    else if strncmpEq url "https://".toList 8 then some 8
    else none
  match start with
  | none => none
  | some k =>
    let host := url.drop k
    let hostLength := scanHost host
    let uri := host.drop hostLength
    some (host.take hostLength, uri)

/-! ## The AT command channel and the driver state -/

/-- The values of `WioLTE::ErrorCodeType` the driver reports. -/
inductive ErrorCodeType where
  | E_OK
  | E_UNKNOWN
  | E_TIMEOUT
  | E_GNSS_NOT_FIXED
  deriving DecidableEq, Repr

/-- One write of the driver to the serial channel: a command line (`WriteCommand`) or a
raw block (`WriteBinary`). -/
inductive Sent where
  | command (text : List Char)
  | binary (bytes : List Char)
  deriving DecidableEq, Repr

/-- Modelled from the spec: the command channel `_AtSerial` and the string formatting
helper `StringBuilder`, whose classes are not in src. `replies` scripts the outcomes of
the successive reads of the channel: `none` is a read that ends without a matching line
(the call returns `false`), `some text` a read that succeeds and captures `text`; a
read after the last scripted outcome finds nothing. `sent` logs what was written.
`formatOk` tells for which rendered texts `StringBuilder::WriteFormat` returns `true`.
`lastError` is the field `_LastErrorCode`. -/
structure Driver where
  replies : List (Option (List Char))
  sent : List Sent
  formatOk : List Char → Bool
  lastError : ErrorCodeType

/-- Where a statement of a member function leaves control: at the next statement with
a value (`next`), or at a `return` with the return value of the function (`ret`). -/
inductive Step (ρ α : Type) where
  | next (a : α) (s : Driver)
  | ret (r : ρ) (s : Driver)

/-- The driver state a statement leaves. -/
def Step.driver {ρ α : Type} : Step ρ α → Driver
  | .next _ s => s
  | .ret _ s => s

/-- The value a statement hands to the next one, if control gets there. -/
def Step.value? {ρ α : Type} : Step ρ α → Option α
  | .next a _ => some a
  | .ret _ _ => none

/-- A statement of a member function with return type `ρ`. -/
def Act (ρ α : Type) : Type := Driver → Step ρ α

/-- Sequencing of statements: a `return` skips what follows. -/
def Act.bind {ρ α β : Type} (x : Act ρ α) (f : α → Act ρ β) : Act ρ β :=
  fun s =>
    match x s with
    | .next a s1 => f a s1
    | .ret r s1 => .ret r s1

instance {ρ : Type} : Monad (Act ρ) where
  pure := fun a s => .next a s
  bind := Act.bind

/-- A call of a member function from state `s`: its return value and the state it
leaves. Falling off the end of the body returns its value. -/
def call {ρ : Type} (body : Act ρ ρ) (s : Driver) : ρ × Driver :=
  match body s with
  | .next r s1 => (r, s1)
  | .ret r s1 => (r, s1)

/-- A nested call of a member function inside another one. -/
def invoke {ρ α : Type} (body : Act α α) : Act ρ α :=
  fun s => .next (call body s).1 (call body s).2

/-- The statement `return RET_ERR(val, err);` (source: `ReturnError`). -/
def RET_ERR {ρ α : Type} (val : ρ) (err : ErrorCodeType) : Act ρ α :=
  fun s => .ret val { s with lastError := err }

/-- The statement `if (cond) return RET_ERR(val, err);`. -/
def failIf {ρ : Type} (cond : Bool) (val : ρ) (err : ErrorCodeType) : Act ρ Unit :=
  fun s => if cond then .ret val { s with lastError := err } else .next () s

/-- The statement `return RET_OK(val);`. -/
def RET_OK {ρ α : Type} (val : ρ) : Act ρ α :=
  fun s => .ret val { s with lastError := .E_OK }

/-- A plain `return val;`. -/
def RETURN {ρ α : Type} (val : ρ) : Act ρ α :=
  fun s => .ret val s

/-- The call `_AtSerial.WriteCommand(text)`. -/
def WriteCommand {ρ : Type} (text : List Char) : Act ρ Unit :=
  fun s => .next () { s with sent := s.sent ++ [.command text] }

/-- The call `_AtSerial.WriteBinary(bytes, length)`. -/
def WriteBinary {ρ : Type} (bytes : List Char) : Act ρ Unit :=
  fun s => .next () { s with sent := s.sent ++ [.binary bytes] }

/-- The call `_AtSerial.ReadResponse(pattern, timeout, &response)`: `none` for `false`,
`some response` for `true`. -/
def ReadResponse {ρ : Type} (_pattern : List Char) (_timeout : Int) :
    Act ρ (Option (List Char)) :=
  fun s =>
    match s.replies with
    | [] => .next none s
    | r :: rest => .next r { s with replies := rest }

/-- The call `_AtSerial.WriteCommandAndReadResponse(command, pattern, timeout, NULL)`. -/
def WriteCommandAndReadResponse {ρ : Type} (command pattern : List Char) (timeout : Int) :
    Act ρ Bool := do
  WriteCommand command
  let r ← ReadResponse pattern timeout
  pure r.isSome

/-- The call `str.WriteFormat(format, ...)` on a `StringBuilder` that holds `sb`, with
`rendered` the text the format and its arguments spell: `none` for `false`, the new
content for `true`. -/
def WriteFormat {ρ : Type} (sb rendered : List Char) : Act ρ (Option (List Char)) :=
  fun s => .next (if s.formatOk rendered then some (sb ++ rendered) else none) s

/-- The text `%d` spells for an integer. -/
def decimal (z : Int) : List Char :=
  if z < 0 then '-' :: Nat.toDigits 10 z.natAbs else Nat.toDigits 10 z.toNat

/-- Modelled from the spec: `ArgumentParser` (not in src), which splits a
comma-separated reply into its fields; `splitCommas` cuts a text at every comma. -/
def splitCommas : List Char → List (List Char)
  | [] => [[]]
  | c :: rest =>
    match splitCommas rest with
    | [] => [[]]
    | cur :: more => if c == ',' then [] :: cur :: more else (c :: cur) :: more

/-- Modelled from the spec: `ArgumentParser::Parse`; an empty reply has no field. -/
def parseArguments (s : List Char) : List (List Char) :=
  if s.isEmpty then [] else splitCommas s

/-- The digits loop of the C library function `atoi`. -/
def atoiDigits (acc : Nat) : List Char → Nat
  | [] => acc
  | c :: rest =>
    if '0' ≤ c ∧ c ≤ '9' then atoiDigits (acc * 10 + (c.toNat - '0'.toNat)) rest else acc

/-- The C library function `atoi`: leading white space, an optional sign, then the
decimal digits up to the first other character (values that fit an `int`). -/
def atoi (s : List Char) : Int :=
  match s.dropWhile (fun c => c == ' ' || ('\t' ≤ c && c ≤ '\r')) with
  | '-' :: rest => -(atoiDigits 0 rest : Int)
  | '+' :: rest => (atoiDigits 0 rest : Int)
  | rest => (atoiDigits 0 rest : Int)

/-! ## Socket allocation -/

/-- The constant `CONNECT_ID_NUM`. -/
def CONNECT_ID_NUM : Nat := 12

/-- The socket types of `WioLTE::SocketType`; `other` stands for any value outside the
two enumerators. -/
inductive SocketType where
  | SOCKET_TCP
  | SOCKET_UDP
  | other
  deriving DecidableEq, Repr

/-- Source: `SocketOpen`, the body of the `if (strncmp(response, "+QISTATE: ", 10) == 0)`
test up to `atoi(parser[0])`: the connection id a reply line reports, if it reports
one. -/
def reportedConnectId (response : List Char) : Option Int :=
  if strncmpEq response "+QISTATE: ".toList 10 then
    let parser := parseArguments (response.drop 10)
    if parser.length ≥ 1 then some (atoi (parser.getD 0 [])) else none
  else none

/-- Source: `SocketOpen`, the `do ... while (response != "OK")` loop over the replies to
`AT+QISTATE?`. Yields the array `connectIdUsed` and the replies left unread, or `none`
with the replies left unread when the loop leaves through `RET_ERR(-1, E_UNKNOWN)`. -/
def stateQueryLoop (connectIdUsed : List Bool) :
    List (Option (List Char)) → Option (List Bool) × List (Option (List Char))
  | [] => (none, [])
  | none :: rest => (none, rest)
  | some response :: rest =>
    match reportedConnectId response with
    | some connectId =>
      if connectId < 0 ∨ (CONNECT_ID_NUM : Int) ≤ connectId then (none, rest)
      else
        let used := connectIdUsed.set connectId.toNat true
        if response != "OK".toList then stateQueryLoop used rest else (some used, rest)
    | none =>
      if response != "OK".toList then stateQueryLoop connectIdUsed rest
      else (some connectIdUsed, rest)

/-- Source: `SocketOpen`, the loop
`for (connectId = 0; connectId < CONNECT_ID_NUM; connectId++) if (!connectIdUsed[connectId]) break;`
with `k` ids left to try from `connectId`: the value of `connectId` after the loop. -/
def firstFreeFrom (connectIdUsed : List Bool) : Nat → Nat → Nat
  | 0, connectId => connectId
  | k + 1, connectId =>
    if !(connectIdUsed.getD connectId false) then connectId
    else firstFreeFrom connectIdUsed k (connectId + 1)

/-- Source: `SocketOpen`. `host` is `none` for a NULL pointer. -/
def SocketOpen (host : Option (List Char)) (port : Int) (type : SocketType) : Act Int Int := do
  let hostStr ← match host with
    | none => RET_ERR (-1) .E_UNKNOWN
    | some [] => RET_ERR (-1) .E_UNKNOWN
    | some h => pure h
  failIf (port < 0 ∨ 65535 < port) (-1) .E_UNKNOWN
  let typeStr ← match type with
    | .SOCKET_TCP => pure "TCP".toList
    | .SOCKET_UDP => pure "UDP".toList
    | .other => RET_ERR (-1) .E_UNKNOWN
  let connectIdUsed := List.replicate CONNECT_ID_NUM false
  WriteCommand "AT+QISTATE?".toList
  let connectIdUsed ← (fun s =>
    match stateQueryLoop connectIdUsed s.replies with
    | (none, rest) => .ret (-1) { s with replies := rest, lastError := .E_UNKNOWN }
    | (some used, rest) => .next used { s with replies := rest } : Act Int (List Bool))
  let connectId := firstFreeFrom connectIdUsed CONNECT_ID_NUM 0
  failIf (connectId ≥ CONNECT_ID_NUM) (-1) .E_UNKNOWN
  let some str ← WriteFormat [] ("AT+QIOPEN=1,".toList ++ decimal connectId ++ ",\"".toList
      ++ typeStr ++ "\",\"".toList ++ hostStr ++ "\",".toList ++ decimal port)
    | RET_ERR (-1) .E_UNKNOWN
  failIf (!(← WriteCommandAndReadResponse str "^OK$".toList 150000)) (-1) .E_UNKNOWN
  let some str ← WriteFormat [] ("^\\+QIOPEN: ".toList ++ decimal connectId ++ ",0$".toList)
    | RET_ERR (-1) .E_UNKNOWN
  failIf (← ReadResponse str 150000).isNone (-1) .E_UNKNOWN
  RET_OK (connectId : Int)

/-- A driver state that reads the scripted `replies`, has written nothing yet and whose
formatting helper accepts every text. -/
def driverWith (replies : List (Option (List Char))) : Driver :=
  { replies := replies, sent := [], formatOk := fun _ => true, lastError := .E_OK }

/-- Replies to `AT+QISTATE?` that report the connection ids 0, 1 and 2. -/
def sampleStateLines : List (List Char) :=
  ["+QISTATE: 0,\"TCP\",\"192.0.2.1\",80,0,2,1,0,0,\"uart1\"".toList,
   "+QISTATE: 1,\"TCP\",\"192.0.2.2\",80,0,2,1,1,0,\"uart1\"".toList,
   "+QISTATE: 2,\"UDP\",\"192.0.2.3\",53,0,2,1,2,0,\"uart1\"".toList]

/-! ## HTTP requests -/

/-- The statement `if (cond) return val;`. -/
def returnIf {ρ : Type} (cond : Bool) (val : ρ) : Act ρ Unit :=
  fun s => if cond then .ret val s else .next () s

/-- Modelled from the spec: `_AtSerial.ReadBinary(data, length, timeout)` (not in src), a
read of a raw block: `none` for `false`, the bytes received for `true`. -/
def ReadBinary {ρ : Type} (_length : Int) (_timeout : Int) : Act ρ (Option (List Char)) :=
  fun s =>
    match s.replies with
    | [] => .next none s
    | r :: rest => .next r { s with replies := rest }

/-- Modelled from the spec: `_AtSerial.ReadResponseQHTTPREAD(data, dataSize, timeout)`
(not in src), which reads a body of unknown length until the transport signals its end:
`none` for `false`, the text left in `data` for `true`. -/
def ReadResponseQHTTPREAD {ρ : Type} (_dataSize : Int) (_timeout : Int) :
    Act ρ (Option (List Char)) :=
  fun s =>
    match s.replies with
    | [] => .next none s
    | r :: rest => .next r { s with replies := rest }

/-- Modelled from the spec: `WioLTEHttpHeader` (its declaration is not in src). A header
set is the sequence of name/value pairs that the iteration `header.begin()` to
`header.end()` visits, which the spec gives as the caller-provided order. -/
abbrev WioLTEHttpHeader : Type := List (List Char × List Char)

/-- Source: `HttpSetUrl`. -/
def HttpSetUrl (url : List Char) : Act Bool Bool := do
  let some str ← WriteFormat [] ("AT+QHTTPURL=".toList ++ decimal url.length)
    | RETURN false
  WriteCommand str
  returnIf (← ReadResponse "^CONNECT$".toList 500).isNone false
  WriteBinary url
  returnIf (← ReadResponse "^OK$".toList 500).isNone false
  pure true

/-- Source: `HttpGet` and `HttpPost`, the two statements that set `timeoutSec` (C
division and remainder truncate toward zero). -/
def httpTimeoutSec (timeout : Int) : Int :=
  let timeoutSec := Int.tdiv timeout 1000
  if Int.tmod timeout 1000 > 0 then timeoutSec + 1 else timeoutSec

/-- Source: `HttpGet` and `HttpPost`, from the test of `https:` to the call of
`HttpSetUrl`, which is the same text in both but for the value `err` handed to
`RET_ERR`. -/
def httpConfigure {ρ : Type} (err : ρ) (url : List Char) : Act ρ Unit := do
  if strncmpEq url "https:".toList 6 then do
    failIf (!(← WriteCommandAndReadResponse "AT+QHTTPCFG=\"sslctxid\",1".toList
      "^OK$".toList 500)) err .E_UNKNOWN
    failIf (!(← WriteCommandAndReadResponse "AT+QSSLCFG=\"sslversion\",1,4".toList
      "^OK$".toList 500)) err .E_UNKNOWN
    failIf (!(← WriteCommandAndReadResponse "AT+QSSLCFG=\"ciphersuite\",1,0XFFFF".toList
      "^OK$".toList 500)) err .E_UNKNOWN
    failIf (!(← WriteCommandAndReadResponse "AT+QSSLCFG=\"seclevel\",1,0".toList
      "^OK$".toList 500)) err .E_UNKNOWN
  else pure ()
  failIf (!(← WriteCommandAndReadResponse "AT+QHTTPCFG=\"requestheader\",1".toList
    "^OK$".toList 500)) err .E_UNKNOWN
  failIf (!(← invoke (HttpSetUrl url))) err .E_UNKNOWN

/-- Source: `HttpGet` and `HttpPost`, the loop
`for (auto it = header.begin(); it != header.end(); it++)` that writes one line per
header into `headerSb`. -/
def writeHeaderLines (headerSb : List Char) (header : WioLTEHttpHeader) : List Char :=
  header.foldl (fun sb it => sb ++ it.1 ++ ": ".toList ++ it.2 ++ "\r\n".toList) headerSb

/-- Source: `HttpGet` and `HttpPost`, from `StringBuilder headerSb` to the `Host` line;
`method` is the text `"GET "` or `"POST "`. -/
def writeRequestLine (method host uri : List Char) : List Char :=
  let headerSb : List Char := []
  let headerSb := headerSb ++ method
  let headerSb := if (uri.length : Int) ≤ 0 then headerSb ++ "/".toList else headerSb ++ uri
  let headerSb := headerSb ++ " HTTP/1.1\r\n".toList
  let headerSb := headerSb ++ "Host: ".toList
  let headerSb := headerSb ++ host
  headerSb ++ "\r\n".toList

/-- Source: `HttpGet`, the statements that fill `headerSb` (lines 1135 to 1153). -/
def httpGetHeader (host uri : List Char) (header : WioLTEHttpHeader) : List Char :=
  let headerSb := writeRequestLine "GET ".toList host uri
  let headerSb := writeHeaderLines headerSb header
  headerSb ++ "\r\n".toList

/-- Source: `HttpPost`, the statements that fill `headerSb` (lines 1226 to 1245); `data`
is the body. The `RET_ERR` of the `Content-Length` line is the only way out. -/
def httpPostHeader (host uri data : List Char) (header : WioLTEHttpHeader) :
    Act (Bool × Option Int) (List Char) := do
  let headerSb := writeRequestLine "POST ".toList host uri
  let some headerSb ← WriteFormat headerSb
      ("Content-Length: ".toList ++ decimal data.length ++ "\r\n".toList)
    | RET_ERR (false, none) .E_UNKNOWN
  let headerSb := writeHeaderLines headerSb header
  pure (headerSb ++ "\r\n".toList)

/-- Source: `HttpGet`, from `StringBuilder str` to the read of `OK` after the header is
streamed (lines 1158 to 1164). -/
def httpGetRequest (timeoutSec : Int) (headerSb : List Char) : Act Int Unit := do
  let some str ← WriteFormat []
      ("AT+QHTTPGET=".toList ++ decimal timeoutSec ++ ",".toList ++ decimal headerSb.length)
    | RET_ERR 0 .E_UNKNOWN
  WriteCommand str
  failIf (← ReadResponse "^CONNECT$".toList 60000).isNone 0 .E_UNKNOWN
  let headerStr := headerSb
  WriteBinary headerStr
  failIf (← ReadResponse "^OK$".toList 1000).isNone 0 .E_UNKNOWN

/-- Source: `HttpGet`, from the read of `+QHTTPGET:` to the end (lines 1165 to 1187). The
bytes stored in `data` are not tracked. -/
def httpGetResponse (timeoutSec : Int) (dataSize : Int) : Act Int Int := do
  let some response ← ReadResponse "^\\+QHTTPGET: (.*)$".toList ((timeoutSec + 1) * 1000)
    | RET_ERR (-1) .E_UNKNOWN
  let parser := parseArguments response
  failIf (parser.length < 1) (-1) .E_UNKNOWN
  failIf (parser.getD 0 [] != "0".toList) (-1) .E_UNKNOWN
  let contentLength : Int := if parser.length ≥ 3 then atoi (parser.getD 2 []) else -1
  WriteCommand "AT+QHTTPREAD".toList
  failIf (← ReadResponse "^CONNECT$".toList 1000).isNone (-1) .E_UNKNOWN
  let contentLength ←
    if contentLength ≥ 0 then do
      failIf (contentLength + 1 > dataSize) (-1) .E_UNKNOWN
      failIf (← ReadBinary contentLength 60000).isNone (-1) .E_UNKNOWN
      failIf (← ReadResponse "^OK$".toList 1000).isNone (-1) .E_UNKNOWN
      pure contentLength
    else do
      let some body ← ReadResponseQHTTPREAD dataSize 60000
        | RET_ERR (-1) .E_UNKNOWN
      pure (body.length : Int)
  failIf (← ReadResponse "^\\+QHTTPREAD: 0$".toList 1000).isNone (-1) .E_UNKNOWN
  RET_OK contentLength

/-- Source: `HttpGet` with a caller header set. `RET_ERR(false, ...)` in a function
returning `int` returns 0. -/
def HttpGet (url : List Char) (dataSize : Int) (header : WioLTEHttpHeader) (timeout : Int) :
    Act Int Int := do
  let timeoutSec := httpTimeoutSec timeout
  httpConfigure (-1) url
  let some (host, uri) := SplitUrl url
    | RET_ERR 0 .E_UNKNOWN
  let headerSb := httpGetHeader host uri header
  httpGetRequest timeoutSec headerSb
  httpGetResponse timeoutSec dataSize

/-- Source: `HttpPost`, from `StringBuilder str` to the read of `OK` after header and
body are streamed (lines 1250 to 1257). -/
def httpPostRequest (timeoutSec : Int) (headerSb data : List Char) :
    Act (Bool × Option Int) Unit := do
  let some str ← WriteFormat []
      ("AT+QHTTPPOST=".toList ++ decimal (headerSb.length + data.length) ++ ",".toList ++
        decimal timeoutSec ++ ",".toList ++ decimal timeoutSec)
    | RET_ERR (false, none) .E_UNKNOWN
  WriteCommand str
  failIf (← ReadResponse "^CONNECT$".toList 60000).isNone (false, none) .E_UNKNOWN
  let headerStr := headerSb
  WriteBinary headerStr
  WriteBinary data
  failIf (← ReadResponse "^OK$".toList 1000).isNone (false, none) .E_UNKNOWN

/-- Source: `HttpPost`, from the read of `+QHTTPPOST:` to the end (lines 1258 to 1269).
The second component of the return value is what was stored in `*responseCode`. -/
def httpPostResponse (timeoutSec : Int) : Act (Bool × Option Int) (Bool × Option Int) := do
  let some response ← ReadResponse "^\\+QHTTPPOST: (.*)$".toList ((timeoutSec + 1) * 1000)
    | RET_ERR (false, none) .E_UNKNOWN
  let parser := parseArguments response
  failIf (parser.length < 1) (false, none) .E_UNKNOWN
  failIf (parser.getD 0 [] != "0".toList) (false, none) .E_UNKNOWN
  let responseCode : Int := if parser.length < 2 then -1 else atoi (parser.getD 1 [])
  RET_OK (true, some responseCode)

/-- Source: `HttpPost` with a caller header set; `data` is the body. -/
def HttpPost (url data : List Char) (header : WioLTEHttpHeader) (timeout : Int) :
    Act (Bool × Option Int) (Bool × Option Int) := do
  let timeoutSec := httpTimeoutSec timeout
  httpConfigure (false, none) url
  let some (host, uri) := SplitUrl url
    | RET_ERR (false, none) .E_UNKNOWN
  let headerSb ← httpPostHeader host uri data header
  httpPostRequest timeoutSec headerSb data
  httpPostResponse timeoutSec

/-! ## A reference encoder for SMS-DELIVER PDUs

The driver has no PDU encoder (`SendSMS` uses text mode). The encoder below follows the
layout of `SmsPdu` in the data model of the specification and serves to state the
round trip through the decoder of `ReceiveSMS`. -/

/-- The number a sequence of 7-bit symbols spells as a little-endian bit stream: the
sum over `i` of `text[i] * 128 ^ i`. -/
def septetValue : List Nat → Nat
  | [] => 0
  | c :: rest => c + 128 * septetValue rest

/-- GSM 7-bit packing as the specification describes it: the symbols laid end to end
in `ceil(7 * n / 8)` bytes, low bits first. -/
def packSeptets (text : List Nat) : List Nat :=
  (List.range ((7 * text.length + 7) / 8)).map fun k => septetValue text / 256 ^ k % 256

/-- The digits of an address, two to a byte, the first digit of a pair in the low
nibble; an odd last digit is paired with the filler `0xF`. -/
def packDigits : List Nat → List Nat
  | [] => []
  | [d] => [0xF0 + d]
  | d0 :: d1 :: rest => (d1 * 16 + d0) :: packDigits rest

/-- The address field: length in semi-octets, type of address, packed digits. -/
def encodeAddress (typeOfAddress : Nat) (digits : List Nat) : List Nat :=
  digits.length :: typeOfAddress :: packDigits digits

/-- An SMS-DELIVER PDU in the layout of the data model: SMSC length and field, TP-MTI
(`0x40`, the UDHI bit, iff a user-data header is present), address field, protocol id,
data-coding scheme, service-centre timestamp, then the user data: its length, the
header length and header when present, and the packed text. With a header the length
byte counts the symbols plus `1 + header length`, as the decoder of the specification
subtracts it. -/
def encodeDeliverPdu (smsc : List Nat) (typeOfAddress : Nat) (digits : List Nat)
    (pid dcs : Nat) (scts : List Nat) (udh : Option (List Nat)) (text : List Nat) :
    List Nat :=
  [smsc.length] ++ smsc ++
  [match udh with
    | none => 0x00
    | some _ => 0x40] ++
  encodeAddress typeOfAddress digits ++ [pid, dcs] ++ scts ++
  (match udh with
    | none => [text.length]
    | some h => [text.length + 1 + h.length, h.length] ++ h) ++
  packSeptets text

/-- The characters of a number given by its decimal digits. -/
def digitChars (digits : List Nat) : List Nat :=
  digits.map fun d => '0'.toNat + d

/-- A service-centre timestamp. -/
def sampleScts : List Nat := [0x20, 0x80, 0x62, 0x91, 0x73, 0x14, 0x08]

/-- The bytes of `sampleHexPdu`. -/
def samplePdu : List Nat :=
  [0x07, 0x91, 0x13, 0x26, 0x04, 0x00, 0x00, 0xF0, 0x04, 0x0B, 0x91, 0x13, 0x46, 0x61, 0x00,
   0x89, 0xF6, 0x00, 0x00, 0x20, 0x80, 0x62, 0x91, 0x73, 0x14, 0x08, 0x0C, 0xC8, 0xF7, 0x1D,
   0x14, 0x96, 0x97, 0x41, 0xF9, 0x77, 0xFD, 0x07]

/-- Replies to `AT+QISTATE?` that report all twelve connection ids. -/
def sampleFullStateLines : List (List Char) :=
  (List.range 12).map fun i => "+QISTATE: ".toList ++ Nat.toDigits 10 i ++ ",\"TCP\"".toList

/-! ## Signal strength -/

/-- The constant `INT_MIN` of `<limits.h>` for a 32-bit `int`. -/
def INT_MIN : Int := -2147483648

/-- A number given as the fraction `num / den` with `den` positive (not in lowest terms):
a value of type `double`, or the exact result of an operation before it is rounded to
one. -/
structure Fraction where
  num : Int
  den : Nat
  deriving DecidableEq, Repr

/-- The number of binary digits of `n`, with `k` halvings left (`k = n` is enough). -/
def binaryDigits : Nat → Nat → Nat
  | 0, _ => 0
  | k + 1, n => if n = 0 then 0 else binaryDigits k (n / 2) + 1

/-- The `double` nearest to the positive number `a / b`, as IEEE 754 arithmetic rounds
a result: a significand of 53 binary digits, round to nearest, ties to even. `e` is
the exponent with `2 ^ e <= a / b < 2 ^ (e + 1)`, `m` the rounded significand, and the
value is `m * 2 ^ (e - 52)`. The range of the exponent of a `double` is not modelled
(the values of this driver are far inside it). -/
def roundPositive (a b : Nat) : Fraction :=
  let e0 : Int := (binaryDigits a a : Int) - (binaryDigits b b : Int)
  let e : Int := if a * 2 ^ (-e0).toNat < b * 2 ^ e0.toNat then e0 - 1 else e0
  let shift : Int := 52 - e
  let n := a * 2 ^ shift.toNat
  let d := b * 2 ^ (-shift).toNat
  let q := n / d
  let r := n % d
  let m := if 2 * r > d ∨ (2 * r = d ∧ q % 2 = 1) then q + 1 else q
  { num := (m * 2 ^ (-shift).toNat : Nat), den := 2 ^ shift.toNat }

/-- The `double` nearest to `x` (round to nearest, ties to even). -/
def roundToDouble (x : Fraction) : Fraction :=
  if x.num = 0 then { num := 0, den := 1 }
  else if x.num < 0 then
    let r := roundPositive x.num.natAbs x.den
    { num := -r.num, den := r.den }
  else roundPositive x.num.natAbs x.den

/-- The conversion `(double)z` of an `int`, which is exact. -/
def doubleOfInt (z : Int) : Fraction := { num := z, den := 1 }

/-- The operation `x - y` on `double` values: the exact difference, rounded. -/
def doubleSub (x y : Fraction) : Fraction :=
  roundToDouble { num := x.num * y.den - y.num * x.den, den := x.den * y.den }

/-- The operation `x + y` on `double` values: the exact sum, rounded. -/
def doubleAdd (x y : Fraction) : Fraction :=
  roundToDouble { num := x.num * y.den + y.num * x.den, den := x.den * y.den }

/-- The operation `x * y` on `double` values: the exact product, rounded. -/
def doubleMul (x y : Fraction) : Fraction :=
  roundToDouble { num := x.num * y.num, den := x.den * y.den }

/-- The operation `x / y` on `double` values, `y` not zero: the exact quotient,
rounded. -/
def doubleDiv (x y : Fraction) : Fraction :=
  roundToDouble { num := x.num * y.den * Int.sign y.num, den := x.den * y.num.natAbs }

/-- The conversion `(int)x` of a `double`, which drops the fraction (values that fit an
`int`). -/
def doubleToInt (x : Fraction) : Int := Int.tdiv x.num x.den

/-- The macro `LINEAR_SCALE` as `GetReceivedSignalStrength` uses it: `val` is a
`double` and the four bounds are `int` constants, so `(inMax) - (inMin)` and
`(outMax) - (outMin)` are computed in `int`, and the subtraction of `inMin`, the
division, the multiplication and the addition of `outMin` are `double` operations, each
rounded. -/
def LINEAR_SCALE (val : Fraction) (inMin inMax outMin outMax : Int) : Fraction :=
  doubleAdd
    (doubleMul (doubleDiv (doubleSub val (doubleOfInt inMin)) (doubleOfInt (inMax - inMin)))
      (doubleOfInt (outMax - outMin)))
    (doubleOfInt outMin)

/-- The expression of the macro `LINEAR_SCALE` with the arithmetic taken exactly, over
the rationals: the linear interpolation the specification describes, for comparison
with `LINEAR_SCALE`. -/
def exactLinearScale (val inMin inMax outMin outMax : ℚ) : ℚ :=
  (val - inMin) / (inMax - inMin) * (outMax - outMin) + outMin

/-- Truncation of an exact rational to an integer, toward zero. -/
def truncateToInt (x : ℚ) : Int := Int.tdiv x.num x.den

/-- Source: `GetReceivedSignalStrength`, the chain of tests on `rssi` (lines 659 to
670): the value handed to `RET_OK`. -/
def rssiToDbm (rssi : Int) : Int :=
  if rssi = 0 then -113
  else if rssi = 1 then -111
  else if 2 ≤ rssi ∧ rssi ≤ 30 then
    doubleToInt (LINEAR_SCALE (doubleOfInt rssi) 2 30 (-109) (-53))
  else if rssi = 31 then -51
  else if rssi = 99 then -999
  else if rssi = 100 then -116
  else if rssi = 101 then -115
  else if 102 ≤ rssi ∧ rssi ≤ 190 then
    doubleToInt (LINEAR_SCALE (doubleOfInt rssi) 102 190 (-114) (-26))
  else if rssi = 191 then -25
  else if rssi = 199 then -999
  else -999

/-- Source: `GetReceivedSignalStrength`. -/
def GetReceivedSignalStrength : Act Int Int := do
  WriteCommand "AT+CSQ".toList
  let some response ← ReadResponse "^\\+CSQ: (.*)$".toList 500
    | RET_ERR INT_MIN .E_UNKNOWN
  let parser := parseArguments response
  failIf (parser.length != 2) INT_MIN .E_UNKNOWN
  let rssi := atoi (parser.getD 0 [])
  failIf (← ReadResponse "^OK$".toList 500).isNone INT_MIN .E_UNKNOWN
  RET_OK (rssiToDbm rssi)

/-! ## Socket send and time synchronisation -/

/-- Source: `SocketSend(int connectId, const byte* data, int dataSize)`; `data` holds the
`dataSize` bytes handed to `WriteBinary`. -/
def SocketSend (connectId : Int) (data : List Char) (dataSize : Int) : Act Bool Bool := do
  failIf (connectId ≥ CONNECT_ID_NUM) false .E_UNKNOWN
  failIf (dataSize > 1460) false .E_UNKNOWN
  let some str ← WriteFormat []
      ("AT+QISEND=".toList ++ decimal connectId ++ ",".toList ++ decimal dataSize)
    | RET_ERR false .E_UNKNOWN
  WriteCommand str
  failIf (← ReadResponse "^>".toList 500).isNone false .E_UNKNOWN
  WriteBinary (data.take dataSize.toNat)
  failIf (← ReadResponse "^SEND OK$".toList 5000).isNone false .E_UNKNOWN
  RET_OK true

/-- The conversion of an `int` to `bool` at a `return` of a function returning `bool`:
every value but 0 is `true`. -/
def boolOfInt (z : Int) : Bool := z != 0

/-- Source: `SyncTime`. The statement `return RET_ERR(-1, E_UNKNOWN);` passes an `int`,
so it selects `ReturnError(int, int, ErrorCodeType)`, and the `-1` that comes back is
converted to the return type `bool`. -/
def SyncTime (host : List Char) : Act Bool Bool := do
  let some str ← WriteFormat [] ("AT+QNTP=1,\"".toList ++ host ++ "\"".toList)
    | RET_ERR false .E_UNKNOWN
  failIf (!(← WriteCommandAndReadResponse str "^OK$".toList 500)) false .E_UNKNOWN
  let some response ← ReadResponse "^\\+QNTP: (.*)$".toList 125000
    | RET_ERR false .E_UNKNOWN
  failIf (!(strncmpEq response "0,".toList 2)) (boolOfInt (-1)) .E_UNKNOWN
  RET_OK true

/-! ## Clock -/

/-- The fields of `struct tm` of `<time.h>`. -/
structure Tm where
  tm_sec : Int
  tm_min : Int
  tm_hour : Int
  tm_mday : Int
  tm_mon : Int
  tm_year : Int
  tm_wday : Int
  tm_yday : Int
  tm_isdst : Int
  deriving DecidableEq, Repr

/-- Source: `GetTime`. The second component of the return value is what the function
has stored in `*tim` when it reaches the call of `mktime`; the normalisation `mktime`
does (it sets `tm_wday` and `tm_yday`) is not modelled. -/
def GetTime : Act (Bool × Option Tm) (Bool × Option Tm) := do
  WriteCommand "AT+CCLK?".toList
  let some response ← ReadResponse "^\\+CCLK: (.*)$".toList 500
    | RET_ERR (false, none) .E_UNKNOWN
  failIf (← ReadResponse "^OK$".toList 500).isNone (false, none) .E_UNKNOWN
  failIf (response.length != 22) (false, none) .E_UNKNOWN
  let parameter := response
  failIf (charAt parameter 0 != '"') (false, none) .E_UNKNOWN
  failIf (charAt parameter 3 != '/') (false, none) .E_UNKNOWN
  failIf (charAt parameter 6 != '/') (false, none) .E_UNKNOWN
  failIf (charAt parameter 9 != ',') (false, none) .E_UNKNOWN
  failIf (charAt parameter 12 != ':') (false, none) .E_UNKNOWN
  failIf (charAt parameter 15 != ':') (false, none) .E_UNKNOWN
  failIf (charAt parameter 21 != '"') (false, none) .E_UNKNOWN
  let yearOffset := atoi (parameter.drop 1)
  let tim : Tm :=
    { tm_year := (if yearOffset ≥ 80 then 1900 else 2000) + yearOffset - 1900
      tm_mon := atoi (parameter.drop 4) - 1
      tm_mday := atoi (parameter.drop 7)
      tm_hour := atoi (parameter.drop 10)
      tm_min := atoi (parameter.drop 13)
      tm_sec := atoi (parameter.drop 16)
      tm_wday := 0
      tm_yday := 0
      tm_isdst := 0 }
  RET_OK (true, some tim)

/-- The value of a decimal digit character. -/
def digitValue (c : Char) : Nat := c.toNat - '0'.toNat

/-! ## Stored messages -/

/-- Source: `GetFirstIndexOfReceivedSMS`, the `while (true)` loop over the replies to
`AT+CMGL=4`, entered with the current `messageIndex`. Yields the value of `messageIndex`
at the `break` and the replies left unread, or `none` with the replies left unread when
the loop leaves through `return -1`. A reply other than `OK` is a line that matched
`\+CMGL: .*`, so it has the 7 characters `&response.c_str()[7]` skips. -/
def listingLoop (messageIndex : Int) :
    List (Option (List Char)) → Option Int × List (Option (List Char))
  | [] => (none, [])
  | none :: rest => (none, rest)
  | some response :: rest =>
    if response == "OK".toList then (some messageIndex, rest)
    else
      let parsed : Option Int :=
        if messageIndex < 0 then
          let parser := parseArguments (response.drop 7)
          if parser.length != 4 then none else some (atoi (parser.getD 0 []))
        else some messageIndex
      match parsed with
      | none => (none, rest)
      | some messageIndex =>
        match rest with
        | [] => (none, [])
        | none :: rest => (none, rest)
        | some _ :: rest => listingLoop messageIndex rest

/-- Source: `GetFirstIndexOfReceivedSMS`. It returns without touching the error code. -/
def GetFirstIndexOfReceivedSMS : Act Int Int := do
  returnIf (!(← WriteCommandAndReadResponse "AT+CMGF=0".toList "^OK$".toList 500)) (-1)
  WriteCommand "AT+CMGL=4".toList
  let messageIndex : Int := -1
  let messageIndex ← (fun s =>
    match listingLoop messageIndex s.replies with
    | (none, rest) => .ret (-1) { s with replies := rest }
    | (some index, rest) => .next index { s with replies := rest } : Act Int Int)
  RETURN (if messageIndex < 0 then -2 else messageIndex)

/-- The statement `if (cond) return RET_OK(val);`. -/
def succeedIf {ρ : Type} (cond : Bool) (val : ρ) : Act ρ Unit :=
  fun s => if cond then .ret val { s with lastError := .E_OK } else .next () s

/-- How a call of `ReceiveSMS` ends: it returns `value`, having stored `stored` in the
caller buffers when the decode ran through, or it accesses `buf[idx]` outside an array,
after which the behaviour of the program is undefined. -/
inductive SmsOutcome where
  | returned (value : Int) (stored : Option SmsResult)
  | undefined (buf : Buffer) (idx : Int)
  deriving DecidableEq, Repr

/-- Source: `ReceiveSMS(char* message, int messageSize, char* dialNumber,
int dialNumberSize)`. `dialNumber` is `none` for a NULL pointer and
`some dialNumberSize` otherwise. -/
def ReceiveSMS (messageSize : Int) (dialNumber : Option Int) :
    Act SmsOutcome SmsOutcome := do
  let messageIndex ← invoke GetFirstIndexOfReceivedSMS
  succeedIf (messageIndex == -2) (.returned 0 none)
  failIf (messageIndex < 0) (.returned (-1) none) .E_UNKNOWN
  failIf (!(← WriteCommandAndReadResponse "AT+CMGF=0".toList "^OK$".toList 500))
    (.returned (-1) none) .E_UNKNOWN
  let some str ← WriteFormat [] ("AT+CMGR=".toList ++ decimal messageIndex)
    | RET_ERR (.returned (-1) none) .E_UNKNOWN
  WriteCommand str
  failIf (← ReadResponse "^\\+CMGR: .*$".toList 500).isNone (.returned (-1) none) .E_UNKNOWN
  let some response ← ReadResponse "^(.*)$".toList 500
    | RET_ERR (.returned (-1) none) .E_UNKNOWN
  let hex := response
  let result ← match decodeHexPdu hex messageSize dialNumber with
    | .unknown => RET_ERR (.returned (-1) none) .E_UNKNOWN
    | .outOfBounds buf idx => RETURN (.undefined buf idx)
    | .ok result => pure result
  failIf (← ReadResponse "^OK$".toList 500).isNone (.returned (-1) (some result)) .E_UNKNOWN
  RET_OK (.returned result.smSize (some result))

/-- Source: `DeleteReceivedSMS`. -/
def DeleteReceivedSMS : Act Bool Bool := do
  let messageIndex ← invoke GetFirstIndexOfReceivedSMS
  failIf (messageIndex == -2) false .E_UNKNOWN
  failIf (messageIndex < 0) false .E_UNKNOWN
  let some str ← WriteFormat [] ("AT+CMGD=".toList ++ decimal messageIndex)
    | RET_ERR false .E_UNKNOWN
  failIf (!(← WriteCommandAndReadResponse str "^OK$".toList 500)) false .E_UNKNOWN
  RET_OK true

/-- An SMS-DELIVER PDU with the UDHI bit set whose user-data length byte (0) is smaller
than 1 + the header length (2): empty SMSC field, TP-MTI 0x40, an empty originating
address of type 0x81, PID, DCS, seven timestamp bytes, user-data length 0, header
length 2 and two header bytes. -/
def shortUdlHexPdu : List Char :=
  "0040008100000102030405060700020909".toList

/-- The replies of a modem that stores one message with text `hex` at index 0: to
`AT+CMGF=0`, to the listing `AT+CMGL=4`, to `AT+CMGF=0` and to the read `AT+CMGR=0`. -/
def storedMessageReplies (hex : List Char) : List (Option (List Char)) :=
  [some "OK".toList, some "+CMGL: 0,1,,17".toList, some hex, some "OK".toList,
   some "OK".toList, some "+CMGR: 1,,17".toList, some hex, some "OK".toList]

/-! ## Registration polling -/

/-- The conversion `(unsigned long)timeout` of a `long` (32 bits wide on the target). -/
def toUnsignedLong (z : Int) : Nat := (z % 2 ^ 32).toNat

/-- Source: `WaitForCSRegistration` and `WaitForPSRegistration`, the statements of a
polling round from `WriteCommand` to the test `status == 0`, which are the same text
for the three registers but for the command and the pattern. Yields `status`. -/
def queryStatus (command pattern : List Char) : Act Bool Int := do
  WriteCommand command
  let some response ← ReadResponse pattern 500
    | RET_ERR false .E_UNKNOWN
  let parser := parseArguments response
  failIf (parser.length < 2) false .E_UNKNOWN
  let status := atoi (parser.getD 1 [])
  failIf (← ReadResponse "^OK$".toList 500).isNone false .E_UNKNOWN
  failIf (status == 0) false .E_UNKNOWN
  pure status

/-- Source: `WaitForCSRegistration`, the `while (true)` loop, with `k` rounds left from
round `i`; it ends normally at the `break`. Modelled from the spec: `Stopwatch` (not in
src); `sw i` is the value `sw.ElapsedMilliseconds()` has when round `i` reads it
(rounds count from 0). `_Delay` has no effect on the channel. When no round is left the
loop is cut off as a failure, which `WaitForCSRegistration` never reaches: a round that
goes on has read two replies. -/
def csRegistrationLoop (sw : Nat → Nat) (timeout : Int) : Nat → Nat → Act Bool Unit
  | 0, _ => RET_ERR false .E_UNKNOWN
  | k + 1, i => do
    let status ← queryStatus "AT+CREG?".toList "^\\+CREG: (.*)$".toList
    if status == 1 || status == 5 then pure ()
    else do
      failIf (sw i ≥ toUnsignedLong timeout) false .E_UNKNOWN
      csRegistrationLoop sw timeout k (i + 1)

/-- Source: `WaitForCSRegistration`. -/
def WaitForCSRegistration (sw : Nat → Nat) (timeout : Int) : Act Bool Bool := do
  (fun s => csRegistrationLoop sw timeout (s.replies.length + 1) 0 s : Act Bool Unit)
  RET_OK true

/-- Source: `WaitForPSRegistration`, the `while (true)` loop, with `k` rounds left from
round `i`; `sw` is the stopwatch as in `csRegistrationLoop`. -/
def psRegistrationLoop (sw : Nat → Nat) (timeout : Int) : Nat → Nat → Act Bool Unit
  | 0, _ => RET_ERR false .E_UNKNOWN
  | k + 1, i => do
    let status ← queryStatus "AT+CGREG?".toList "^\\+CGREG: (.*)$".toList
    if status == 1 || status == 5 then pure ()
    else do
      let status ← queryStatus "AT+CEREG?".toList "^\\+CEREG: (.*)$".toList
      if status == 1 || status == 5 then pure ()
      else do
        failIf (sw i ≥ toUnsignedLong timeout) false .E_UNKNOWN
        psRegistrationLoop sw timeout k (i + 1)

/-- Source: `WaitForPSRegistration`. -/
def WaitForPSRegistration (sw : Nat → Nat) (timeout : Int) : Act Bool Bool := do
  (fun s => psRegistrationLoop sw timeout (s.replies.length + 1) 0 s : Act Bool Unit)
  RET_OK true

/-- The replies read by successive polling rounds that each get a status line and the
line `OK` that ends the reply. -/
def roundReplies : List (List Char × List Char) → List (Option (List Char))
  | [] => []
  | (response, ok) :: more => some response :: some ok :: roundReplies more

/-! ## GNSS location -/

/-- Source: `GetGNSSLocation`, the `while (true)` loop over the replies to
`AT+QGPSLOC?`, entered with the current `locStr`. Yields `locStr` at the `break`, or the
error code of the `RET_ERR` through which the loop leaves, and the replies left
unread. -/
def locationLoop (locStr : List Char) :
    List (Option (List Char)) → Except ErrorCodeType (List Char) × List (Option (List Char))
  | [] => (.error .E_TIMEOUT, [])
  | none :: rest => (.error .E_TIMEOUT, rest)
  | some response :: rest =>
    if response == "OK".toList then (.ok locStr, rest)
    else if strncmpEq response "+CME ERROR: ".toList 12 then
      if response.drop 12 == "516".toList then (.error .E_GNSS_NOT_FIXED, rest)
      else (.error .E_UNKNOWN, rest)
    else locationLoop response rest

/-- Source: `GetGNSSLocation`. The four arguments tell which of the pointers
`longitude`, `latitude`, `altitude` and `tim` are not NULL; the values stored through
them are not tracked. The return value is `none` when the call reads
`parser[k][strlen(parser[k]) - 1]` of an empty field, which is outside the field. -/
def GetGNSSLocation (longitude latitude _altitude tim : Bool) :
    Act (Option Bool) (Option Bool) := do
  WriteCommand "AT+QGPSLOC?".toList
  let locStr ← (fun s =>
    match locationLoop [] s.replies with
    | (.error err, rest) => .ret (some false) { s with replies := rest, lastError := err }
    | (.ok locStr, rest) => .next locStr { s with replies := rest } :
      Act (Option Bool) (List Char))
  failIf (locStr.length < 10) (some false) .E_UNKNOWN
  let parser := parseArguments (locStr.drop 10)
  failIf (parser.length < 5) (some false) .E_UNKNOWN
  returnIf (latitude && (parser.getD 1 []).isEmpty) none
  returnIf (longitude && (parser.getD 2 []).isEmpty) none
  let ymd := parser.getD 9 []
  let hms := parser.getD 0 []
  failIf (tim && parser.length < 10) (some false) .E_UNKNOWN
  failIf (tim && ymd.length != 6) (some false) .E_UNKNOWN
  failIf (tim && hms.length < 6) (some false) .E_UNKNOWN
  RET_OK (some true)

/-! ## Ways out of a statement -/

/-- Every `return` the statement `x` can take leaves a return value and a state that
satisfy `P`. -/
def Act.returnsOnly {ρ α : Type} (x : Act ρ α) (P : ρ → Driver → Prop) : Prop :=
  ∀ s r s1, x s = .ret r s1 → P r s1

/-- Every value the statement `x` hands to the next statement satisfies `Q`; with `Q`
nowhere true, control never gets past `x`. -/
def Act.yieldsOnly {ρ α : Type} (x : Act ρ α) (Q : α → Prop) : Prop :=
  ∀ s a s1, x s = .next a s1 → Q a

/-- Source: `ReceiveSMS`, the decode of the PDU bytes `data` (lines 751 to 797) on a
machine where the bytes `beyond` follow the buffer in memory. The header walk, the
address decode and the length bytes are tested against `dataEnd` and read `data` alone.
The unpacking loop reads `sm[offset]` and `sm[offset - 1]` without a test, so a read at
or after `dataEnd` finds a byte of `beyond`; such a read is outside the buffer all the
same, and `decodePdu` records it as `Run.outOfBounds`. -/
def decodePduIn (data beyond : List Nat) (messageSize : Int) (dialNumber : Option Int) :
    Run SmsResult := do
  let h ← headerWalk data
  let number ← decodeDialNumber data h dialNumber
  let (smSize, sm) ← userDataLayout data h
  let message ← unpackUserData (data ++ beyond) smSize sm messageSize
  pure { smSize := smSize, message := message, dialNumber := number }

/-! ## Theorems -/

section RunLemmas

@[simp] theorem Run.ok_bind {α β : Type} (a : α) (f : α → Run β) :
    (Run.ok a >>= f) = f a := rfl

@[simp] theorem Run.pure_bind {α β : Type} (a : α) (f : α → Run β) :
    ((pure a : Run α) >>= f) = f a := rfl

@[simp] theorem Run.unknown_bind {α β : Type} (f : α → Run β) :
    ((Run.unknown : Run α) >>= f) = Run.unknown := rfl

@[simp] theorem Run.outOfBounds_bind {α β : Type} (b : Buffer) (i : Int) (f : α → Run β) :
    ((Run.outOfBounds b i : Run α) >>= f) = Run.outOfBounds b i := rfl

theorem Run.pure_eq_ok {α : Type} (a : α) : (pure a : Run α) = Run.ok a := rfl

theorem readData_of_lt (data : List Nat) (i : Nat) (h : i < data.length) :
    readData data i = .ok data[i] := by
  simp [readData, List.getElem?_eq_getElem h]

theorem readData_of_ge (data : List Nat) (i : Nat) (h : data.length ≤ i) :
    readData data i = .outOfBounds .data i := by
  simp [readData, List.getElem?_eq_none h]

theorem checkWrite_of_lt (buf : Buffer) (size idx : Int) (h0 : 0 ≤ idx) (h : idx < size) :
    checkWrite buf size idx = .ok () := by
  simp [checkWrite, h0, h]

theorem Run.bind_eq_ok {α β : Type} (x : Run α) (f : α → Run β) (b : β) :
    (x >>= f) = .ok b ↔ ∃ a, x = .ok a ∧ f a = .ok b := by
  cases x with
  | ok a => simp
  | unknown => simp
  | outOfBounds buf i => simp

theorem require_eq_ok (c : Bool) (u : Unit) : require c = .ok u ↔ c = true := by
  cases c <;> simp [require]

theorem readData_eq_ok (data : List Nat) (i b : Nat) :
    readData data i = .ok b ↔ data[i]? = some b := by
  unfold readData
  cases h : data[i]? with
  | none => simp
  | some c => simp

theorem getElem?_eq_some_getD (data : List Nat) (i b : Nat) (h : data[i]? = some b) :
    i < data.length ∧ data.getD i 0 = b := by
  obtain ⟨hlt, hget⟩ := List.getElem?_eq_some.mp h
  refine ⟨hlt, ?_⟩
  simp [List.getD_eq_getElem?_getD, h]

end RunLemmas

section Septets

theorem leValue_drop (l : List Nat) (hb : ∀ b ∈ l, b < 256) (k : Nat) :
    leValue l / 256 ^ k = leValue (l.drop k) := by
  induction k generalizing l with
  | zero => simp
  | succ k ih =>
    cases l with
    | nil => simp [leValue]
    | cons b rest =>
      have hb0 : b < 256 := hb b (List.mem_cons_self _ _)
      have hrest : ∀ c ∈ rest, c < 256 := fun c hc => hb c (List.mem_cons_of_mem _ hc)
      have h1 : leValue (b :: rest) / 256 = leValue rest := by
        simp only [leValue]; omega
      rw [pow_succ, Nat.mul_comm, ← Nat.div_div_eq_div_mul, h1, List.drop_succ_cons]
      exact ih rest hrest

theorem and_0x7f (x : Nat) : x &&& 0x7f = x % 128 := by
  have := Nat.and_pow_two_sub_one_eq_mod x 7
  simpa using this

theorem leValue_drop_data (data : List Nat) (hb : ∀ b ∈ data, b < 256) (sm k : Nat) :
    leValue (data.drop sm) / 256 ^ k = leValue (data.drop (sm + k)) := by
  have hd : ∀ b ∈ data.drop sm, b < 256 := fun b h => hb b (List.mem_of_mem_drop h)
  rw [leValue_drop _ hd, List.drop_drop, Nat.add_comm]

theorem pow_two_split (a b : Nat) : 2 ^ (8 * a + b) = 256 ^ a * 2 ^ b := by
  rw [Nat.pow_add, Nat.pow_mul]

/-- The loop body yields the 7-bit field at bit offset `7 * i` of the packed bytes. -/
theorem septetAt_eq (data : List Nat) (sm i : Nat) (hb : ∀ b ∈ data, b < 256)
    (hi : sm + (i - i / 8) < data.length) :
    septetAt data sm i = .ok (leValue (data.drop sm) / 2 ^ (7 * i) % 128) := by
  unfold septetAt
  by_cases hr : i % 8 = 0
  · have e7 : 7 * i = 8 * (i - i / 8) + 0 := by omega
    rw [e7, pow_two_split, pow_zero, Nat.mul_one, leValue_drop_data data hb,
      List.drop_eq_getElem_cons hi]
    simp only [hr, if_true, readData_of_lt data _ hi, leValue, and_0x7f, Run.ok_bind,
      Run.pure_eq_ok]
    congr 1
    omega
  · have hlo : sm + (i - i / 8 - 1) < data.length := by omega
    have hhi : sm + (i - i / 8 - 1) + 1 < data.length := by omega
    have ehi : sm + (i - i / 8) = sm + (i - i / 8 - 1) + 1 := by omega
    have e7 : 7 * i = 8 * (i - i / 8 - 1) + (8 - i % 8) := by omega
    rw [e7, pow_two_split, ← Nat.div_div_eq_div_mul, leValue_drop_data data hb,
      List.drop_eq_getElem_cons hlo, List.drop_eq_getElem_cons hhi]
    simp only [hr, if_false, readData_of_lt data _ hi, readData_of_lt data _ hlo, leValue,
      and_0x7f, Run.ok_bind, Run.pure_eq_ok, Nat.shiftLeft_eq, Nat.shiftRight_eq_div_pow]
    congr 1
    have hlt : i % 8 < 8 := Nat.mod_lt _ (by norm_num)
    have hbl : data[sm + (i - i / 8 - 1)] < 256 := hb _ (List.getElem_mem _)
    have hbh : data[sm + (i - i / 8 - 1) + 1] < 256 := hb _ (List.getElem_mem _)
    have hget : data[sm + (i - i / 8)] = data[sm + (i - i / 8 - 1) + 1] := by
      congr 1
    rw [hget]
    generalize data[sm + (i - i / 8 - 1)] = lo at *
    generalize data[sm + (i - i / 8 - 1) + 1] = hi8 at *
    generalize leValue (List.drop (sm + (i - i / 8 - 1) + 1 + 1) data) = R
    generalize i % 8 = r at *
    interval_cases r
    · exact absurd rfl hr
    all_goals norm_num
    all_goals omega

theorem unpackLoop_eq (data : List Nat) (sm : Nat) (messageSize : Int)
    (hb : ∀ b ∈ data, b < 256) (k i : Nat)
    (hread : ∀ j, i ≤ j → j < i + k → sm + (j - j / 8) < data.length)
    (hcap : ((i + k : Nat) : Int) ≤ messageSize) :
    unpackLoop data sm messageSize k i =
      .ok ((List.range k).map fun j => leValue (data.drop sm) / 2 ^ (7 * (i + j)) % 128) := by
  induction k generalizing i with
  | zero => simp [unpackLoop]
  | succ k ih =>
    have h1 := septetAt_eq data sm i hb (hread i (Nat.le_refl _) (by omega))
    have h2 : checkWrite .message messageSize (i : Int) = .ok () :=
      checkWrite_of_lt _ _ _ (by omega) (by omega)
    have h3 := ih (i + 1) (fun j h1 h2 => hread j (by omega) (by omega)) (by omega)
    simp only [unpackLoop, h1, h2, h3, Run.ok_bind, Run.pure_eq_ok]
    rw [List.range_succ_eq_map, List.map_cons, List.map_map]
    congr 2
    apply List.map_congr_left
    intro j _
    simp only [Function.comp, Nat.succ_eq_add_one]
    congr 3
    omega

theorem unpackUserData_eq (data : List Nat) (sm n : Nat) (messageSize : Int)
    (hb : ∀ b ∈ data, b < 256)
    (hread : ∀ i, i < n → sm + (i - i / 8) < data.length)
    (hcap : (n : Int) + 1 ≤ messageSize) :
    unpackUserData data (n : Int) sm messageSize =
      .ok ((List.range n).map fun j => leValue (data.drop sm) / 2 ^ (7 * j) % 128) := by
  have h1 : require (!decide (messageSize < (n : Int) + 1)) = .ok () := by
    simp [require]; omega
  have h2 := unpackLoop_eq data sm messageSize hb n 0 (fun j _ h => hread j (by omega))
    (by push_cast; omega)
  have h3 : checkWrite .message messageSize (n : Int) = .ok () :=
    checkWrite_of_lt _ _ _ (by omega) (by omega)
  simp only [unpackUserData, h1, Int.toNat_ofNat, h2, h3, Run.ok_bind, Run.pure_eq_ok]
  simp

theorem septetAt_zero (data : List Nat) (sm : Nat) (h : sm < data.length) :
    septetAt data sm 0 = .ok (data[sm] &&& 0x7f) := by
  simp [septetAt, readData_of_lt data sm h, Run.pure_eq_ok]

theorem septetAt_one (data : List Nat) (sm : Nat) (h : sm + 1 < data.length) :
    septetAt data sm 1 =
      .ok (((data[sm + 1] * 256 + data[sm]) <<< 1 >>> 8) &&& 0x7f) := by
  have h0 : sm < data.length := by omega
  simp [septetAt, readData_of_lt data (sm + 1) h, readData_of_lt data sm h0, Run.pure_eq_ok]

theorem septetAt_seven (data : List Nat) (sm : Nat) (h : sm + 7 < data.length) :
    septetAt data sm 7 =
      .ok (((data[sm + 7] * 256 + data[sm + 6]) <<< 7 >>> 8) &&& 0x7f) := by
  have h0 : sm + 6 < data.length := by omega
  simp [septetAt, readData_of_lt data (sm + 7) h, readData_of_lt data (sm + 6) h0,
    Run.pure_eq_ok]

theorem window_seven (hi lo : Nat) :
    ((hi * 256 + lo) <<< 7 >>> 8) &&& 0x7f = (lo >>> 1) &&& 0x7f := by
  simp only [and_0x7f, Nat.shiftLeft_eq, Nat.shiftRight_eq_div_pow]
  norm_num
  omega

/-- C2: when the bytes the loop touches exist (and `message` has room), the unpacking
loop of `ReceiveSMS` stores at `message[i]`, for every `i` below the symbol count, the
7-bit field at bit offset `7 * i` of the packed bytes read as a little-endian bit stream;
index 0 is `sm[0] & 0x7f` and index 1 is `((sm[1] * 256 + sm[0]) << 1 >> 8) & 0x7f`. -/
theorem unpackUserData_bit_field (data : List Nat) (sm n : Nat) (messageSize : Int)
    (hb : ∀ b ∈ data, b < 256)
    (hread : ∀ i, i < n → sm + (i - i / 8) < data.length)
    (hcap : (n : Int) + 1 ≤ messageSize) :
    ∃ message, unpackUserData data (n : Int) sm messageSize = .ok message ∧
      message.length = n ∧
      (∀ i, i < n → message[i]? = some (leValue (data.drop sm) / 2 ^ (7 * i) % 128)) ∧
      (0 < n → message[0]? = some ((data.drop sm).getD 0 0 &&& 0x7f)) ∧
      (1 < n → message[1]? = some
        ((((data.drop sm).getD 1 0 * 256 + (data.drop sm).getD 0 0) <<< 1 >>> 8) &&& 0x7f)) := by
  have hfield : ∀ i, i < n →
      ((List.range n).map fun j => leValue (data.drop sm) / 2 ^ (7 * j) % 128)[i]? =
        some (leValue (data.drop sm) / 2 ^ (7 * i) % 128) := by
    intro i hi
    simp [List.getElem?_map, List.getElem?_range hi]
  refine ⟨_, unpackUserData_eq data sm n messageSize hb hread hcap, by simp, hfield, ?_, ?_⟩
  · intro h0
    have hlt : sm < data.length := by have := hread 0 h0; omega
    have e1 := septetAt_eq data sm 0 hb (hread 0 h0)
    rw [septetAt_zero data sm hlt] at e1
    rw [hfield 0 h0, ← Run.ok.inj e1]
    simp [List.getD_eq_getElem?_getD, List.getElem?_drop, List.getElem?_eq_getElem hlt]
  · intro h1
    have hlt : sm + 1 < data.length := by have := hread 1 h1; omega
    have hlt0 : sm < data.length := by omega
    have e1 := septetAt_eq data sm 1 hb (hread 1 h1)
    rw [septetAt_one data sm hlt] at e1
    rw [hfield 1 h1, ← Run.ok.inj e1]
    simp [List.getD_eq_getElem?_getD, List.getElem?_drop, List.getElem?_eq_getElem hlt,
      List.getElem?_eq_getElem hlt0]

theorem unpackUserData_bit_field_witness :
    ∃ message, unpackUserData [0xC8, 0xF7, 0x1D, 0x14] ((4 : Nat) : Int) 0 160 = .ok message ∧
      message.length = 4 ∧
      (∀ i, i < 4 → message[i]? =
        some (leValue (List.drop 0 [0xC8, 0xF7, 0x1D, 0x14]) / 2 ^ (7 * i) % 128)) ∧
      (0 < 4 → message[0]? = some ((List.drop 0 [0xC8, 0xF7, 0x1D, 0x14]).getD 0 0 &&& 0x7f)) ∧
      (1 < 4 → message[1]? = some
        ((((List.drop 0 [0xC8, 0xF7, 0x1D, 0x14]).getD 1 0 * 256 +
          (List.drop 0 [0xC8, 0xF7, 0x1D, 0x14]).getD 0 0) <<< 1 >>> 8) &&& 0x7f)) :=
  unpackUserData_bit_field [0xC8, 0xF7, 0x1D, 0x14] 0 4 160 (by decide) (by decide) (by decide)

/-- C4 (as stated, refuted): with the packed bytes `00 00 00 00 00 00 FE 01` and eight
symbols, the symbol at index 7 is `0x7f`, the high seven bits of the byte at offset 6,
and not `byte[7] & 0x7f = 1`. -/
theorem septet7_is_not_byte7 :
    ∃ message, unpackUserData [0, 0, 0, 0, 0, 0, 0xFE, 0x01] 8 0 160 = .ok message ∧
      message[7]? = some 0x7f ∧
      message[7]? ≠ some ([0, 0, 0, 0, 0, 0, 0xFE, 0x01].getD 7 0 &&& 0x7f) :=
  ⟨[0, 0, 0, 0, 0, 0, 0, 0x7f], by decide, by decide, by decide⟩

/-- C4 (amended): for a symbol count of at least 8 whose bytes exist, the symbol at
index 7 has shift `7 % 8 = 7`: it is built from the byte pair at offsets 7 and 6 as
`((byte[7] * 256 + byte[6]) << 7 >> 8) & 0x7f`, which is `(byte[6] >> 1) & 0x7f`. -/
theorem septet7_from_byte6 (data : List Nat) (sm n : Nat) (messageSize : Int)
    (hb : ∀ b ∈ data, b < 256) (hn : 8 ≤ n)
    (hread : ∀ i, i < n → sm + (i - i / 8) < data.length)
    (hcap : (n : Int) + 1 ≤ messageSize) :
    ∃ message, unpackUserData data (n : Int) sm messageSize = .ok message ∧
      message[7]? = some
        ((((data.drop sm).getD 7 0 * 256 + (data.drop sm).getD 6 0) <<< 7 >>> 8) &&& 0x7f) ∧
      message[7]? = some (((data.drop sm).getD 6 0 >>> 1) &&& 0x7f) := by
  have h7 : 7 < n := by omega
  have hlt : sm + 7 < data.length := by have := hread 7 h7; omega
  have hlt6 : sm + 6 < data.length := by omega
  have e1 := septetAt_eq data sm 7 hb (hread 7 h7)
  rw [septetAt_seven data sm hlt] at e1
  have hget : ((List.range n).map fun j => leValue (data.drop sm) / 2 ^ (7 * j) % 128)[7]? =
      some (((data[sm + 7] * 256 + data[sm + 6]) <<< 7 >>> 8) &&& 0x7f) := by
    rw [Run.ok.inj e1]
    simp [List.getElem?_map, List.getElem?_range h7]
  have g7 : (data.drop sm).getD 7 0 = data[sm + 7] := by
    simp [List.getD_eq_getElem?_getD, List.getElem?_drop, List.getElem?_eq_getElem hlt]
  have g6 : (data.drop sm).getD 6 0 = data[sm + 6] := by
    simp [List.getD_eq_getElem?_getD, List.getElem?_drop, List.getElem?_eq_getElem hlt6]
  refine ⟨_, unpackUserData_eq data sm n messageSize hb hread hcap, ?_, ?_⟩
  · rw [hget, g7, g6]
  · rw [hget, g6, window_seven]

theorem septet7_from_byte6_witness :
    ∃ message, unpackUserData [0, 0, 0, 0, 0, 0, 0xFE, 0x01] ((8 : Nat) : Int) 0 160 =
        .ok message ∧
      message[7]? = some
        ((((List.drop 0 [0, 0, 0, 0, 0, 0, 0xFE, 0x01]).getD 7 0 * 256 +
          (List.drop 0 [0, 0, 0, 0, 0, 0, 0xFE, 0x01]).getD 6 0) <<< 7 >>> 8) &&& 0x7f) ∧
      message[7]? = some (((List.drop 0 [0, 0, 0, 0, 0, 0, 0xFE, 0x01]).getD 6 0 >>> 1) &&& 0x7f) :=
  septet7_from_byte6 [0, 0, 0, 0, 0, 0, 0xFE, 0x01] 0 8 160 (by decide) (by decide) (by decide)
    (by decide)

end Septets

section HeaderWalk

/-- What a successful header walk establishes. -/
theorem headerWalk_ok (data : List Nat) (h : PduHeader) (hw : headerWalk data = .ok h) :
    h.tpMti = 1 + data.getD 0 0 ∧ h.tpMti < data.length ∧
    data.getD h.tpMti 0 &&& 0x03 = 0 ∧
    (h.tpUdhi = true ↔ data.getD h.tpMti 0 &&& 0x40 ≠ 0) ∧
    h.tpOaSize = h.tpMti + 1 ∧
    h.tpPid = h.tpOaSize + 2 + data.getD h.tpOaSize 0 / 2 + data.getD h.tpOaSize 0 % 2 ∧
    h.tpDcs = h.tpPid + 1 ∧ h.tpScts = h.tpDcs + 1 ∧ h.tpUd = h.tpScts + 7 ∧
    h.tpUd < data.length := by
  simp only [headerWalk, Run.bind_eq_ok, require_eq_ok, readData_eq_ok, Run.pure_eq_ok,
    Run.ok.injEq] at hw
  obtain ⟨b0, hb0, _, h1, mti, hmti, _, h2, _, h3, oa, hoa, _, h4, _, h5, _, h6, _, h7, rfl⟩ := hw
  obtain ⟨_, g0⟩ := getElem?_eq_some_getD _ _ _ hb0
  obtain ⟨_, gm⟩ := getElem?_eq_some_getD _ _ _ hmti
  obtain ⟨_, go⟩ := getElem?_eq_some_getD _ _ _ hoa
  simp only [Nat.zero_add] at gm go
  simp only [Bool.not_eq_true', decide_eq_false_iff_not, ge_iff_le, not_le, bne_iff_ne, ne_eq,
    Bool.not_eq_true', Bool.not_eq_eq_eq_not, Bool.not_true, bne_eq_false_iff_eq] at h1 h2 h7
  subst g0
  dsimp only
  rw [Nat.zero_add, gm, go]
  refine ⟨rfl, by omega, h2, ?_, rfl, rfl, rfl, rfl, rfl, by omega⟩
  by_cases hbit : mti &&& 0x40 = 0 <;> simp [hbit]

end HeaderWalk

section Safety

/-- C1 (code defect): the decoder of `ReceiveSMS` reads outside the PDU buffer. A PDU
that stops right after a user-data length byte of 5 passes every check of the header
walk, and the unpacking loop then reads `sm[0]` at index 14 of the 14-byte buffer; the
complete 23-byte PDU of the eight-symbol text `ABCDEFGH` makes the loop read `sm[7]` at
index 23; the empty PDU makes the header walk read `data[0]` of a 0-byte buffer. None
is rejected before the read. -/
theorem decodeHexPdu_reads_outside_buffer :
    decodeHexPdu "0000008100000000000000000005".toList 160 none = .outOfBounds .data 14 ∧
    decodeHexPdu "0000048121430000208062917314080841E19058341E91".toList 160 (some 20) =
      .outOfBounds .data 23 ∧
    decodeHexPdu [] 160 none = .outOfBounds .data 0 := by
  decide

end Safety

section UserDataLayout

/-- C5: for a PDU that passes the header walk of `ReceiveSMS`, with the UDHI bit (0x40) of
TP-MTI clear the packed user data starts at TP-UD offset 1 and the symbol count is
TP-UD[0]; with the bit set (and the header-length byte TP-UD[1] inside the buffer) the
packed user data starts at TP-UD offset 2 + TP-UD[1] and the symbol count is
TP-UD[0] - (1 + TP-UD[1]). The decode unpacks exactly that count from that offset. -/
theorem userData_layout (data : List Nat) (h : PduHeader) (hw : headerWalk data = .ok h) :
    (data.getD h.tpMti 0 &&& 0x40 = 0 →
      userDataLayout data h = .ok ((data.getD h.tpUd 0 : Int), h.tpUd + 1)) ∧
    (data.getD h.tpMti 0 &&& 0x40 ≠ 0 → h.tpUd + 1 < data.length →
      userDataLayout data h =
        .ok ((data.getD h.tpUd 0 : Int) - (1 + (data.getD (h.tpUd + 1) 0 : Int)),
          h.tpUd + 2 + data.getD (h.tpUd + 1) 0)) ∧
    (∀ smSize sm messageSize dialNumber, userDataLayout data h = .ok (smSize, sm) →
      decodePdu data messageSize dialNumber =
        (do
          let number ← decodeDialNumber data h dialNumber
          let message ← unpackUserData data smSize sm messageSize
          pure { smSize := smSize, message := message, dialNumber := number })) := by
  obtain ⟨_, _, _, hudhi, _, _, _, _, _, hud⟩ := headerWalk_ok data h hw
  have r0 : readData data h.tpUd = .ok (data.getD h.tpUd 0) := by
    rw [readData_of_lt data _ hud]
    simp [List.getD_eq_getElem?_getD, List.getElem?_eq_getElem hud]
  refine ⟨?_, ?_, ?_⟩
  · intro hbit
    have hf : h.tpUdhi = false := by
      cases hv : h.tpUdhi with
      | false => rfl
      | true => exact absurd hbit (hudhi.mp hv)
    simp [userDataLayout, hf, r0, Run.pure_eq_ok]
  · intro hbit hlt
    have ht : h.tpUdhi = true := hudhi.mpr hbit
    have r1 : readData data (h.tpUd + 1) = .ok (data.getD (h.tpUd + 1) 0) := by
      rw [readData_of_lt data _ hlt]
      simp [List.getD_eq_getElem?_getD, List.getElem?_eq_getElem hlt]
    have hreq : require (!decide (h.tpUd + 1 ≥ data.length)) = .ok () := by
      simp [require]; omega
    simp [userDataLayout, ht, r0, r1, hreq, Run.pure_eq_ok]
  · intro smSize sm messageSize dialNumber hl
    simp only [decodePdu, hw, hl, Run.ok_bind]

theorem userData_layout_witness :
    headerWalk sampleUdhPdu = .ok ⟨1, true, 2, 4, 5, 6, 13⟩ ∧
    userDataLayout sampleUdhPdu ⟨1, true, 2, 4, 5, 6, 13⟩ = .ok (3, 16) ∧
    decodePdu sampleUdhPdu 160 none = .ok ⟨3, [0x41, 0x42, 0x43], none⟩ ∧
    headerWalk samplePdu = .ok ⟨8, false, 9, 17, 18, 19, 26⟩ ∧
    userDataLayout samplePdu ⟨8, false, 9, 17, 18, 19, 26⟩ = .ok (12, 27) :=
  ⟨by decide,
   (userData_layout sampleUdhPdu ⟨1, true, 2, 4, 5, 6, 13⟩ (by decide)).2.1 (by decide)
     (by decide),
   by decide,
   by decide,
   (userData_layout samplePdu ⟨8, false, 9, 17, 18, 19, 26⟩ (by decide)).1 (by decide)⟩

end UserDataLayout

section AddressField

theorem addressLoop_eq (data : List Nat) (addressValue : Nat) (strSize : Int) (k i : Nat)
    (hread : ∀ j, i ≤ j → j < i + k → addressValue + j / 2 < data.length)
    (hcap : ((i + k : Nat) : Int) ≤ strSize) :
    addressLoop data addressValue strSize k i =
      .ok ((List.range k).map fun j =>
        '0'.toNat + (if (i + j) % 2 = 0 then data.getD (addressValue + (i + j) / 2) 0 % 16
          else data.getD (addressValue + (i + j) / 2) 0 / 16)) := by
  induction k generalizing i with
  | zero => simp [addressLoop]
  | succ k ih =>
    have hlt := hread i (Nat.le_refl _) (by omega)
    have h1 : readData data (addressValue + i / 2) =
        .ok (data.getD (addressValue + i / 2) 0) := by
      rw [readData_of_lt data _ hlt]
      simp [List.getD_eq_getElem?_getD, List.getElem?_eq_getElem hlt]
    have h2 : checkWrite .dialNumber strSize (i : Int) = .ok () :=
      checkWrite_of_lt _ _ _ (by omega) (by omega)
    have h3 := ih (i + 1) (fun j h1 h2 => hread j (by omega) (by omega)) (by omega)
    have hand : ∀ x : Nat, x &&& 0x0f = x % 16 := fun x => by
      have := Nat.and_pow_two_sub_one_eq_mod x 4
      simpa using this
    have hshift : ∀ x : Nat, x >>> 4 = x / 16 := fun x => by
      simp [Nat.shiftRight_eq_div_pow]
    simp only [addressLoop, h1, h2, h3, Run.ok_bind, Run.pure_eq_ok, hand, hshift]
    rw [List.range_succ_eq_map, List.map_cons, List.map_map]
    congr 2
    · simp only [Nat.add_zero]
      split <;> rfl
    · apply List.map_congr_left
      intro j _
      simp only [Function.comp, Nat.succ_eq_add_one]
      have e : i + 1 + j = i + (j + 1) := by omega
      rw [e]

/-- C6 (as stated, refuted): with a number buffer of capacity 0 the semi-octet count 11
plus 1 exceeds the capacity and `SmAddressFieldToString` would fail, yet `ReceiveSMS`
does not call it (its guard is `dialNumberSize >= 1`) and decodes the message without
reporting Unknown. -/
theorem capacity_zero_not_unknown :
    (ConvertHexToBytes sampleHexPdu 38).map (fun data => data.getD 9 0) = some 11 ∧
    (ConvertHexToBytes sampleHexPdu 38).map (fun data => SmAddressFieldToString data 9 0) =
      some (.ok none) ∧
    decodeHexPdu sampleHexPdu 160 (some 0) =
      .ok ⟨12, "How are you?".toList.map Char.toNat, none⟩ := by
  decide

/-- C6 (amended): for an address field whose first byte is the semi-octet count `n`,
`SmAddressFieldToString` with a capacity of at least `n + 1` succeeds with exactly `n`
characters, character `i` being `'0'` plus the low nibble of data byte `i / 2` for even
`i` and `'0'` plus its high nibble for odd `i` (the bytes 04 81 21 43 give `1234`); with
`n + 1` above the capacity it fails, and `ReceiveSMS`, which calls it only for a number
buffer of capacity at least 1, then reports Unknown. -/
theorem SmAddressFieldToString_spec (data : List Nat) (addressField n : Nat) (strSize : Int)
    (hn : data[addressField]? = some n) :
    ((n : Int) + 1 ≤ strSize → (∀ i, i < n → addressField + 2 + i / 2 < data.length) →
      ∃ str, SmAddressFieldToString data addressField strSize = .ok (some str) ∧
        str.length = n ∧
        ∀ i, i < n → str[i]? = some ('0'.toNat +
          (if i % 2 = 0 then data.getD (addressField + 2 + i / 2) 0 % 16
            else data.getD (addressField + 2 + i / 2) 0 / 16))) ∧
    (strSize < (n : Int) + 1 →
      SmAddressFieldToString data addressField strSize = .ok none ∧
      (1 ≤ strSize → ∀ h messageSize, headerWalk data = .ok h → h.tpOaSize = addressField →
        decodePdu data messageSize (some strSize) = .unknown)) ∧
    SmAddressFieldToString [4, 0x81, 0x21, 0x43] 0 5 = .ok (some ("1234".toList.map Char.toNat)) := by
  have r0 : readData data addressField = .ok n := (readData_eq_ok _ _ _).mpr hn
  refine ⟨?_, ?_, by decide⟩
  · intro hcap hread
    have hloop := addressLoop_eq data (addressField + 2) strSize n 0
      (fun j _ h => hread j (by omega)) (by push_cast; omega)
    have hw : checkWrite .dialNumber strSize (n : Int) = .ok () :=
      checkWrite_of_lt _ _ _ (by omega) (by omega)
    have hif : ¬ ((n : Int) + 1 > strSize) := by omega
    have hrun : SmAddressFieldToString data addressField strSize =
        .ok (some ((List.range n).map fun j => '0'.toNat +
          (if (0 + j) % 2 = 0 then data.getD (addressField + 2 + (0 + j) / 2) 0 % 16
            else data.getD (addressField + 2 + (0 + j) / 2) 0 / 16))) := by
      simp only [SmAddressFieldToString, r0, Run.ok_bind, hif, if_false, hloop, hw,
        Run.pure_eq_ok]
    refine ⟨_, hrun, ?_, ?_⟩
    · simp
    · intro i hi
      simp [List.getElem?_map, List.getElem?_range hi]
  · intro hcap
    have hif : (n : Int) + 1 > strSize := by omega
    have hfail : SmAddressFieldToString data addressField strSize = .ok none := by
      simp only [SmAddressFieldToString, r0, Run.ok_bind, hif, if_true, Run.pure_eq_ok]
    refine ⟨hfail, ?_⟩
    intro h1 h messageSize hw hoa
    have hge : strSize ≥ 1 := h1
    simp only [decodePdu, hw, Run.ok_bind, decodeDialNumber, hge, if_true, hoa, hfail,
      Run.unknown_bind]

theorem SmAddressFieldToString_spec_witness :
    (∃ str, SmAddressFieldToString [4, 0x81, 0x21, 0x43] 0 5 = .ok (some str) ∧
      str.length = 4 ∧
      ∀ i, i < 4 → str[i]? = some ('0'.toNat +
        (if i % 2 = 0 then ([4, 0x81, 0x21, 0x43] : List Nat).getD (0 + 2 + i / 2) 0 % 16
          else ([4, 0x81, 0x21, 0x43] : List Nat).getD (0 + 2 + i / 2) 0 / 16))) ∧
    SmAddressFieldToString [4, 0x81, 0x21, 0x43] 0 4 = .ok none ∧
    ConvertHexToBytes sampleHexPdu 38 = some samplePdu ∧
    decodePdu samplePdu 160 (some 11) = .unknown :=
  ⟨(SmAddressFieldToString_spec [4, 0x81, 0x21, 0x43] 0 4 5 (by decide)).1 (by decide)
      (by decide),
   ((SmAddressFieldToString_spec [4, 0x81, 0x21, 0x43] 0 4 4 (by decide)).2.1
      (by decide)).1,
   by decide,
   ((SmAddressFieldToString_spec samplePdu 9 11 11 (by decide)).2.1 (by decide)).2
      (by decide) ⟨8, false, 9, 17, 18, 19, 26⟩ 160 (by decide) rfl⟩

end AddressField

section Url

theorem strncmpEq_literal (lit url : List Char) :
    strncmpEq url lit lit.length = true ↔ lit <+: url := by
  induction lit generalizing url with
  | nil => simp [strncmpEq]
  | cons c lit ih =>
    cases url with
    | nil => simp [strncmpEq]
    | cons u url =>
      simp only [List.length_cons, strncmpEq, Bool.and_eq_true, beq_iff_eq, ih,
        List.cons_prefix_cons]
      constructor
      · rintro ⟨h1, h2⟩; exact ⟨h1.symm, h2⟩
      · rintro ⟨h1, h2⟩; exact ⟨h1.symm, h2⟩

theorem scanHost_spec (l : List Char) :
    '/' ∉ l.take (scanHost l) ∧
    (l.drop (scanHost l) = [] ∨ ∃ t, l.drop (scanHost l) = '/' :: t) := by
  induction l with
  | nil => simp [scanHost]
  | cons c rest ih =>
    by_cases hc : c = '/'
    · subst hc
      simp [scanHost]
    · obtain ⟨h1, h2⟩ := ih
      have hne : ¬ ('/' = c) := fun h => hc h.symm
      simp only [scanHost, beq_iff_eq, hc, if_false, List.take_succ_cons, List.mem_cons,
        List.drop_succ_cons, hne, false_or]
      exact ⟨h1, h2⟩

theorem slash_free_le (l p : List Char) (k : Nat) (hp : p <+: l) (hfree : '/' ∉ p)
    (hk : l.drop k = [] ∨ ∃ t, l.drop k = '/' :: t) : p.length ≤ k := by
  by_contra hlt
  push_neg at hlt
  obtain ⟨s, rfl⟩ := hp
  rcases hk with h | ⟨t, h⟩
  · have := congrArg List.length h
    simp at this
    omega
  · have hget : (p ++ s)[k]? = some '/' := by
      have := congrArg (fun x => x[0]?) h
      simpa [List.getElem?_drop] using this
    rw [List.getElem?_append_left hlt] at hget
    exact hfree (List.getElem?_mem hget)

theorem SplitUrl_of_scheme (url scheme : List Char) (k : Nat)
    (hstart : (if strncmpEq url "http://".toList 7 then some 7
      else if strncmpEq url "https://".toList 8 then some 8 else none) = some k)
    (hlen : scheme.length = k) (hs : scheme <+: url) :
    SplitUrl url = some ((url.drop k).take (scanHost (url.drop k)),
        (url.drop k).drop (scanHost (url.drop k))) ∧
      url = scheme ++ (url.drop k).take (scanHost (url.drop k)) ++
        (url.drop k).drop (scanHost (url.drop k)) := by
  refine ⟨by simp only [SplitUrl, hstart], ?_⟩
  obtain ⟨t, rfl⟩ := hs
  subst hlen
  simp [List.append_assoc]

/-- C7: `SplitUrl` succeeds exactly when `url` begins with `http://` or `https://`; on
success the scheme, the host and the path concatenate to `url`, the host contains no
`/`, the path is empty or begins with `/`, and no longer slash-free start of the
remainder exists. `http://example.com/a/b` splits into `example.com` and `/a/b`,
`https://h` into `h` and the empty path. -/
theorem SplitUrl_spec (url : List Char) :
    ((SplitUrl url).isSome = true ↔
      ("http://".toList <+: url ∨ "https://".toList <+: url)) ∧
    (∀ host path, SplitUrl url = some (host, path) →
      ∃ scheme, (scheme = "http://".toList ∨ scheme = "https://".toList) ∧
        url = scheme ++ host ++ path ∧ '/' ∉ host ∧
        (path = [] ∨ ∃ t, path = '/' :: t) ∧
        ∀ p, p <+: host ++ path → '/' ∉ p → p.length ≤ host.length) ∧
    SplitUrl "http://example.com/a/b".toList = some ("example.com".toList, "/a/b".toList) ∧
    SplitUrl "https://h".toList = some ("h".toList, []) := by
  have h7 := strncmpEq_literal "http://".toList url
  have h8 := strncmpEq_literal "https://".toList url
  have l7 : "http://".toList.length = 7 := by decide
  have l8 : "https://".toList.length = 8 := by decide
  rw [l7] at h7
  rw [l8] at h8
  refine ⟨?_, ?_, by decide, by decide⟩
  · by_cases c7 : strncmpEq url "http://".toList 7 = true
    · simp only [SplitUrl, c7, if_true, Option.isSome_some, true_iff]
      exact Or.inl (h7.mp c7)
    · by_cases c8 : strncmpEq url "https://".toList 8 = true
      · unfold SplitUrl
        rw [if_neg c7, if_pos c8]
        simp only [Option.isSome_some, true_iff]
        exact Or.inr (h8.mp c8)
      · have n7 : ¬ "http://".toList <+: url := fun h => c7 (h7.mpr h)
        have n8 : ¬ "https://".toList <+: url := fun h => c8 (h8.mpr h)
        unfold SplitUrl
        rw [if_neg c7, if_neg c8]
        simp only [Option.isSome_none, n7, n8, or_self]
        simp
  · intro host path hsplit
    have key : ∀ (scheme : List Char) (k : Nat),
        (if strncmpEq url "http://".toList 7 then some 7
          else if strncmpEq url "https://".toList 8 then some 8 else none) = some k →
        scheme.length = k → scheme <+: url →
        url = scheme ++ host ++ path ∧ '/' ∉ host ∧
          (path = [] ∨ ∃ t, path = '/' :: t) ∧
          ∀ p, p <+: host ++ path → '/' ∉ p → p.length ≤ host.length := by
      intro scheme k hstart hlen hs
      obtain ⟨e1, e2⟩ := SplitUrl_of_scheme url scheme k hstart hlen hs
      rw [hsplit] at e1
      obtain ⟨eh, ep⟩ := Prod.mk.inj (Option.some.inj e1)
      obtain ⟨f1, f2⟩ := scanHost_spec (url.drop k)
      rw [← eh, ← ep] at e2
      rw [← eh] at f1
      rw [← ep] at f2
      refine ⟨e2, f1, f2, ?_⟩
      intro p hp hfree
      have hrem : host ++ path = url.drop k := by
        rw [eh, ep, List.take_append_drop]
      have hle := slash_free_le (url.drop k) p (scanHost (url.drop k)) (hrem ▸ hp) hfree
        (by rw [← ep]; exact f2)
      have hlen2 : host.length = min (scanHost (url.drop k)) (url.drop k).length := by
        rw [eh, List.length_take]
      have hpl : p.length ≤ (url.drop k).length := by
        rw [← hrem]; exact hp.length_le
      omega
    by_cases c7 : strncmpEq url "http://".toList 7 = true
    · exact ⟨_, Or.inl rfl, key _ 7 (by simp only [c7, if_true]) l7 (h7.mp c7)⟩
    · by_cases c8 : strncmpEq url "https://".toList 8 = true
      · exact ⟨_, Or.inr rfl, key _ 8 (by rw [if_neg c7, if_pos c8]) l8 (h8.mp c8)⟩
      · unfold SplitUrl at hsplit
        rw [if_neg c7, if_neg c8] at hsplit
        exact absurd hsplit (by simp)

end Url

section Sockets

theorem reportedConnectId_ne_ok (l : List Char) (id : Int)
    (h : reportedConnectId l = some id) : l ≠ "OK".toList := by
  intro hl
  subst hl
  have h0 : reportedConnectId "OK".toList = none := by decide
  rw [h0] at h
  cases h

theorem stateQueryLoop_lines (lines : List (List Char)) (ids : List Nat)
    (rest : List (Option (List Char)))
    (hlines : lines.map reportedConnectId = ids.map fun (i : Nat) => some (Int.ofNat i))
    (hids : ∀ i ∈ ids, i < 12) (used : List Bool) (hlen : used.length = 12) :
    ∃ used1, stateQueryLoop used (lines.map some ++ some "OK".toList :: rest) =
        (some used1, rest) ∧ used1.length = 12 ∧
      ∀ j, used1.getD j false = true ↔ (used.getD j false = true ∨ j ∈ ids) := by
  induction lines generalizing ids used with
  | nil =>
    cases ids with
    | nil =>
      refine ⟨used, ?_, hlen, by simp⟩
      have h0 : reportedConnectId "OK".toList = none := by decide
      simp only [List.map_nil, List.nil_append, stateQueryLoop, h0]
      simp
    | cons i ids => simp at hlines
  | cons l lines ih =>
    cases ids with
    | nil => simp at hlines
    | cons i ids =>
      simp only [List.map_cons, List.cons.injEq] at hlines
      obtain ⟨hl, hrest⟩ := hlines
      have hi : i < 12 := hids i (List.mem_cons_self _ _)
      have hne : l ≠ "OK".toList := reportedConnectId_ne_ok l _ hl
      obtain ⟨used1, h1, h2, h3⟩ := ih ids hrest
        (fun j hj => hids j (List.mem_cons_of_mem _ hj)) (used.set i true) (by simp [hlen])
      refine ⟨used1, ?_, h2, ?_⟩
      · have hcond : ¬ (Int.ofNat i < 0 ∨ (CONNECT_ID_NUM : Int) ≤ Int.ofNat i) := by
          simp only [CONNECT_ID_NUM, Int.ofNat_eq_coe]; omega
        have hne2 : (l != "OK".toList) = true := by simpa using hne
        have htn : (Int.ofNat i).toNat = i := rfl
        simp only [List.map_cons, List.cons_append, stateQueryLoop, hl, hne2, if_true]
        rw [if_neg hcond, htn]
        exact h1
      · intro j
        rw [h3 j]
        simp only [List.getD_eq_getElem?_getD, List.getElem?_set, List.mem_cons]
        by_cases hij : i = j
        · subst hij
          simp [hlen, hi]
        · have hji : ¬ j = i := fun h => hij h.symm
          simp [hij, hji]

theorem firstFreeFrom_spec (used : List Bool) (k c : Nat) :
    c ≤ firstFreeFrom used k c ∧ firstFreeFrom used k c ≤ c + k ∧
    (∀ j, c ≤ j → j < firstFreeFrom used k c → used.getD j false = true) ∧
    (firstFreeFrom used k c < c + k → used.getD (firstFreeFrom used k c) false = false) := by
  induction k generalizing c with
  | zero => simp [firstFreeFrom]; intro j h1 h2; omega
  | succ k ih =>
    by_cases hc : used.getD c false = true
    · obtain ⟨h1, h2, h3, h4⟩ := ih (c + 1)
      simp only [firstFreeFrom, hc, Bool.not_true, Bool.false_eq_true, if_false]
      refine ⟨by omega, by omega, ?_, fun h => h4 (by omega)⟩
      intro j hj1 hj2
      by_cases hjc : j = c
      · subst hjc; exact hc
      · exact h3 j (by omega) hj2
    · have hc2 : used.getD c false = false := by simpa using hc
      have e : firstFreeFrom used (k + 1) c = c := by
        simp only [firstFreeFrom, hc2, Bool.not_false, if_true]
      rw [e]
      exact ⟨le_refl _, by omega, fun j h1 h2 => by omega, fun _ => hc2⟩

end Sockets

section ActLemmas

theorem Act.bind_def {ρ α β : Type} (x : Act ρ α) (f : α → Act ρ β) (s : Driver) :
    (x >>= f) s = match x s with
      | .next a s1 => f a s1
      | .ret r s1 => .ret r s1 := rfl

theorem Act.pure_def {ρ α : Type} (a : α) (s : Driver) :
    (pure a : Act ρ α) s = .next a s := rfl

end ActLemmas

section SocketAllocation

theorem firstFree_least (used : List Bool) (ids : List Nat)
    (hused : ∀ j, used.getD j false = true ↔ j ∈ ids) (id : Nat) (hid : id < 12)
    (hfree : id ∉ ids) (hbelow : ∀ j, j < id → j ∈ ids) :
    firstFreeFrom used CONNECT_ID_NUM 0 = id := by
  obtain ⟨_, f2, f3, f4⟩ := firstFreeFrom_spec used CONNECT_ID_NUM 0
  simp only [CONNECT_ID_NUM, Nat.zero_add] at f2 f3 f4 ⊢
  by_contra hne
  rcases Nat.lt_or_gt_of_ne hne with hlt | hgt
  · have h1 := f4 (by omega)
    have h2 := (hused _).mpr (hbelow _ hlt)
    rw [h1] at h2
    exact Bool.false_ne_true h2
  · exact hfree ((hused id).mp (f3 id (Nat.zero_le _) hgt))

theorem firstFree_none (used : List Bool) (ids : List Nat)
    (hused : ∀ j, used.getD j false = true ↔ j ∈ ids) (hall : ∀ i, i < 12 → i ∈ ids) :
    firstFreeFrom used CONNECT_ID_NUM 0 = 12 := by
  obtain ⟨_, f2, _, f4⟩ := firstFreeFrom_spec used CONNECT_ID_NUM 0
  simp only [CONNECT_ID_NUM, Nat.zero_add] at f2 f4 ⊢
  by_contra hne
  have hlt : firstFreeFrom used 12 0 < 12 := by omega
  have h1 := f4 hlt
  have h2 := (hused _).mpr (hall _ hlt)
  rw [h1] at h2
  exact Bool.false_ne_true h2

/-- C10: when the replies to `AT+QISTATE?` report the connection ids `ids` (each in
[0,12)) and end with `OK`, `SocketOpen` issues the open command for the least id in
[0,12) that is not among them, and returns that id once the modem accepts the open;
when all 12 ids are reported it returns -1 with error code Unknown, having written
nothing but the state query. -/
theorem SocketOpen_allocation (s : Driver) (host typeStr : List Char) (port : Int)
    (type : SocketType) (lines : List (List Char)) (ids : List Nat)
    (rest : List (Option (List Char)))
    (hhost : host ≠ []) (hport : 0 ≤ port ∧ port ≤ 65535)
    (htype : (type = .SOCKET_TCP ∧ typeStr = "TCP".toList) ∨
      (type = .SOCKET_UDP ∧ typeStr = "UDP".toList))
    (hreplies : s.replies = lines.map some ++ some "OK".toList :: rest)
    (hlines : lines.map reportedConnectId = ids.map fun (i : Nat) => some (Int.ofNat i))
    (hids : ∀ i ∈ ids, i < 12) :
    ((∀ i, i < 12 → i ∈ ids) →
      call (SocketOpen (some host) port type) s =
        (-1, { s with replies := rest, sent := s.sent ++ [.command "AT+QISTATE?".toList],
                      lastError := .E_UNKNOWN })) ∧
    (∀ id, id < 12 → id ∉ ids → (∀ j, j < id → j ∈ ids) →
      s.formatOk ("AT+QIOPEN=1,".toList ++ decimal id ++ ",\"".toList ++ typeStr ++
        "\",\"".toList ++ host ++ "\",".toList ++ decimal port) = true →
      (call (SocketOpen (some host) port type) s).2.sent =
        s.sent ++ [.command "AT+QISTATE?".toList,
          .command ("AT+QIOPEN=1,".toList ++ decimal id ++ ",\"".toList ++ typeStr ++
            "\",\"".toList ++ host ++ "\",".toList ++ decimal port)] ∧
      (∀ r1 r2 rest1, rest = some r1 :: some r2 :: rest1 →
        s.formatOk ("^\\+QIOPEN: ".toList ++ decimal id ++ ",0$".toList) = true →
        call (SocketOpen (some host) port type) s =
          ((id : Int), { s with
            replies := rest1,
            sent := s.sent ++ [.command "AT+QISTATE?".toList,
              .command ("AT+QIOPEN=1,".toList ++ decimal id ++ ",\"".toList ++ typeStr ++
                "\",\"".toList ++ host ++ "\",".toList ++ decimal port)],
            lastError := .E_OK }))) := by
  obtain ⟨used1, hloop, _, hused0⟩ := stateQueryLoop_lines lines ids rest hlines hids
    (List.replicate CONNECT_ID_NUM false) (by simp [CONNECT_ID_NUM])
  have hused : ∀ j, used1.getD j false = true ↔ j ∈ ids := by
    intro j
    rw [hused0 j]
    have hrep : (List.replicate CONNECT_ID_NUM false).getD j false = false := by
      simp only [List.getD_eq_getElem?_getD, List.getElem?_replicate]
      split <;> rfl
    simp [hrep]
  have hp : ¬ (port < 0 ∨ 65535 < port) := by omega
  cases host with
  | nil => exact absurd rfl hhost
  | cons c host =>
    refine ⟨?_, ?_⟩
    · intro hall
      have hfree := firstFree_none used1 ids hused hall
      rcases htype with ⟨rfl, rfl⟩ | ⟨rfl, rfl⟩ <;>
        simp only [SocketOpen, call, Act.bind_def, Act.pure_def, failIf, hp, decide_False,
          Bool.false_eq_true, if_false, WriteCommand, hreplies, hloop, hfree] <;>
        simp [CONNECT_ID_NUM]
    · intro id hid hfree hbelow hfmt
      have hsel := firstFree_least used1 ids hused id hid hfree hbelow
      have hlt : ¬ (id ≥ CONNECT_ID_NUM) := by simp only [CONNECT_ID_NUM]; omega
      refine ⟨?_, ?_⟩
      · by_cases hf2 : s.formatOk ("^\\+QIOPEN: ".toList ++ decimal id ++ ",0$".toList) = true <;>
        rcases htype with ⟨rfl, rfl⟩ | ⟨rfl, rfl⟩ <;>
        rcases rest with _ | ⟨_ | r1, _ | ⟨_ | r2, rest⟩⟩ <;>
        simp only [SocketOpen, call, Act.bind_def, Act.pure_def, failIf, hp, decide_False,
          Bool.false_eq_true, if_false, WriteCommand, hreplies, hloop, hsel, hlt,
          WriteFormat, hfmt, hf2, if_true, WriteCommandAndReadResponse, ReadResponse,
          List.nil_append, RET_OK, RET_ERR, Option.isSome_none, Option.isSome_some,
          Option.isNone_none, Option.isNone_some, Bool.not_false, Bool.not_true] <;>
        simp
      · intro r1 r2 rest1 hrest hf2
        subst hrest
        rcases htype with ⟨rfl, rfl⟩ | ⟨rfl, rfl⟩ <;>
        simp only [SocketOpen, call, Act.bind_def, Act.pure_def, failIf, hp, decide_False,
          Bool.false_eq_true, if_false, WriteCommand, hreplies, hloop, hsel, hlt,
          WriteFormat, hfmt, hf2, if_true, WriteCommandAndReadResponse, ReadResponse,
          List.nil_append, RET_OK, RET_ERR, Option.isSome_none, Option.isSome_some,
          Option.isNone_none, Option.isNone_some, Bool.not_false, Bool.not_true] <;>
        simp

end SocketAllocation

section SocketAllocationWitness

theorem SocketOpen_allocation_witness :
    (call (SocketOpen (some "example.com".toList) 80 .SOCKET_TCP)
        (driverWith (sampleStateLines.map some ++
          some "OK".toList :: [some "OK".toList, some "+QIOPEN: 3,0".toList]))).1 = 3 ∧
    (call (SocketOpen (some "example.com".toList) 80 .SOCKET_TCP)
        (driverWith (sampleStateLines.map some ++
          some "OK".toList :: [some "OK".toList, some "+QIOPEN: 3,0".toList]))).2.lastError =
      .E_OK ∧
    (call (SocketOpen (some "example.com".toList) 80 .SOCKET_UDP)
        (driverWith (sampleFullStateLines.map some ++ some "OK".toList :: []))).1 = -1 ∧
    (call (SocketOpen (some "example.com".toList) 80 .SOCKET_UDP)
        (driverWith (sampleFullStateLines.map some ++ some "OK".toList :: []))).2.lastError =
      .E_UNKNOWN ∧
    (call (SocketOpen (some "example.com".toList) 80 .SOCKET_UDP)
        (driverWith (sampleFullStateLines.map some ++ some "OK".toList :: []))).2.sent =
      [.command "AT+QISTATE?".toList] := by
  have h := ((SocketOpen_allocation
      (driverWith (sampleStateLines.map some ++
        some "OK".toList :: [some "OK".toList, some "+QIOPEN: 3,0".toList]))
      "example.com".toList "TCP".toList 80 .SOCKET_TCP sampleStateLines [0, 1, 2]
      [some "OK".toList, some "+QIOPEN: 3,0".toList]
      (by decide) (by decide) (Or.inl ⟨rfl, rfl⟩) rfl (by decide) (by decide)).2
    3 (by decide) (by decide) (by decide) rfl).2
    "OK".toList "+QIOPEN: 3,0".toList [] rfl rfl
  have hfull := (SocketOpen_allocation
      (driverWith (sampleFullStateLines.map some ++ some "OK".toList :: []))
      "example.com".toList "UDP".toList 80 .SOCKET_UDP sampleFullStateLines (List.range 12)
      [] (by decide) (by decide) (Or.inr ⟨rfl, rfl⟩) rfl (by decide) (by decide)).1
    (by decide)
  rw [h, hfull]
  exact ⟨rfl, rfl, rfl, rfl, rfl⟩

end SocketAllocationWitness

section HttpText

theorem writeHeaderLines_eq (headerSb : List Char) (header : WioLTEHttpHeader) :
    writeHeaderLines headerSb header =
      headerSb ++ (header.map fun kv => kv.1 ++ ": ".toList ++ kv.2 ++ "\r\n".toList).flatten := by
  unfold writeHeaderLines
  induction header generalizing headerSb with
  | nil => simp
  | cons kv rest ih =>
    rw [List.foldl_cons, ih]
    simp [List.append_assoc]

theorem writeRequestLine_eq (method host uri : List Char) :
    writeRequestLine method host uri =
      method ++ (if uri = [] then "/".toList else uri) ++ " HTTP/1.1\r\nHost: ".toList ++ host ++
        "\r\n".toList := by
  unfold writeRequestLine
  cases uri with
  | nil => simp
  | cons c uri =>
    have h : ¬ ((uri.length : Int) + 1 ≤ 0) := by omega
    simp [h]

theorem decimal_natCast (n : Nat) : decimal (n : Int) = Nat.toDigits 10 n := by
  have h : ¬ ((n : Int) < 0) := by omega
  simp [decimal, h]

/-- C8: for an accepted url, split into `host` and `path`, the request text `HttpGet`
builds is `GET p HTTP/1.1`, the `Host` line, one `name: value` line per caller header
in the order of the header set, and a blank line, where `p` is the path or `/` when the
path is empty; `HttpPost` builds the same text with `POST` and with the line
`Content-Length: ` followed by the decimal length of the body between the `Host` line
and the caller headers. -/
theorem http_request_text (url host path data : List Char) (header : WioLTEHttpHeader)
    (s : Driver) (hsplit : SplitUrl url = some (host, path)) :
    httpGetHeader host path header =
      "GET ".toList ++ (if path = [] then "/".toList else path) ++
        " HTTP/1.1\r\nHost: ".toList ++ host ++ "\r\n".toList ++
        (header.map fun kv => kv.1 ++ ": ".toList ++ kv.2 ++ "\r\n".toList).flatten ++
        "\r\n".toList ∧
    (s.formatOk ("Content-Length: ".toList ++ decimal data.length ++ "\r\n".toList) = true →
      httpPostHeader host path data header s =
        .next ("POST ".toList ++ (if path = [] then "/".toList else path) ++
          " HTTP/1.1\r\nHost: ".toList ++ host ++ "\r\n".toList ++
          "Content-Length: ".toList ++ Nat.toDigits 10 data.length ++ "\r\n".toList ++
          (header.map fun kv => kv.1 ++ ": ".toList ++ kv.2 ++ "\r\n".toList).flatten ++
          "\r\n".toList) s) ∧
    (∀ dataSize timeout, HttpGet url dataSize header timeout =
      (do
        httpConfigure (-1) url
        httpGetRequest (httpTimeoutSec timeout) (httpGetHeader host path header)
        httpGetResponse (httpTimeoutSec timeout) dataSize)) ∧
    (∀ timeout, HttpPost url data header timeout =
      (do
        httpConfigure (false, none) url
        let headerSb ← httpPostHeader host path data header
        httpPostRequest (httpTimeoutSec timeout) headerSb data
        httpPostResponse (httpTimeoutSec timeout))) := by
  refine ⟨?_, ?_, ?_, ?_⟩
  · simp only [httpGetHeader, writeHeaderLines_eq, writeRequestLine_eq]
  · intro hfmt
    simp only [httpPostHeader, Act.bind_def, WriteFormat, hfmt, if_true]
    simp only [Act.pure_def, writeHeaderLines_eq, writeRequestLine_eq, decimal_natCast,
      List.append_assoc]
  · intro dataSize timeout
    simp only [HttpGet, hsplit]
  · intro timeout
    simp only [HttpPost, hsplit]

theorem http_request_text_witness :
    httpGetHeader "example.com".toList "/a/b".toList
        [("Accept".toList, "*/*".toList), ("Connection".toList, "close".toList)] =
      ("GET /a/b HTTP/1.1\r\nHost: example.com\r\n" ++
        "Accept: */*\r\nConnection: close\r\n\r\n").toList ∧
    (httpPostHeader "example.com".toList "/a/b".toList "{}".toList
        [("Accept".toList, "*/*".toList), ("Connection".toList, "close".toList)]
        (driverWith [])).value? =
      some ("POST /a/b HTTP/1.1\r\nHost: example.com\r\nContent-Length: 2\r\n" ++
        "Accept: */*\r\nConnection: close\r\n\r\n").toList := by
  have h := http_request_text "http://example.com/a/b".toList "example.com".toList
    "/a/b".toList "{}".toList
    [("Accept".toList, "*/*".toList), ("Connection".toList, "close".toList)]
    (driverWith []) (by decide)
  refine ⟨h.1.trans (by decide), ?_⟩
  rw [h.2.1 rfl]
  decide

end HttpText

section HttpLengths

theorem httpGetRequest_sent (s : Driver) (timeoutSec : Int) (headerSb : List Char) :
    (httpGetRequest timeoutSec headerSb s).driver.sent =
      s.sent ++
        (if s.formatOk ("AT+QHTTPGET=".toList ++ decimal timeoutSec ++ ",".toList ++
            decimal headerSb.length) = true then
          Sent.command ("AT+QHTTPGET=".toList ++ decimal timeoutSec ++ ",".toList ++
              Nat.toDigits 10 headerSb.length) ::
            (if (s.replies.headD none).isSome = true then [Sent.binary headerSb] else [])
        else []) := by
  unfold httpGetRequest
  rw [decimal_natCast]
  generalize "AT+QHTTPGET=".toList ++ decimal timeoutSec ++ ",".toList ++
    Nat.toDigits 10 headerSb.length = cmd
  by_cases hf : s.formatOk cmd = true
  · rcases hr : s.replies with _ | ⟨_ | r1, _ | ⟨_ | r2, rest⟩⟩ <;>
    simp only [Act.bind_def, Act.pure_def, WriteFormat, hf, if_true,
      WriteCommand, ReadResponse, failIf, WriteBinary, hr, Option.isNone_none,
      Option.isNone_some, Bool.false_eq_true, if_false, Step.driver, List.headD_nil,
      List.headD_cons, Option.isSome_none, Option.isSome_some, List.nil_append,
      List.append_assoc, List.singleton_append]
  · simp only [Act.bind_def, WriteFormat, hf, if_false, RET_ERR,
      Step.driver, List.append_nil, Bool.false_eq_true]

theorem httpGetRequest_next (s s2 : Driver) (timeoutSec : Int) (headerSb : List Char)
    (a : Unit) (h : httpGetRequest timeoutSec headerSb s = .next a s2) :
    (s.replies.headD none).isSome = true := by
  unfold httpGetRequest at h
  generalize "AT+QHTTPGET=".toList ++ decimal timeoutSec ++ ",".toList ++
    decimal headerSb.length = cmd at h
  by_cases hf : s.formatOk cmd = true
  · rcases hr : s.replies with _ | ⟨_ | r1, rest⟩
    · simp [Act.bind_def, WriteFormat, hf, WriteCommand, ReadResponse, failIf, hr] at h
    · simp [Act.bind_def, WriteFormat, hf, WriteCommand, ReadResponse, failIf, hr] at h
    · simp
  · simp [Act.bind_def, WriteFormat, hf, RET_ERR] at h

theorem httpPostRequest_sent (s : Driver) (timeoutSec : Int) (headerSb data : List Char) :
    (httpPostRequest timeoutSec headerSb data s).driver.sent =
      s.sent ++
        (if s.formatOk ("AT+QHTTPPOST=".toList ++
            decimal (headerSb.length + data.length) ++ ",".toList ++
            decimal timeoutSec ++ ",".toList ++ decimal timeoutSec) = true then
          Sent.command ("AT+QHTTPPOST=".toList ++
              decimal (headerSb.length + data.length) ++ ",".toList ++
              decimal timeoutSec ++ ",".toList ++ decimal timeoutSec) ::
            (if (s.replies.headD none).isSome = true then
              [Sent.binary headerSb, Sent.binary data] else [])
        else []) := by
  unfold httpPostRequest
  generalize "AT+QHTTPPOST=".toList ++ decimal (headerSb.length + data.length) ++
    ",".toList ++ decimal timeoutSec ++ ",".toList ++ decimal timeoutSec = cmd
  by_cases hf : s.formatOk cmd = true
  · rcases hr : s.replies with _ | ⟨_ | r1, _ | ⟨_ | r2, rest⟩⟩ <;>
    simp only [Act.bind_def, Act.pure_def, WriteFormat, hf, if_true,
      WriteCommand, ReadResponse, failIf, WriteBinary, hr, Option.isNone_none,
      Option.isNone_some, Bool.false_eq_true, if_false, Step.driver, List.headD_nil,
      List.headD_cons, Option.isSome_none, Option.isSome_some, List.nil_append,
      List.append_assoc, List.singleton_append, List.cons_append]
  · simp only [Act.bind_def, WriteFormat, hf, if_false, RET_ERR,
      Step.driver, List.append_nil, Bool.false_eq_true]

theorem httpPostResponse_sent (s : Driver) (timeoutSec : Int) :
    (httpPostResponse timeoutSec s).driver.sent = s.sent := by
  unfold httpPostResponse
  rcases hr : s.replies with _ | ⟨_ | r1, rest⟩
  · simp [Act.bind_def, ReadResponse, hr, RET_ERR, Step.driver]
  · simp [Act.bind_def, ReadResponse, hr, RET_ERR, Step.driver]
  · simp only [Act.bind_def, ReadResponse, hr]
    generalize decide ((parseArguments r1).length < 1) = b1
    generalize ((parseArguments r1).getD 0 [] != "0".toList) = b2
    cases b1 <;> cases b2 <;> simp [failIf, RET_OK, Step.driver]

theorem httpGetResponse_sent (s : Driver) (timeoutSec dataSize : Int) :
    (httpGetResponse timeoutSec dataSize s).driver.sent = s.sent ∨
    (httpGetResponse timeoutSec dataSize s).driver.sent =
      s.sent ++ [Sent.command "AT+QHTTPREAD".toList] := by
  unfold httpGetResponse
  rcases hr : s.replies with _ | ⟨_ | r1, rest⟩
  · simp [Act.bind_def, ReadResponse, hr, RET_ERR, Step.driver]
  · simp [Act.bind_def, ReadResponse, hr, RET_ERR, Step.driver]
  · simp only [Act.bind_def, ReadResponse, hr]
    generalize (if (parseArguments r1).length ≥ 3 then atoi ((parseArguments r1).getD 2 [])
      else -1) = contentLength
    generalize decide ((parseArguments r1).length < 1) = b1
    generalize ((parseArguments r1).getD 0 [] != "0".toList) = b2
    generalize decide (contentLength + 1 > dataSize) = b4
    by_cases c3 : contentLength ≥ 0
    · simp only [if_pos c3]
      cases b1 <;> cases b2 <;> cases b4 <;>
      rcases rest with _ | ⟨_ | r2, _ | ⟨_ | r3, _ | ⟨_ | r4, _ | ⟨_ | r5, rest⟩⟩⟩⟩ <;>
      simp [Act.bind_def, Act.pure_def, ReadResponse, ReadBinary, WriteCommand, failIf,
        RET_OK, RET_ERR, Step.driver]
    · simp only [if_neg c3]
      cases b1 <;> cases b2 <;>
      rcases rest with _ | ⟨_ | r2, _ | ⟨_ | r3, _ | ⟨_ | r4, rest⟩⟩⟩ <;>
      simp [Act.bind_def, Act.pure_def, ReadResponse, ReadResponseQHTTPREAD, WriteCommand,
        failIf, RET_OK, RET_ERR, Step.driver]

theorem call_driver {ρ : Type} (x : Act ρ ρ) (s : Driver) : (call x s).2 = (x s).driver := by
  unfold call
  cases x s <;> rfl

theorem decimal_natCast_add (a b : Nat) :
    decimal ((a : Int) + (b : Int)) = Nat.toDigits 10 (a + b) := by
  rw [← decimal_natCast]
  push_cast
  rfl

/-- C9: once `HttpGet` or `HttpPost` has configured the modem, uploaded the url and
formatted its request command, the length the command declares is the number of bytes
streamed after `CONNECT`: `AT+QHTTPGET` declares the length of the header text and
exactly the header text is written; `AT+QHTTPPOST` declares the length of the header
text plus the length of the body and exactly the header text followed by the body is
written. Without `CONNECT` nothing is streamed. -/
theorem http_declared_length (s s1 : Driver) (url host path data : List Char)
    (header : WioLTEHttpHeader) (dataSize timeout : Int)
    (hsplit : SplitUrl url = some (host, path)) :
    (httpConfigure (-1 : Int) url s = .next () s1 →
      s1.formatOk ("AT+QHTTPGET=".toList ++ decimal (httpTimeoutSec timeout) ++ ",".toList ++
        decimal (httpGetHeader host path header).length) = true →
      ∃ more, (call (HttpGet url dataSize header timeout) s).2.sent =
          s1.sent ++ Sent.command ("AT+QHTTPGET=".toList ++ decimal (httpTimeoutSec timeout) ++
              ",".toList ++ Nat.toDigits 10 (httpGetHeader host path header).length) ::
            (if (s1.replies.headD none).isSome = true then
              Sent.binary (httpGetHeader host path header) :: more else []) ∧
        (more = [] ∨ more = [Sent.command "AT+QHTTPREAD".toList])) ∧
    (∀ headerSb, httpConfigure ((false, none) : Bool × Option Int) url s = .next () s1 →
      httpPostHeader host path data header s1 = .next headerSb s1 →
      s1.formatOk ("AT+QHTTPPOST=".toList ++ decimal (headerSb.length + data.length) ++
        ",".toList ++ decimal (httpTimeoutSec timeout) ++ ",".toList ++
        decimal (httpTimeoutSec timeout)) = true →
      (call (HttpPost url data header timeout) s).2.sent =
        s1.sent ++ Sent.command ("AT+QHTTPPOST=".toList ++
            Nat.toDigits 10 (headerSb.length + data.length) ++
            ",".toList ++ decimal (httpTimeoutSec timeout) ++ ",".toList ++
            decimal (httpTimeoutSec timeout)) ::
          (if (s1.replies.headD none).isSome = true then
            [Sent.binary headerSb, Sent.binary data] else [])) := by
  refine ⟨?_, ?_⟩
  · intro hcfg hfmt
    have hreq := httpGetRequest_sent s1 (httpTimeoutSec timeout) (httpGetHeader host path header)
    rw [if_pos hfmt] at hreq
    rw [call_driver]
    simp only [HttpGet, hsplit, Act.bind_def, hcfg]
    cases hq : httpGetRequest (httpTimeoutSec timeout) (httpGetHeader host path header) s1 with
    | next a s2 =>
      have hconn := httpGetRequest_next s1 s2 _ _ a hq
      rw [hq] at hreq
      simp only [Step.driver, hconn, if_true] at hreq
      simp only [hconn, if_true]
      rcases httpGetResponse_sent s2 (httpTimeoutSec timeout) dataSize with h | h
      · exact ⟨[], by rw [h, hreq], Or.inl rfl⟩
      · exact ⟨[Sent.command "AT+QHTTPREAD".toList], by rw [h, hreq]; simp, Or.inr rfl⟩
    | ret r s2 =>
      rw [hq] at hreq
      simp only [Step.driver] at hreq ⊢
      refine ⟨[], ?_, Or.inl rfl⟩
      rw [hreq]
  · intro headerSb hcfg hhdr hfmt
    have hreq := httpPostRequest_sent s1 (httpTimeoutSec timeout) headerSb data
    rw [if_pos hfmt, decimal_natCast_add] at hreq
    rw [call_driver]
    simp only [HttpPost, hsplit, Act.bind_def, hcfg, hhdr]
    cases hq : httpPostRequest (httpTimeoutSec timeout) headerSb data s1 with
    | next a s2 =>
      rw [hq] at hreq
      simp only [Step.driver] at hreq
      rw [httpPostResponse_sent, hreq]
    | ret r s2 =>
      rw [hq] at hreq
      simp only [Step.driver] at hreq ⊢
      rw [hreq]

end HttpLengths

section HttpLengthsWitness

theorem http_declared_length_witness :
    (∃ more, (call (HttpGet "http://h/x".toList 100 [("Accept".toList, "*/*".toList)] 2500)
          (driverWith [some "OK".toList, some "CONNECT".toList, some "OK".toList,
            some "CONNECT".toList, some "OK".toList])).2.sent =
        [Sent.command "AT+QHTTPCFG=\"requestheader\",1".toList,
          Sent.command "AT+QHTTPURL=10".toList, Sent.binary "http://h/x".toList] ++
          Sent.command ("AT+QHTTPGET=".toList ++ decimal (httpTimeoutSec 2500) ++ ",".toList ++
            Nat.toDigits 10
              (httpGetHeader "h".toList "/x".toList [("Accept".toList, "*/*".toList)]).length) ::
          (if (([some "CONNECT".toList, some "OK".toList] :
              List (Option (List Char))).headD none).isSome = true then
            Sent.binary (httpGetHeader "h".toList "/x".toList [("Accept".toList, "*/*".toList)]) ::
              more
          else []) ∧
      (more = [] ∨ more = [Sent.command "AT+QHTTPREAD".toList])) ∧
    (httpGetHeader "h".toList "/x".toList [("Accept".toList, "*/*".toList)]).length = 41 ∧
    (call (HttpPost "http://h/x".toList "{}".toList [("Accept".toList, "*/*".toList)] 2500)
        (driverWith [some "OK".toList, some "CONNECT".toList, some "OK".toList,
          some "CONNECT".toList, some "OK".toList])).2.sent =
      [Sent.command "AT+QHTTPCFG=\"requestheader\",1".toList,
        Sent.command "AT+QHTTPURL=10".toList, Sent.binary "http://h/x".toList] ++
        Sent.command ("AT+QHTTPPOST=".toList ++
            Nat.toDigits 10
              (("POST /x HTTP/1.1\r\nHost: h\r\nContent-Length: 2\r\n" ++
                "Accept: */*\r\n\r\n").toList.length + "{}".toList.length) ++
            ",".toList ++ decimal (httpTimeoutSec 2500) ++ ",".toList ++
            decimal (httpTimeoutSec 2500)) ::
          (if (([some "CONNECT".toList, some "OK".toList] :
              List (Option (List Char))).headD none).isSome = true then
            [Sent.binary ("POST /x HTTP/1.1\r\nHost: h\r\nContent-Length: 2\r\n" ++
                "Accept: */*\r\n\r\n").toList,
              Sent.binary "{}".toList]
          else []) :=
  ⟨(http_declared_length
      (driverWith [some "OK".toList, some "CONNECT".toList, some "OK".toList,
        some "CONNECT".toList, some "OK".toList])
      { driverWith [some "CONNECT".toList, some "OK".toList] with
        sent := [Sent.command "AT+QHTTPCFG=\"requestheader\",1".toList,
          Sent.command "AT+QHTTPURL=10".toList, Sent.binary "http://h/x".toList] }
      "http://h/x".toList "h".toList "/x".toList [] [("Accept".toList, "*/*".toList)] 100 2500
      (by decide)).1 rfl rfl,
   by decide,
   (http_declared_length
      (driverWith [some "OK".toList, some "CONNECT".toList, some "OK".toList,
        some "CONNECT".toList, some "OK".toList])
      { driverWith [some "CONNECT".toList, some "OK".toList] with
        sent := [Sent.command "AT+QHTTPCFG=\"requestheader\",1".toList,
          Sent.command "AT+QHTTPURL=10".toList, Sent.binary "http://h/x".toList] }
      "http://h/x".toList "h".toList "/x".toList "{}".toList [("Accept".toList, "*/*".toList)]
      100 2500 (by decide)).2
      ("POST /x HTTP/1.1\r\nHost: h\r\nContent-Length: 2\r\n" ++
        "Accept: */*\r\n\r\n").toList rfl rfl rfl⟩

end HttpLengthsWitness

section RoundTrip

/-- The unchecked read of the unpacking loop on a complete PDU. The PDU that encodes
`ABCDEFGH` from the number `1234` holds seven packed bytes, and the decoder, at index 7,
reads `sm[7]`, the byte at index 23 of the 23-byte buffer; with a user-data header the
same read is at index 32 of 32. The text `ABCDEFG` is decoded with no such read. The
byte read has no influence on the result (`roundtrip_every_text`). -/
theorem roundtrip_eight_symbols_reads_outside :
    (encodeDeliverPdu [] 0x81 [1, 2, 3, 4] 0 0 sampleScts none
      [65, 66, 67, 68, 69, 70, 71, 72]).length = 23 ∧
    decodePdu (encodeDeliverPdu [] 0x81 [1, 2, 3, 4] 0 0 sampleScts none
      [65, 66, 67, 68, 69, 70, 71, 72]) 160 (some 20) = .outOfBounds .data 23 ∧
    decodePdu (encodeDeliverPdu [0x91, 0x13] 0x91 [1, 2, 3, 4, 5] 0 0 sampleScts
      (some [0, 3, 7, 2, 1]) [65, 66, 67, 68, 69, 70, 71, 72]) 160 (some 20) =
        .outOfBounds .data 32 ∧
    decodePdu (encodeDeliverPdu [] 0x81 [1, 2, 3, 4] 0 0 sampleScts none
      [65, 66, 67, 68, 69, 70, 71]) 160 (some 20) =
        .ok ⟨7, [65, 66, 67, 68, 69, 70, 71], some (digitChars [1, 2, 3, 4])⟩ := by
  decide

end RoundTrip

section Packing

theorem leValue_digits (m v : Nat) (hv : v < 256 ^ m) :
    leValue ((List.range m).map fun k => v / 256 ^ k % 256) = v := by
  induction m generalizing v with
  | zero =>
    simp only [pow_zero, Nat.lt_one_iff] at hv
    simp [leValue, hv]
  | succ m ih =>
    have hdiv : v / 256 < 256 ^ m := by
      rw [Nat.div_lt_iff_lt_mul (by norm_num)]
      rw [pow_succ] at hv
      exact hv
    have hstep : ∀ k, v / 256 ^ (k + 1) % 256 = v / 256 / 256 ^ k % 256 := by
      intro k
      rw [pow_succ, Nat.mul_comm, Nat.div_div_eq_div_mul]
    have hfun : ((fun k => v / 256 ^ k % 256) ∘ Nat.succ) =
        fun k => v / 256 / 256 ^ k % 256 := by
      funext k
      simp only [Function.comp, Nat.succ_eq_add_one]
      exact hstep k
    rw [List.range_succ_eq_map, List.map_cons, List.map_map, hfun]
    simp only [leValue, pow_zero, Nat.div_one]
    rw [ih (v / 256) hdiv]
    omega

theorem septetValue_lt (text : List Nat) (ht : ∀ c ∈ text, c < 128) :
    septetValue text < 128 ^ text.length := by
  induction text with
  | nil => simp [septetValue]
  | cons c rest ih =>
    have hc : c < 128 := ht c (List.mem_cons_self _ _)
    have hr := ih fun d hd => ht d (List.mem_cons_of_mem _ hd)
    simp only [septetValue, List.length_cons, pow_succ]
    omega

theorem septetValue_field (text : List Nat) (ht : ∀ c ∈ text, c < 128) (j : Nat)
    (hj : j < text.length) : septetValue text / 128 ^ j % 128 = text.getD j 0 := by
  induction text generalizing j with
  | nil => simp at hj
  | cons c rest ih =>
    have hc : c < 128 := ht c (List.mem_cons_self _ _)
    cases j with
    | zero =>
      simp only [septetValue, pow_zero, Nat.div_one, List.getD_cons_zero]
      omega
    | succ j =>
      have hdiv : (c + 128 * septetValue rest) / 128 = septetValue rest := by omega
      have e : (128 : Nat) ^ (j + 1) = 128 * 128 ^ j := by rw [pow_succ, Nat.mul_comm]
      show (c + 128 * septetValue rest) / 128 ^ (j + 1) % 128 = (c :: rest).getD (j + 1) 0
      rw [e, ← Nat.div_div_eq_div_mul, hdiv, List.getD_cons_succ]
      exact ih (fun d hd => ht d (List.mem_cons_of_mem _ hd)) j
        (by simpa using hj)

theorem packSeptets_length (text : List Nat) :
    (packSeptets text).length = (7 * text.length + 7) / 8 := by
  simp [packSeptets]

theorem packSeptets_lt (text : List Nat) : ∀ b ∈ packSeptets text, b < 256 := by
  intro b hb
  simp only [packSeptets, List.mem_map] at hb
  obtain ⟨k, _, rfl⟩ := hb
  exact Nat.mod_lt _ (by norm_num)

theorem leValue_packSeptets (text : List Nat) (ht : ∀ c ∈ text, c < 128) :
    leValue (packSeptets text) = septetValue text := by
  apply leValue_digits
  have h1 := septetValue_lt text ht
  have h2 : (128 : Nat) ^ text.length ≤ 256 ^ ((7 * text.length + 7) / 8) := by
    have e1 : (128 : Nat) = 2 ^ 7 := by norm_num
    have e2 : (256 : Nat) = 2 ^ 8 := by norm_num
    rw [e1, e2, ← pow_mul, ← pow_mul]
    apply Nat.pow_le_pow_right (by norm_num)
    omega
  omega

theorem packDigits_length (digits : List Nat) :
    (packDigits digits).length = digits.length / 2 + digits.length % 2 := by
  induction digits using packDigits.induct with
  | case1 => simp [packDigits]
  | case2 d => simp [packDigits]
  | case3 d0 d1 rest ih =>
    simp only [packDigits, List.length_cons, ih]
    omega

theorem packDigits_nibble (digits : List Nat) (hd : ∀ d ∈ digits, d < 16) (i : Nat)
    (hi : i < digits.length) :
    (if i % 2 = 0 then (packDigits digits).getD (i / 2) 0 % 16
      else (packDigits digits).getD (i / 2) 0 / 16) = digits.getD i 0 := by
  induction digits using packDigits.induct generalizing i with
  | case1 => simp at hi
  | case2 d =>
    have hd0 : d < 16 := hd d (List.mem_cons_self _ _)
    have hi0 : i = 0 := by simpa using hi
    subst hi0
    simp only [packDigits, Nat.zero_mod, if_true, Nat.zero_div, List.getD_cons_zero]
    omega
  | case3 d0 d1 rest ih =>
    have hd0 : d0 < 16 := hd d0 (List.mem_cons_self _ _)
    have hd1 : d1 < 16 := hd d1 (List.mem_cons_of_mem _ (List.mem_cons_self _ _))
    match i, hi with
    | 0, _ =>
      simp only [packDigits, Nat.zero_mod, if_true, Nat.zero_div, List.getD_cons_zero]
      omega
    | 1, _ =>
      simp only [packDigits, List.getD_cons_zero, List.getD_cons_succ]
      norm_num
      omega
    | i + 2, hi =>
      have hrest : ∀ d ∈ rest, d < 16 := fun d h =>
        hd d (List.mem_cons_of_mem _ (List.mem_cons_of_mem _ h))
      have e1 : (i + 2) % 2 = i % 2 := by omega
      have e2 : (i + 2) / 2 = i / 2 + 1 := by omega
      simp only [packDigits, e1, e2, List.getD_cons_succ]
      exact ih hrest i (by simpa using hi)

end Packing

section EncodedLayout

theorem readData_append_cons (front : List Nat) (x : Nat) (back : List Nat) (i : Nat)
    (hi : i = front.length) : readData (front ++ x :: back) i = .ok x := by
  subst hi
  refine (readData_eq_ok _ _ _).mpr ?_
  rw [List.getElem?_append_right (le_refl _), Nat.sub_self]
  simp

theorem getD_append_right (front back : List Nat) (i k : Nat) (hi : i = front.length + k) :
    (front ++ back).getD i 0 = back.getD k 0 := by
  subst hi
  simp [List.getD_eq_getElem?_getD, List.getElem?_append_right]

/-- The header walk on a buffer laid out as the data model says. -/
theorem headerWalk_layout (smsc pd scts ud : List Nat) (mti n ty pid dcs : Nat)
    (hmti : mti &&& 0x03 = 0) (hpd : pd.length = n / 2 + n % 2) (hscts : scts.length = 7)
    (hud : ud ≠ []) :
    ∃ h, headerWalk (smsc.length :: (smsc ++ (mti :: n :: ty :: (pd ++ (pid :: dcs ::
        (scts ++ ud)))))) = .ok h ∧
      h.tpUdhi = ((mti &&& 0x40) != 0) ∧ h.tpOaSize = smsc.length + 2 ∧
      h.tpUd = smsc.length + 13 + pd.length := by
  obtain ⟨u0, ud1, rfl⟩ := List.exists_cons_of_ne_nil hud
  generalize hdata : smsc.length :: (smsc ++ (mti :: n :: ty :: (pd ++ (pid :: dcs ::
    (scts ++ u0 :: ud1))))) = data
  have hlen : data.length = smsc.length + 14 + pd.length + ud1.length := by
    subst hdata
    simp only [List.length_cons, List.length_append, hscts]
    omega
  have r0 : readData data 0 = .ok smsc.length := by
    subst hdata; simp [readData]
  have r1 : readData data (0 + 1 + smsc.length) = .ok mti := by
    have e : data = (smsc.length :: smsc) ++ mti :: (n :: ty :: (pd ++ (pid :: dcs ::
        (scts ++ u0 :: ud1)))) := by subst hdata; simp
    rw [e]
    exact readData_append_cons _ _ _ _ (by simp; omega)
  have r2 : readData data (0 + 1 + smsc.length + 1) = .ok n := by
    have e : data = (smsc.length :: (smsc ++ [mti])) ++ n :: (ty :: (pd ++ (pid :: dcs ::
        (scts ++ u0 :: ud1)))) := by subst hdata; simp
    rw [e]
    exact readData_append_cons _ _ _ _ (by simp; omega)
  have c1 : (!decide (0 + 1 + smsc.length ≥ data.length)) = true := by
    simp only [Bool.not_eq_true', decide_eq_false_iff_not]; omega
  have c2 : (!((mti &&& 0x03) != 0x00)) = true := by simp [hmti]
  have c3 : (!decide (0 + 1 + smsc.length + 1 ≥ data.length)) = true := by
    simp only [Bool.not_eq_true', decide_eq_false_iff_not]; omega
  have c4 : (!decide (0 + 1 + smsc.length + 1 + 2 + n / 2 + n % 2 ≥ data.length)) = true := by
    simp only [Bool.not_eq_true', decide_eq_false_iff_not]; omega
  have c5 : (!decide (0 + 1 + smsc.length + 1 + 2 + n / 2 + n % 2 + 1 ≥ data.length)) =
      true := by
    simp only [Bool.not_eq_true', decide_eq_false_iff_not]; omega
  have c6 : (!decide (0 + 1 + smsc.length + 1 + 2 + n / 2 + n % 2 + 1 + 1 ≥ data.length)) =
      true := by
    simp only [Bool.not_eq_true', decide_eq_false_iff_not]; omega
  have c7 : (!decide (0 + 1 + smsc.length + 1 + 2 + n / 2 + n % 2 + 1 + 1 + 7 ≥
      data.length)) = true := by
    simp only [Bool.not_eq_true', decide_eq_false_iff_not]; omega
  have hw : headerWalk data = .ok
      ⟨0 + 1 + smsc.length, (if (mti &&& 0x40) != 0 then true else false),
        0 + 1 + smsc.length + 1, 0 + 1 + smsc.length + 1 + 2 + n / 2 + n % 2,
        0 + 1 + smsc.length + 1 + 2 + n / 2 + n % 2 + 1,
        0 + 1 + smsc.length + 1 + 2 + n / 2 + n % 2 + 1 + 1,
        0 + 1 + smsc.length + 1 + 2 + n / 2 + n % 2 + 1 + 1 + 7⟩ := by
    simp only [headerWalk, r0, r1, r2, c1, c3, c4, c5, c6, c7, require, Run.ok_bind,
      if_true, Run.pure_eq_ok, hmti]
    rfl
  refine ⟨_, hw, ?_, ?_, ?_⟩
  · by_cases hbit : mti &&& 0x40 = 0 <;> simp [hbit]
  · simp only; omega
  · simp only; omega

end EncodedLayout

section RoundTripLemmas

theorem map_range_getD (l : List Nat) : (List.range l.length).map (fun j => l.getD j 0) = l := by
  apply List.ext_getElem?
  intro i
  by_cases hi : i < l.length
  · simp [List.getElem?_map, List.getElem?_range hi, List.getD_eq_getElem?_getD,
      List.getElem?_eq_getElem hi]
  · have h1 : l[i]? = none := List.getElem?_eq_none (by omega)
    have h2 : ((List.range l.length).map fun j => l.getD j 0)[i]? = none :=
      List.getElem?_eq_none (by simp; omega)
    rw [h1, h2]

/-- Unpacking the packed form of a text whose length is not a positive multiple of 8
yields the text. -/
theorem unpack_packSeptets (data : List Nat) (sm : Nat) (text : List Nat) (messageSize : Int)
    (hb : ∀ b ∈ data, b < 256) (hsm : sm ≤ data.length)
    (hdrop : data.drop sm = packSeptets text)
    (htext : ∀ c ∈ text, c < 128) (hlen : text.length % 8 ≠ 0 ∨ text = [])
    (hmsg : (text.length : Int) + 1 ≤ messageSize) :
    unpackUserData data (text.length : Int) sm messageSize = .ok text := by
  have hlength : data.length = sm + (7 * text.length + 7) / 8 := by
    have := congrArg List.length hdrop
    rw [List.length_drop, packSeptets_length] at this
    omega
  have hread : ∀ i, i < text.length → sm + (i - i / 8) < data.length := by
    intro i hi
    rcases hlen with h | h
    · have hr : text.length % 8 = 1 ∨ text.length % 8 = 2 ∨ text.length % 8 = 3 ∨
          text.length % 8 = 4 ∨ text.length % 8 = 5 ∨ text.length % 8 = 6 ∨
          text.length % 8 = 7 := by omega
      have hs : i % 8 = 0 ∨ i % 8 = 1 ∨ i % 8 = 2 ∨ i % 8 = 3 ∨ i % 8 = 4 ∨ i % 8 = 5 ∨
          i % 8 = 6 ∨ i % 8 = 7 := by omega
      rcases hr with hr | hr | hr | hr | hr | hr | hr <;>
        rcases hs with hs | hs | hs | hs | hs | hs | hs | hs <;> omega
    · subst h; simp at hi
  rw [unpackUserData_eq data sm text.length messageSize hb hread hmsg, hdrop,
    leValue_packSeptets text htext]
  congr 1
  have hmap : ((List.range text.length).map fun j => septetValue text / 2 ^ (7 * j) % 128) =
      (List.range text.length).map fun j => text.getD j 0 := by
    apply List.map_congr_left
    intro j hj
    have hj2 : j < text.length := List.mem_range.mp hj
    have e : (2 : Nat) ^ (7 * j) = 128 ^ j := by
      rw [pow_mul]
      norm_num
    rw [e]
    exact septetValue_field text htext j hj2
  rw [hmap, map_range_getD]

/-- Decoding the address field that `encodeAddress` lays out yields the digits. -/
theorem decodeDialNumber_layout (front back digits : List Nat) (typeOfAddress : Nat)
    (h : PduHeader) (dialNumberSize : Int) (hoa : h.tpOaSize = front.length)
    (hdigits : ∀ d ∈ digits, d < 10)
    (hsize : (digits.length : Int) + 1 ≤ dialNumberSize) :
    decodeDialNumber (front ++ digits.length :: typeOfAddress :: (packDigits digits ++ back))
      h (some dialNumberSize) = .ok (some (digitChars digits)) := by
  generalize hdata : front ++ digits.length :: typeOfAddress :: (packDigits digits ++ back) =
    data
  have hlen : data.length = front.length + 2 + (packDigits digits).length + back.length := by
    subst hdata
    simp only [List.length_append, List.length_cons]
    omega
  have hpd := packDigits_length digits
  have r0 : readData data h.tpOaSize = .ok digits.length := by
    subst hdata
    exact readData_append_cons _ _ _ _ hoa
  have hget : ∀ j, j < digits.length →
      data.getD (h.tpOaSize + 2 + j / 2) 0 = (packDigits digits).getD (j / 2) 0 := by
    intro j hj
    have e : data = (front ++ [digits.length, typeOfAddress]) ++ (packDigits digits ++ back) := by
      subst hdata; simp
    rw [e, getD_append_right _ _ _ (j / 2) (by simp; omega)]
    have hlt : j / 2 < (packDigits digits).length := by omega
    simp [List.getD_eq_getElem?_getD, List.getElem?_append_left hlt]
  have hloop := addressLoop_eq data (h.tpOaSize + 2) dialNumberSize digits.length 0
    (fun j _ hj => by omega) (by push_cast; omega)
  have hchars : ((List.range digits.length).map fun j => '0'.toNat +
      (if (0 + j) % 2 = 0 then data.getD (h.tpOaSize + 2 + (0 + j) / 2) 0 % 16
        else data.getD (h.tpOaSize + 2 + (0 + j) / 2) 0 / 16)) = digitChars digits := by
    have hmap : ((List.range digits.length).map fun j => '0'.toNat +
        (if (0 + j) % 2 = 0 then data.getD (h.tpOaSize + 2 + (0 + j) / 2) 0 % 16
          else data.getD (h.tpOaSize + 2 + (0 + j) / 2) 0 / 16)) =
        (List.range digits.length).map fun j => '0'.toNat + digits.getD j 0 := by
      apply List.map_congr_left
      intro j hj
      have hj2 : j < digits.length := List.mem_range.mp hj
      simp only [Nat.zero_add]
      rw [hget j hj2, packDigits_nibble digits
        (fun d hd => Nat.lt_of_lt_of_le (hdigits d hd) (by norm_num)) j hj2]
    rw [hmap]
    unfold digitChars
    conv_rhs => rw [← map_range_getD digits]
    rw [List.map_map]
    rfl
  have hw : checkWrite .dialNumber dialNumberSize (digits.length : Int) = .ok () :=
    checkWrite_of_lt _ _ _ (by omega) (by omega)
  have hge : dialNumberSize ≥ 1 := by omega
  have hif : ¬ ((digits.length : Int) + 1 > dialNumberSize) := by omega
  simp only [decodeDialNumber, hge, if_true, SmAddressFieldToString, r0, Run.ok_bind, hif,
    if_false, hloop, hchars, hw, Run.pure_eq_ok]

end RoundTripLemmas

section RoundTripGeneral

/-- For every text of 7-bit symbols whose length is not a positive
multiple of 8 and every number of decimal digits, with or without a user-data header,
decoding the PDU that `encodeDeliverPdu` lays out (all of its bytes below 256, buffers
large enough) returns the text and the number. -/
theorem roundtrip_other_lengths (smsc digits scts text : List Nat)
    (typeOfAddress pid dcs : Nat) (udh : Option (List Nat))
    (messageSize dialNumberSize : Int)
    (hbytes : ∀ b ∈ encodeDeliverPdu smsc typeOfAddress digits pid dcs scts udh text, b < 256)
    (hdigits : ∀ d ∈ digits, d < 10) (hscts : scts.length = 7)
    (htext : ∀ c ∈ text, c < 128) (hlen : text.length % 8 ≠ 0 ∨ text = [])
    (hmsg : (text.length : Int) + 1 ≤ messageSize)
    (hdial : (digits.length : Int) + 1 ≤ dialNumberSize) :
    decodePdu (encodeDeliverPdu smsc typeOfAddress digits pid dcs scts udh text)
        messageSize (some dialNumberSize) =
      .ok ⟨text.length, text, some (digitChars digits)⟩ := by
  generalize hdata : encodeDeliverPdu smsc typeOfAddress digits pid dcs scts udh text = data
    at hbytes ⊢
  cases udh with
  | none =>
    have e1 : data = smsc.length :: (smsc ++ (0 :: digits.length :: typeOfAddress ::
        (packDigits digits ++ (pid :: dcs ::
          (scts ++ (text.length :: packSeptets text)))))) := by
      subst hdata; simp [encodeDeliverPdu, encodeAddress]
    obtain ⟨h, hw, hudhi, hoa, hud⟩ := headerWalk_layout smsc (packDigits digits) scts
      (text.length :: packSeptets text) 0 digits.length typeOfAddress pid dcs (by decide)
      (packDigits_length digits) hscts (by simp)
    rw [← e1] at hw
    have hnum : decodeDialNumber data h (some dialNumberSize) =
        .ok (some (digitChars digits)) := by
      have e2 : data = (smsc.length :: (smsc ++ [0])) ++ digits.length :: typeOfAddress ::
          (packDigits digits ++ (pid :: dcs ::
            (scts ++ (text.length :: packSeptets text)))) := by
        rw [e1]; simp
      rw [e2]
      exact decodeDialNumber_layout _ _ _ _ h dialNumberSize (by simp [hoa]) hdigits hdial
    have e3 : data = (smsc.length :: (smsc ++ (0 :: digits.length :: typeOfAddress ::
        (packDigits digits ++ (pid :: dcs :: scts))))) ++
          text.length :: packSeptets text := by
      rw [e1]; simp
    have hfront : (smsc.length :: (smsc ++ (0 :: digits.length :: typeOfAddress ::
        (packDigits digits ++ (pid :: dcs :: scts))))).length = h.tpUd := by
      simp only [List.length_cons, List.length_append, hscts, hud]
      omega
    have r1 : readData data h.tpUd = .ok text.length := by
      rw [e3]
      exact readData_append_cons _ _ _ _ hfront.symm
    have hf : h.tpUdhi = false := by rw [hudhi]; decide
    have hlayout : userDataLayout data h = .ok ((text.length : Int), h.tpUd + 1) := by
      simp [userDataLayout, hf, r1, Run.pure_eq_ok]
    have hdrop : data.drop (h.tpUd + 1) = packSeptets text := by
      have e4 : data = ((smsc.length :: (smsc ++ (0 :: digits.length :: typeOfAddress ::
          (packDigits digits ++ (pid :: dcs :: scts))))) ++ [text.length]) ++
            packSeptets text := by
        rw [e3]; simp
      rw [e4]
      exact List.drop_left' (by rw [List.length_append, hfront]; rfl)
    have hsm : h.tpUd + 1 ≤ data.length := by
      rw [e3, List.length_append, hfront, List.length_cons]
      omega
    have hunpack := unpack_packSeptets data (h.tpUd + 1) text messageSize hbytes hsm hdrop
      htext hlen hmsg
    simp only [decodePdu, hw, hnum, hlayout, hunpack, Run.ok_bind, Run.pure_eq_ok]
  | some hdr =>
    have e1 : data = smsc.length :: (smsc ++ (0x40 :: digits.length :: typeOfAddress ::
        (packDigits digits ++ (pid :: dcs ::
          (scts ++ ((text.length + 1 + hdr.length) :: hdr.length ::
            (hdr ++ packSeptets text))))))) := by
      subst hdata; simp [encodeDeliverPdu, encodeAddress]
    obtain ⟨h, hw, hudhi, hoa, hud⟩ := headerWalk_layout smsc (packDigits digits) scts
      ((text.length + 1 + hdr.length) :: hdr.length :: (hdr ++ packSeptets text)) 0x40
      digits.length typeOfAddress pid dcs (by decide) (packDigits_length digits) hscts
      (by simp)
    rw [← e1] at hw
    have hnum : decodeDialNumber data h (some dialNumberSize) =
        .ok (some (digitChars digits)) := by
      have e2 : data = (smsc.length :: (smsc ++ [0x40])) ++ digits.length :: typeOfAddress ::
          (packDigits digits ++ (pid :: dcs ::
            (scts ++ ((text.length + 1 + hdr.length) :: hdr.length ::
              (hdr ++ packSeptets text))))) := by
        rw [e1]; simp
      rw [e2]
      exact decodeDialNumber_layout _ _ _ _ h dialNumberSize (by simp [hoa]) hdigits hdial
    have e3 : data = (smsc.length :: (smsc ++ (0x40 :: digits.length :: typeOfAddress ::
        (packDigits digits ++ (pid :: dcs :: scts))))) ++
          (text.length + 1 + hdr.length) :: (hdr.length :: (hdr ++ packSeptets text)) := by
      rw [e1]; simp
    have hfront : (smsc.length :: (smsc ++ (0x40 :: digits.length :: typeOfAddress ::
        (packDigits digits ++ (pid :: dcs :: scts))))).length = h.tpUd := by
      simp only [List.length_cons, List.length_append, hscts, hud]
      omega
    have r1 : readData data h.tpUd = .ok (text.length + 1 + hdr.length) := by
      rw [e3]
      exact readData_append_cons _ _ _ _ hfront.symm
    have e4 : data = ((smsc.length :: (smsc ++ (0x40 :: digits.length :: typeOfAddress ::
        (packDigits digits ++ (pid :: dcs :: scts))))) ++ [text.length + 1 + hdr.length]) ++
          hdr.length :: (hdr ++ packSeptets text) := by
      rw [e3]; simp
    have r2 : readData data (h.tpUd + 1) = .ok hdr.length := by
      rw [e4]
      exact readData_append_cons _ _ _ _ (by rw [List.length_append, hfront]; rfl)
    have hlength : data.length = h.tpUd + 2 + hdr.length + (packSeptets text).length := by
      rw [e3, List.length_append, hfront]
      simp only [List.length_cons, List.length_append]
      omega
    have ht : h.tpUdhi = true := by rw [hudhi]; decide
    have hreq : require (!decide (h.tpUd + 1 ≥ data.length)) = .ok () := by
      simp [require]; omega
    have hcount : (((text.length + 1 + hdr.length : Nat) : Int) - (1 + (hdr.length : Int))) =
        (text.length : Int) := by
      push_cast; omega
    have hlayout : userDataLayout data h =
        .ok ((text.length : Int), h.tpUd + 2 + hdr.length) := by
      simp only [userDataLayout, ht, Bool.not_true, Bool.false_eq_true, if_false, hreq, r1, r2,
        Run.ok_bind, Run.pure_eq_ok, hcount]
    have hdrop : data.drop (h.tpUd + 2 + hdr.length) = packSeptets text := by
      have e5 : data = ((smsc.length :: (smsc ++ (0x40 :: digits.length :: typeOfAddress ::
          (packDigits digits ++ (pid :: dcs :: scts))))) ++
            [text.length + 1 + hdr.length, hdr.length] ++ hdr) ++ packSeptets text := by
        rw [e3]; simp
      rw [e5]
      exact List.drop_left' (by
        simp only [List.length_append, hfront, List.length_cons, List.length_nil])
    have hsm : h.tpUd + 2 + hdr.length ≤ data.length := by omega
    have hunpack := unpack_packSeptets data (h.tpUd + 2 + hdr.length) text messageSize hbytes
      hsm hdrop htext hlen hmsg
    simp only [decodePdu, hw, hnum, hlayout, hunpack, Run.ok_bind, Run.pure_eq_ok]

end RoundTripGeneral

section InBounds

theorem readData_getD_of_lt (data : List Nat) (i : Nat) (h : i < data.length) :
    readData data i = .ok (data.getD i 0) := by
  rw [readData_of_lt data i h]
  simp [List.getD_eq_getElem?_getD, List.getElem?_eq_getElem h]

theorem require_of_true (c : Bool) (h : c = true) : require c = .ok () := by
  simp [require, h]

theorem require_of_false (c : Bool) (h : c = false) : require c = .unknown := by
  simp [require, h]

theorem require_not_ge (a b : Nat) (h : a ≥ b) : require (!decide (a ≥ b)) = .unknown := by
  simp [require, h]

theorem require_not_ge_ok (a b : Nat) (h : ¬ a ≥ b) : require (!decide (a ≥ b)) = .ok () := by
  simp only [require, decide_eq_true_eq, h, decide_False, Bool.not_false, if_true]

/-- The header walk of a non-empty buffer reads inside the buffer only. -/
theorem headerWalk_in_bounds (data : List Nat) (hne : data ≠ []) :
    headerWalk data = .unknown ∨ ∃ h, headerWalk data = .ok h := by
  have h0 : 0 < data.length := List.length_pos.mpr hne
  have r0 := readData_getD_of_lt data 0 h0
  generalize data.getD 0 0 = b0 at r0
  by_cases c1 : 0 + 1 + b0 ≥ data.length
  · left
    simp only [headerWalk, r0, Run.ok_bind, require_not_ge _ _ c1,
      Run.unknown_bind]
  have q1 := require_not_ge_ok _ _ c1
  have r1 := readData_getD_of_lt data (0 + 1 + b0) (by omega)
  generalize data.getD (0 + 1 + b0) 0 = mti at r1
  by_cases c2 : (mti &&& 0x03) = 0x00
  swap
  · left
    simp only [headerWalk, r0, Run.ok_bind, q1, r1,
      require_of_false (!((mti &&& 0x03) != 0x00)) (by simp [c2]), Run.unknown_bind]
  have q2 := require_of_true (!((mti &&& 0x03) != 0x00)) (by simp [c2])
  by_cases c3 : 0 + 1 + b0 + 1 ≥ data.length
  · left
    simp only [headerWalk, r0, Run.ok_bind, q1, r1, q2,
      require_not_ge _ _ c3, Run.unknown_bind]
  have q3 := require_not_ge_ok _ _ c3
  have r2 := readData_getD_of_lt data (0 + 1 + b0 + 1) (by omega)
  generalize data.getD (0 + 1 + b0 + 1) 0 = oa at r2
  by_cases c4 : 0 + 1 + b0 + 1 + 2 + oa / 2 + oa % 2 ≥ data.length
  · left
    simp only [headerWalk, r0, Run.ok_bind, q1, r1, q2, q3, r2,
      require_not_ge _ _ c4, Run.unknown_bind]
  have q4 := require_not_ge_ok _ _ c4
  by_cases c5 : 0 + 1 + b0 + 1 + 2 + oa / 2 + oa % 2 + 1 ≥ data.length
  · left
    simp only [headerWalk, r0, Run.ok_bind, q1, r1, q2, q3, r2, q4,
      require_not_ge _ _ c5, Run.unknown_bind]
  have q5 := require_not_ge_ok _ _ c5
  by_cases c6 : 0 + 1 + b0 + 1 + 2 + oa / 2 + oa % 2 + 1 + 1 ≥ data.length
  · left
    simp only [headerWalk, r0, Run.ok_bind, q1, r1, q2, q3, r2, q4, q5,
      require_not_ge _ _ c6, Run.unknown_bind]
  have q6 := require_not_ge_ok _ _ c6
  by_cases c7 : 0 + 1 + b0 + 1 + 2 + oa / 2 + oa % 2 + 1 + 1 + 7 ≥ data.length
  · left
    simp only [headerWalk, r0, Run.ok_bind, q1, r1, q2, q3, r2, q4, q5, q6,
      require_not_ge _ _ c7, Run.unknown_bind]
  have q7 := require_not_ge_ok _ _ c7
  right
  refine ⟨⟨0 + 1 + b0, (if (mti &&& 0x40) != 0 then true else false), 0 + 1 + b0 + 1,
    0 + 1 + b0 + 1 + 2 + oa / 2 + oa % 2, 0 + 1 + b0 + 1 + 2 + oa / 2 + oa % 2 + 1,
    0 + 1 + b0 + 1 + 2 + oa / 2 + oa % 2 + 1 + 1,
    0 + 1 + b0 + 1 + 2 + oa / 2 + oa % 2 + 1 + 1 + 7⟩, ?_⟩
  simp only [headerWalk, r0, Run.ok_bind, q1, r1, q2, q3, r2, q4, q5, q6, q7, Run.pure_eq_ok]

/-- After a successful header walk the address decode reads inside the buffer and
writes inside the number buffer only. -/
theorem decodeDialNumber_in_bounds (data : List Nat) (h : PduHeader)
    (hw : headerWalk data = .ok h) (dialNumber : Option Int) (buf : Buffer) (idx : Int) :
    decodeDialNumber data h dialNumber ≠ .outOfBounds buf idx := by
  obtain ⟨_, _, _, _, hoa, hpid, hdcs, hscts, hud, hlt⟩ := headerWalk_ok data h hw
  intro hX
  cases dialNumber with
  | none => cases hX
  | some dialNumberSize =>
    by_cases hge : dialNumberSize ≥ 1
    swap
    · simp only [decodeDialNumber, hge, if_false] at hX
      cases hX
    have r0 := readData_getD_of_lt data h.tpOaSize (by omega)
    generalize data.getD h.tpOaSize 0 = n at r0 hpid
    by_cases hif : (n : Int) + 1 > dialNumberSize
    · simp only [decodeDialNumber, hge, if_true, SmAddressFieldToString, r0, Run.ok_bind, hif,
        Run.pure_eq_ok] at hX
      cases hX
    · have hloop := addressLoop_eq data (h.tpOaSize + 2) dialNumberSize n 0
        (fun j _ hj => by omega) (by push_cast; omega)
      have hwr : checkWrite .dialNumber dialNumberSize (n : Int) = .ok () :=
        checkWrite_of_lt _ _ _ (by omega) (by omega)
      simp only [decodeDialNumber, hge, if_true, SmAddressFieldToString, r0,
        Run.ok_bind, hif, if_false, hloop, hwr, Run.pure_eq_ok] at hX
      cases hX

/-- After a successful header walk the reads of the user-data length and of the
header length stay inside the buffer. -/
theorem userDataLayout_in_bounds (data : List Nat) (h : PduHeader)
    (hw : headerWalk data = .ok h) (buf : Buffer) (idx : Int) :
    userDataLayout data h ≠ .outOfBounds buf idx := by
  obtain ⟨_, _, _, _, _, _, _, _, _, hlt⟩ := headerWalk_ok data h hw
  have r0 := readData_getD_of_lt data h.tpUd hlt
  intro hX
  cases hu : h.tpUdhi with
  | false =>
    simp only [userDataLayout, hu, Bool.not_false, if_true, r0, Run.ok_bind,
      Run.pure_eq_ok] at hX
    cases hX
  | true =>
    by_cases c : h.tpUd + 1 ≥ data.length
    · simp only [userDataLayout, hu, Bool.not_true, Bool.false_eq_true, if_false,
        require_not_ge _ _ c, Run.unknown_bind] at hX
      cases hX
    · have r1 := readData_getD_of_lt data (h.tpUd + 1) (by omega)
      simp only [userDataLayout, hu, Bool.not_true, Bool.false_eq_true, if_false,
        require_not_ge_ok _ _ c, r0, r1, Run.ok_bind, Run.pure_eq_ok] at hX
      cases hX

/-- Where the decoder of `ReceiveSMS` can leave its buffers: at `data[0]` of the empty
buffer, or in the unpacking of the user data. Every other access is in bounds. -/
theorem decodePdu_outOfBounds_cases (data : List Nat) (messageSize : Int)
    (dialNumber : Option Int) (buf : Buffer) (idx : Int)
    (hoob : decodePdu data messageSize dialNumber = .outOfBounds buf idx) :
    (data = [] ∧ buf = .data ∧ idx = 0) ∨
    ∃ h smSize sm, headerWalk data = .ok h ∧ userDataLayout data h = .ok (smSize, sm) ∧
      unpackUserData data smSize sm messageSize = .outOfBounds buf idx := by
  by_cases hne : data = []
  · subst hne
    left
    have : decodePdu [] messageSize dialNumber = .outOfBounds .data 0 := rfl
    rw [this] at hoob
    cases hoob
    exact ⟨rfl, rfl, rfl⟩
  right
  rcases headerWalk_in_bounds data hne with hw | ⟨h, hw⟩
  · simp [decodePdu, hw] at hoob
  cases hn : decodeDialNumber data h dialNumber with
  | unknown => simp [decodePdu, hw, hn] at hoob
  | outOfBounds b i => exact absurd hn (decodeDialNumber_in_bounds data h hw dialNumber b i)
  | ok number =>
    cases hl : userDataLayout data h with
    | unknown => simp [decodePdu, hw, hn, hl] at hoob
    | outOfBounds b i => exact absurd hl (userDataLayout_in_bounds data h hw b i)
    | ok r =>
      obtain ⟨smSize, sm⟩ := r
      refine ⟨h, smSize, sm, hw, hl, ?_⟩
      simp only [decodePdu, hw, hn, hl, Run.ok_bind] at hoob
      cases hu : unpackUserData data smSize sm messageSize with
      | ok m => simp [hu, Run.pure_eq_ok] at hoob
      | unknown => simp [hu] at hoob
      | outOfBounds b i =>
        simp only [hu, Run.outOfBounds_bind] at hoob
        obtain ⟨hb, hi⟩ := Run.outOfBounds.inj hoob
        rw [hb, hi]

end InBounds

section TimeoutSeconds

theorem tmod_thousand_bounds (t : Int) :
    -1000 < Int.tmod t 1000 ∧ Int.tmod t 1000 < 1000 := by
  have hlt : Int.tmod t 1000 < 1000 := Int.tmod_lt_of_pos _ (by norm_num)
  rcases lt_or_ge t 0 with hneg | hpos
  · have h1 : 0 ≤ Int.tmod (-t) 1000 := Int.tmod_nonneg _ (by omega)
    have h2 : Int.tmod (-t) 1000 < 1000 := Int.tmod_lt_of_pos _ (by norm_num)
    have h3 := Int.tmod_add_tdiv (-t) 1000
    have h4 := Int.tmod_add_tdiv t 1000
    have h5 : Int.tdiv (-t) 1000 = -(Int.tdiv t 1000) := Int.neg_tdiv _ _
    rw [h5] at h3
    exact ⟨by omega, hlt⟩
  · have h1 : 0 ≤ Int.tmod t 1000 := Int.tmod_nonneg _ hpos
    exact ⟨by omega, hlt⟩

/-- C17: the whole-second value `HttpGet` and `HttpPost` send for a timeout in
milliseconds is the ceiling of `timeout / 1000`: it is the least integer `s` with
`1000 * s >= timeout`, for every integer timeout. -/
theorem httpTimeoutSec_ceiling (timeout : Int) :
    timeout ≤ 1000 * httpTimeoutSec timeout ∧
    (∀ s : Int, timeout ≤ 1000 * s → httpTimeoutSec timeout ≤ s) ∧
    httpTimeoutSec timeout = ⌈(timeout : ℚ) / 1000⌉ := by
  have hb := tmod_thousand_bounds timeout
  have h4 := Int.tmod_add_tdiv timeout 1000
  have key : timeout ≤ 1000 * httpTimeoutSec timeout ∧
      1000 * (httpTimeoutSec timeout - 1) < timeout := by
    unfold httpTimeoutSec
    by_cases hr : Int.tmod timeout 1000 > 0
    · simp only [hr, if_true]; omega
    · simp only [hr, if_false]; omega
  refine ⟨key.1, fun s hs => by omega, ?_⟩
  symm
  rw [Int.ceil_eq_iff]
  constructor
  · rw [lt_div_iff₀ (by norm_num : (0 : ℚ) < 1000)]
    have := key.2
    have h : (((httpTimeoutSec timeout - 1) * 1000 : Int) : ℚ) < ((timeout : Int) : ℚ) := by
      exact_mod_cast (by omega : (httpTimeoutSec timeout - 1) * 1000 < timeout)
    push_cast at h
    exact h
  · rw [div_le_iff₀ (by norm_num : (0 : ℚ) < 1000)]
    have h : ((timeout : Int) : ℚ) ≤ ((httpTimeoutSec timeout * 1000 : Int) : ℚ) := by
      exact_mod_cast (by omega : timeout ≤ httpTimeoutSec timeout * 1000)
    push_cast at h
    exact h

end TimeoutSeconds

section SignalStrength

theorem exactLinearScale_low (rssi : Int) :
    exactLinearScale (rssi : ℚ) 2 30 (-109) (-53) = ((2 * rssi - 113 : Int) : ℚ) := by
  unfold exactLinearScale
  push_cast
  ring

theorem truncateToInt_intCast (z : Int) : truncateToInt (z : ℚ) = z := by
  unfold truncateToInt
  rw [Rat.num_intCast, Rat.den_intCast]
  exact Int.tdiv_one z

/-- On the segment 2..30 the `double` operations of `LINEAR_SCALE` lose nothing: the
result is the integer `2 * rssi - 113`. -/
theorem LINEAR_SCALE_low (rssi : Int) (h2 : 2 ≤ rssi) (h30 : rssi ≤ 30) :
    (LINEAR_SCALE (doubleOfInt rssi) 2 30 (-109) (-53)).num =
      (2 * rssi - 113) * (LINEAR_SCALE (doubleOfInt rssi) 2 30 (-109) (-53)).den := by
  interval_cases rssi <;> decide

theorem rssiToDbm_low (rssi : Int) (h2 : 2 ≤ rssi) (h30 : rssi ≤ 30) :
    rssiToDbm rssi = 2 * rssi - 113 := by
  interval_cases rssi <;> decide

/-- On the segment 102..190 the rounding of the `double` operations shows: at 152 and
at 163 the quotient rounds up, the sum falls just short of -64 and of -53, and the
conversion to `int` gives -63 and -52, one more than the exact interpolation. -/
theorem rssiToDbm_rounding :
    rssiToDbm 152 = -63 ∧ rssiToDbm 163 = -52 ∧
    truncateToInt (exactLinearScale 152 102 190 (-114) (-26)) = -64 ∧
    truncateToInt (exactLinearScale 163 102 190 (-114) (-26)) = -53 ∧
    rssiToDbm 102 = -114 ∧ rssiToDbm 146 = -70 ∧ rssiToDbm 190 = -26 := by
  have e1 : exactLinearScale 152 102 190 (-114) (-26) = ((-64 : Int) : ℚ) := by
    unfold exactLinearScale
    norm_num
  have e2 : exactLinearScale 163 102 190 (-114) (-26) = ((-53 : Int) : ℚ) := by
    unfold exactLinearScale
    norm_num
  rw [e1, e2, truncateToInt_intCast, truncateToInt_intCast]
  decide

theorem GetReceivedSignalStrength_ok (s : Driver) (response ok : List Char)
    (rest : List (Option (List Char)))
    (hreplies : s.replies = some response :: some ok :: rest)
    (hsize : (parseArguments response).length = 2) :
    call GetReceivedSignalStrength s =
      (rssiToDbm (atoi ((parseArguments response).getD 0 [])),
        { s with replies := rest, sent := s.sent ++ [.command "AT+CSQ".toList],
                 lastError := .E_OK }) := by
  simp only [GetReceivedSignalStrength, call, Act.bind_def, Act.pure_def, failIf, WriteCommand,
    ReadResponse, RET_OK, RET_ERR, hreplies, hsize]
  rfl

/-- C11: `GetReceivedSignalStrength` maps a reported rssi of 0 to -113, of 31 to -51, of
99 to -999, and every rssi from 2 to 30 to the exact linear interpolation of 2..30 onto
-109..-53, which is `-109 + (rssi - 2) * 56 / 28 = 2 * rssi - 113` with nothing to
truncate (so 15 gives -83): the `double` operations of the code produce exactly that
integer; a two-field reply followed by `OK` returns the mapped value with error code
Ok. -/
theorem GetReceivedSignalStrength_scale :
    rssiToDbm 0 = -113 ∧ rssiToDbm 31 = -51 ∧ rssiToDbm 99 = -999 ∧ rssiToDbm 15 = -83 ∧
    (∀ rssi : Int, 2 ≤ rssi → rssi ≤ 30 →
      exactLinearScale (rssi : ℚ) 2 30 (-109) (-53) = -109 + ((rssi : ℚ) - 2) * 56 / 28 ∧
      exactLinearScale (rssi : ℚ) 2 30 (-109) (-53) = ((2 * rssi - 113 : Int) : ℚ) ∧
      truncateToInt (exactLinearScale (rssi : ℚ) 2 30 (-109) (-53)) = 2 * rssi - 113 ∧
      (LINEAR_SCALE (doubleOfInt rssi) 2 30 (-109) (-53)).num =
        (2 * rssi - 113) * (LINEAR_SCALE (doubleOfInt rssi) 2 30 (-109) (-53)).den ∧
      rssiToDbm rssi = 2 * rssi - 113) ∧
    (∀ (s : Driver) (response ok : List Char) (rest : List (Option (List Char))),
      s.replies = some response :: some ok :: rest →
      (parseArguments response).length = 2 →
      (call GetReceivedSignalStrength s).1 = rssiToDbm (atoi ((parseArguments response).getD 0 []))
      ∧ (call GetReceivedSignalStrength s).2.lastError = .E_OK) := by
  refine ⟨by decide, by decide, by decide, rssiToDbm_low 15 (by decide) (by decide), ?_, ?_⟩
  · intro rssi h2 h30
    refine ⟨?_, exactLinearScale_low rssi, ?_, LINEAR_SCALE_low rssi h2 h30,
      rssiToDbm_low rssi h2 h30⟩
    · unfold exactLinearScale
      ring
    · rw [exactLinearScale_low, truncateToInt_intCast]
  · intro s response ok rest hreplies hsize
    rw [GetReceivedSignalStrength_ok s response ok rest hreplies hsize]
    exact ⟨rfl, rfl⟩

/-- C11, at a reply `15,99` followed by `OK`: the call returns -83 with error code Ok. -/
theorem GetReceivedSignalStrength_scale_witness :
    (call GetReceivedSignalStrength
      (driverWith [some "15,99".toList, some "OK".toList])).1 = -83 ∧
    (call GetReceivedSignalStrength
      (driverWith [some "15,99".toList, some "OK".toList])).2.lastError = .E_OK := by
  have h := GetReceivedSignalStrength_scale.2.2.2.2.2
    (driverWith [some "15,99".toList, some "OK".toList]) "15,99".toList "OK".toList [] rfl
    (by decide)
  have h15 : atoi ((parseArguments "15,99".toList).getD 0 []) = 15 := by decide
  rw [h15] at h
  exact ⟨h.1.trans (rssiToDbm_low 15 (by decide) (by decide)), h.2⟩

end SignalStrength

section SocketSendRange

theorem SocketSend_rejects (s : Driver) (connectId : Int) (data : List Char) (dataSize : Int)
    (h : (CONNECT_ID_NUM : Int) ≤ connectId ∨ 1460 < dataSize) :
    call (SocketSend connectId data dataSize) s = (false, { s with lastError := .E_UNKNOWN }) := by
  by_cases h1 : connectId ≥ (CONNECT_ID_NUM : Int)
  · simp only [SocketSend, call, Act.bind_def, failIf, h1, decide_True, if_true]
  · have h2 : dataSize > 1460 := by
      rcases h with h | h
      · exact absurd h h1
      · exact h
    simp only [SocketSend, call, Act.bind_def, failIf, h1, h2, decide_True, decide_False,
      if_true]
    rfl

/-- C14: `SocketSend` tests the connection id against the upper bound only. With the
negative id -1, the five bytes `hello` and the replies `>` and `SEND OK`, the call sends
`AT+QISEND=-1,5` and the bytes to the modem, returns `true` and leaves error code Ok. -/
theorem SocketSend_negative_id_sends :
    (call (SocketSend (-1) "hello".toList 5)
      (driverWith [some ">".toList, some "SEND OK".toList])).1 = true ∧
    (call (SocketSend (-1) "hello".toList 5)
      (driverWith [some ">".toList, some "SEND OK".toList])).2.lastError = .E_OK ∧
    (call (SocketSend (-1) "hello".toList 5)
      (driverWith [some ">".toList, some "SEND OK".toList])).2.sent =
      [.command "AT+QISEND=-1,5".toList, .binary "hello".toList] := by
  decide

end SocketSendRange

section SyncTimeResult

/-- C15: when the completion notification read by `SyncTime` does not begin with `0,`,
the call sets the error code to Unknown but returns `true`: the `-1` handed to `RET_ERR`
is converted to `bool`. -/
theorem SyncTime_nonzero_returns_true (s : Driver) (host ok response : List Char)
    (rest : List (Option (List Char)))
    (hfmt : s.formatOk ("AT+QNTP=1,\"".toList ++ host ++ "\"".toList) = true)
    (hreplies : s.replies = some ok :: some response :: rest)
    (hfield : strncmpEq response "0,".toList 2 = false) :
    (call (SyncTime host) s).1 = true ∧ (call (SyncTime host) s).2.lastError = .E_UNKNOWN := by
  simp only [SyncTime, call, Act.bind_def, Act.pure_def, failIf, WriteFormat,
    WriteCommandAndReadResponse, WriteCommand, ReadResponse, RET_OK, RET_ERR, hfmt, hreplies,
    hfield, if_true, Option.isSome_some, Bool.not_true, Bool.not_false, Bool.false_eq_true,
    if_false]
  exact ⟨by decide, trivial⟩

/-- C15, at the notification `550` after `OK`: `SyncTime` returns `true` with error
code Unknown. -/
theorem SyncTime_nonzero_returns_true_witness :
    (call (SyncTime "pool.ntp.org".toList)
      (driverWith [some "OK".toList, some "550".toList])).1 = true ∧
    (call (SyncTime "pool.ntp.org".toList)
      (driverWith [some "OK".toList, some "550".toList])).2.lastError = .E_UNKNOWN :=
  SyncTime_nonzero_returns_true (driverWith [some "OK".toList, some "550".toList])
    "pool.ntp.org".toList "OK".toList "550".toList [] rfl rfl (by decide)

end SyncTimeResult

section Clock

theorem digit_not_space (c : Char) (h : '0' ≤ c ∧ c ≤ '9') :
    (c == ' ' || ('\t' ≤ c && c ≤ '\r')) = false ∧ c ≠ '-' ∧ c ≠ '+' := by
  obtain ⟨h0, h9⟩ := h
  have h0n : 48 ≤ c.toNat := h0
  refine ⟨?_, ?_, ?_⟩
  · simp only [Bool.or_eq_false_iff, beq_eq_false_iff_ne, ne_eq, Bool.and_eq_false_imp,
      decide_eq_true_eq, decide_eq_false_iff_not]
    refine ⟨?_, ?_⟩
    · rintro rfl
      exact absurd h0n (by decide)
    · intro _ h
      have hn : c.toNat ≤ 13 := h
      omega
  · rintro rfl
    exact absurd h0n (by decide)
  · rintro rfl
    exact absurd h0n (by decide)

theorem atoi_two_digits (a b c : Char) (rest : List Char)
    (ha : '0' ≤ a ∧ a ≤ '9') (hb : '0' ≤ b ∧ b ≤ '9') (hc : ¬ ('0' ≤ c ∧ c ≤ '9')) :
    atoi (a :: b :: c :: rest) = ((digitValue a * 10 + digitValue b : Nat) : Int) := by
  obtain ⟨hs, hm, hp⟩ := digit_not_space a ha
  unfold atoi
  rw [List.dropWhile_cons_of_neg (by rw [hs]; exact Bool.false_ne_true)]
  split
  · rename_i heq
    exact absurd (List.cons.inj heq).1 hm
  · rename_i heq
    exact absurd (List.cons.inj heq).1 hp
  · simp only [atoiDigits, ha, hb, hc, and_self, if_true, if_false, digitValue, Nat.zero_mul,
      Nat.zero_add]

theorem GetTime_rejects (s : Driver) (response : List Char) (rest : List (Option (List Char)))
    (hreplies : s.replies = some response :: rest)
    (hframe : ¬ (response.length = 22 ∧ charAt response 0 = '"' ∧ charAt response 3 = '/' ∧
      charAt response 6 = '/' ∧ charAt response 9 = ',' ∧ charAt response 12 = ':' ∧
      charAt response 15 = ':' ∧ charAt response 21 = '"')) :
    (call GetTime s).1 = (false, none) ∧ (call GetTime s).2.lastError = .E_UNKNOWN := by
  rcases rest with _ | ⟨_ | ok, rest⟩
  · simp [GetTime, call, Act.bind_def, Act.pure_def, failIf, WriteCommand, ReadResponse,
      RET_OK, RET_ERR, hreplies]
  · simp [GetTime, call, Act.bind_def, Act.pure_def, failIf, WriteCommand, ReadResponse,
      RET_OK, RET_ERR, hreplies]
  · by_cases hlen : response.length = 22
    case neg =>
      simp [GetTime, call, Act.bind_def, Act.pure_def, failIf, WriteCommand, ReadResponse,
        RET_OK, RET_ERR, hreplies, hlen]
    by_cases h0 : charAt response 0 = '"'
    case neg =>
      simp [GetTime, call, Act.bind_def, Act.pure_def, failIf, WriteCommand, ReadResponse,
        RET_OK, RET_ERR, hreplies, hlen, h0]
    by_cases h3 : charAt response 3 = '/'
    case neg =>
      simp [GetTime, call, Act.bind_def, Act.pure_def, failIf, WriteCommand, ReadResponse,
        RET_OK, RET_ERR, hreplies, hlen, h0, h3]
    by_cases h6 : charAt response 6 = '/'
    case neg =>
      simp [GetTime, call, Act.bind_def, Act.pure_def, failIf, WriteCommand, ReadResponse,
        RET_OK, RET_ERR, hreplies, hlen, h0, h3, h6]
    by_cases h9 : charAt response 9 = ','
    case neg =>
      simp [GetTime, call, Act.bind_def, Act.pure_def, failIf, WriteCommand, ReadResponse,
        RET_OK, RET_ERR, hreplies, hlen, h0, h3, h6, h9]
    by_cases h12 : charAt response 12 = ':'
    case neg =>
      simp [GetTime, call, Act.bind_def, Act.pure_def, failIf, WriteCommand, ReadResponse,
        RET_OK, RET_ERR, hreplies, hlen, h0, h3, h6, h9, h12]
    by_cases h15 : charAt response 15 = ':'
    case neg =>
      simp [GetTime, call, Act.bind_def, Act.pure_def, failIf, WriteCommand, ReadResponse,
        RET_OK, RET_ERR, hreplies, hlen, h0, h3, h6, h9, h12, h15]
    by_cases h21 : charAt response 21 = '"'
    case neg =>
      simp [GetTime, call, Act.bind_def, Act.pure_def, failIf, WriteCommand, ReadResponse,
        RET_OK, RET_ERR, hreplies, hlen, h0, h3, h6, h9, h12, h15, h21]
    exact absurd ⟨hlen, h0, h3, h6, h9, h12, h15, h21⟩ hframe

theorem GetTime_accepts (s : Driver) (ok : List Char) (rest : List (Option (List Char)))
    (y1 y2 M1 M2 d1 d2 h1 h2 m1 m2 s1 s2 z0 z1 z2 : Char)
    (hreplies : s.replies = some ['"', y1, y2, '/', M1, M2, '/', d1, d2, ',', h1, h2, ':',
      m1, m2, ':', s1, s2, z0, z1, z2, '"'] :: some ok :: rest)
    (hy1 : '0' ≤ y1 ∧ y1 ≤ '9') (hy2 : '0' ≤ y2 ∧ y2 ≤ '9')
    (hM1 : '0' ≤ M1 ∧ M1 ≤ '9') (hM2 : '0' ≤ M2 ∧ M2 ≤ '9')
    (hd1 : '0' ≤ d1 ∧ d1 ≤ '9') (hd2 : '0' ≤ d2 ∧ d2 ≤ '9')
    (hh1 : '0' ≤ h1 ∧ h1 ≤ '9') (hh2 : '0' ≤ h2 ∧ h2 ≤ '9')
    (hm1 : '0' ≤ m1 ∧ m1 ≤ '9') (hm2 : '0' ≤ m2 ∧ m2 ≤ '9')
    (hs1 : '0' ≤ s1 ∧ s1 ≤ '9') (hs2 : '0' ≤ s2 ∧ s2 ≤ '9')
    (hz0 : ¬ ('0' ≤ z0 ∧ z0 ≤ '9')) :
    call GetTime s =
      ((true, some
          { tm_year := (if ((digitValue y1 * 10 + digitValue y2 : Nat) : Int) ≥ 80 then 1900
              else 2000) + ((digitValue y1 * 10 + digitValue y2 : Nat) : Int) - 1900
            tm_mon := ((digitValue M1 * 10 + digitValue M2 : Nat) : Int) - 1
            tm_mday := ((digitValue d1 * 10 + digitValue d2 : Nat) : Int)
            tm_hour := ((digitValue h1 * 10 + digitValue h2 : Nat) : Int)
            tm_min := ((digitValue m1 * 10 + digitValue m2 : Nat) : Int)
            tm_sec := ((digitValue s1 * 10 + digitValue s2 : Nat) : Int)
            tm_wday := 0
            tm_yday := 0
            tm_isdst := 0 }),
        { s with replies := rest, sent := s.sent ++ [.command "AT+CCLK?".toList],
                 lastError := .E_OK }) := by
  have e1 := atoi_two_digits y1 y2 '/' [M1, M2, '/', d1, d2, ',', h1, h2, ':',
      m1, m2, ':', s1, s2, z0, z1, z2, '"'] hy1 hy2 (by decide)
  have e2 := atoi_two_digits M1 M2 '/' [d1, d2, ',', h1, h2, ':',
      m1, m2, ':', s1, s2, z0, z1, z2, '"'] hM1 hM2 (by decide)
  have e3 := atoi_two_digits d1 d2 ',' [h1, h2, ':',
      m1, m2, ':', s1, s2, z0, z1, z2, '"'] hd1 hd2 (by decide)
  have e4 := atoi_two_digits h1 h2 ':' [m1, m2, ':', s1, s2, z0, z1, z2, '"'] hh1 hh2
    (by decide)
  have e5 := atoi_two_digits m1 m2 ':' [s1, s2, z0, z1, z2, '"'] hm1 hm2 (by decide)
  have e6 := atoi_two_digits s1 s2 z0 [z1, z2, '"'] hs1 hs2 hz0
  simp only [GetTime, call, Act.bind_def, Act.pure_def, failIf, WriteCommand, ReadResponse,
    RET_OK, RET_ERR, hreplies, Option.isNone_some, Bool.false_eq_true, if_false,
    List.length_cons, List.length_nil, charAt, List.getD_cons_succ, List.getD_cons_zero,
    bne_self_eq_false, List.drop_succ_cons, List.drop_zero, e1, e2, e3, e4, e5, e6]

theorem GetTime_framed (s : Driver) (response ok : List Char)
    (rest : List (Option (List Char)))
    (hreplies : s.replies = some response :: some ok :: rest)
    (hframe : response.length = 22 ∧ charAt response 0 = '"' ∧ charAt response 3 = '/' ∧
      charAt response 6 = '/' ∧ charAt response 9 = ',' ∧ charAt response 12 = ':' ∧
      charAt response 15 = ':' ∧ charAt response 21 = '"') :
    (call GetTime s).1.1 = true ∧ (call GetTime s).2.lastError = .E_OK := by
  obtain ⟨hlen, h0, h3, h6, h9, h12, h15, h21⟩ := hframe
  simp [GetTime, call, Act.bind_def, Act.pure_def, failIf, WriteCommand, ReadResponse,
    RET_OK, RET_ERR, hreplies, hlen, h0, h3, h6, h9, h12, h15, h21]

/-- C18: `GetTime` fails with Unknown unless the clock reply has exactly 22 characters
with `"` at offsets 0 and 21, `/` at 3 and 6, `,` at 9 and `:` at 12 and 15, and
succeeds when it has; when the six fields are two-digit decimals `yy/MM/dd,hh:mm:ss`
(the seconds end at a character that is no digit), the time stored before `mktime` has
`tm_year + 1900` equal to `1900 + yy` if `yy >= 80` and `2000 + yy` otherwise, `tm_mon`
equal to `MM - 1`, and day, hour, minute and second equal to `dd`, `hh`, `mm`, `ss`. -/
theorem GetTime_parses (s : Driver) (response ok : List Char)
    (rest : List (Option (List Char)))
    (hreplies : s.replies = some response :: some ok :: rest) :
    (¬ (response.length = 22 ∧ charAt response 0 = '"' ∧ charAt response 3 = '/' ∧
        charAt response 6 = '/' ∧ charAt response 9 = ',' ∧ charAt response 12 = ':' ∧
        charAt response 15 = ':' ∧ charAt response 21 = '"') →
      (call GetTime s).1 = (false, none) ∧ (call GetTime s).2.lastError = .E_UNKNOWN) ∧
    ((response.length = 22 ∧ charAt response 0 = '"' ∧ charAt response 3 = '/' ∧
        charAt response 6 = '/' ∧ charAt response 9 = ',' ∧ charAt response 12 = ':' ∧
        charAt response 15 = ':' ∧ charAt response 21 = '"') →
      (call GetTime s).1.1 = true ∧ (call GetTime s).2.lastError = .E_OK) ∧
    (∀ y1 y2 M1 M2 d1 d2 h1 h2 m1 m2 s1 s2 z0 z1 z2 : Char,
      response = ['"', y1, y2, '/', M1, M2, '/', d1, d2, ',', h1, h2, ':', m1, m2, ':',
        s1, s2, z0, z1, z2, '"'] →
      (∀ c ∈ [y1, y2, M1, M2, d1, d2, h1, h2, m1, m2, s1, s2], '0' ≤ c ∧ c ≤ '9') →
      ¬ ('0' ≤ z0 ∧ z0 ≤ '9') →
      (call GetTime s).1 = (true, some
        { tm_year := (if ((digitValue y1 * 10 + digitValue y2 : Nat) : Int) ≥ 80
            then 1900 + ((digitValue y1 * 10 + digitValue y2 : Nat) : Int)
            else 2000 + ((digitValue y1 * 10 + digitValue y2 : Nat) : Int)) - 1900
          tm_mon := ((digitValue M1 * 10 + digitValue M2 : Nat) : Int) - 1
          tm_mday := ((digitValue d1 * 10 + digitValue d2 : Nat) : Int)
          tm_hour := ((digitValue h1 * 10 + digitValue h2 : Nat) : Int)
          tm_min := ((digitValue m1 * 10 + digitValue m2 : Nat) : Int)
          tm_sec := ((digitValue s1 * 10 + digitValue s2 : Nat) : Int)
          tm_wday := 0
          tm_yday := 0
          tm_isdst := 0 }) ∧
      (call GetTime s).2.lastError = .E_OK) := by
  refine ⟨GetTime_rejects s response _ hreplies, GetTime_framed s response ok rest hreplies,
    ?_⟩
  intro y1 y2 M1 M2 d1 d2 h1 h2 m1 m2 s1 s2 z0 z1 z2 hresp hdigits hz0
  subst hresp
  have hd : ∀ c, c ∈ [y1, y2, M1, M2, d1, d2, h1, h2, m1, m2, s1, s2] → '0' ≤ c ∧ c ≤ '9' :=
    hdigits
  rw [GetTime_accepts s ok rest y1 y2 M1 M2 d1 d2 h1 h2 m1 m2 s1 s2 z0 z1 z2 hreplies
    (hd y1 (by simp)) (hd y2 (by simp)) (hd M1 (by simp)) (hd M2 (by simp))
    (hd d1 (by simp)) (hd d2 (by simp)) (hd h1 (by simp)) (hd h2 (by simp))
    (hd m1 (by simp)) (hd m2 (by simp)) (hd s1 (by simp)) (hd s2 (by simp)) hz0]
  refine ⟨?_, rfl⟩
  have hyear : ∀ yy : Int, (if yy ≥ 80 then (1900 : Int) else 2000) + yy - 1900 =
      (if yy ≥ 80 then 1900 + yy else 2000 + yy) - 1900 := by
    intro yy
    split <;> rfl
  dsimp only
  rw [hyear]

/-- C18, at the reply `"24/03/15,10:20:30+36"`: the stored time has year 2024 (`tm_year`
124), month index 2, day 15, 10:20:30. -/
theorem GetTime_parses_witness :
    (call GetTime
      (driverWith [some "\"24/03/15,10:20:30+36\"".toList, some "OK".toList])).1 =
      (true, some { tm_year := 124, tm_mon := 2, tm_mday := 15, tm_hour := 10, tm_min := 20,
                    tm_sec := 30, tm_wday := 0, tm_yday := 0, tm_isdst := 0 }) :=
  ((GetTime_parses (driverWith [some "\"24/03/15,10:20:30+36\"".toList, some "OK".toList])
    "\"24/03/15,10:20:30+36\"".toList "OK".toList [] rfl).2.2
    '2' '4' '0' '3' '1' '5' '1' '0' '2' '0' '3' '0' '+' '3' '6' rfl (by decide)
    (by decide)).1.trans (by decide)

end Clock

section ActCalls

theorem call_of_ret {ρ : Type} (body : Act ρ ρ) (s s1 : Driver) (r : ρ)
    (h : body s = .ret r s1) : call body s = (r, s1) := by
  unfold call
  rw [h]

end ActCalls

section StoredMessages

theorem GetFirstIndexOfReceivedSMS_none (s : Driver) (ok : List Char)
    (rest : List (Option (List Char)))
    (hreplies : s.replies = some ok :: some "OK".toList :: rest) :
    call GetFirstIndexOfReceivedSMS s =
      (-2, { s with replies := rest,
                    sent := s.sent ++ [.command "AT+CMGF=0".toList,
                      .command "AT+CMGL=4".toList] }) := by
  simp only [GetFirstIndexOfReceivedSMS, call, Act.bind_def, Act.pure_def, returnIf,
    WriteCommandAndReadResponse, WriteCommand, ReadResponse, RETURN, hreplies,
    Option.isSome_some, Bool.not_true, Bool.false_eq_true, if_false, listingLoop,
    beq_self_eq_true, if_true, List.append_assoc, List.singleton_append]
  rfl

/-- C19: when the listing holds no message (the reply to `AT+CMGF=0`, then `OK` with no
`+CMGL` entry before it), `GetFirstIndexOfReceivedSMS` returns -2, `ReceiveSMS` returns
0 with error code Ok and `DeleteReceivedSMS` returns `false` with error code Unknown;
each has sent `AT+CMGF=0` and `AT+CMGL=4` and nothing else, so no read or delete
command. -/
theorem none_found_asymmetry (s : Driver) (ok : List Char) (rest : List (Option (List Char)))
    (messageSize : Int) (dialNumber : Option Int)
    (hreplies : s.replies = some ok :: some "OK".toList :: rest) :
    (call GetFirstIndexOfReceivedSMS s).1 = -2 ∧
    call (ReceiveSMS messageSize dialNumber) s =
      (.returned 0 none,
        { s with replies := rest,
                 sent := s.sent ++ [.command "AT+CMGF=0".toList, .command "AT+CMGL=4".toList],
                 lastError := .E_OK }) ∧
    call DeleteReceivedSMS s =
      (false,
        { s with replies := rest,
                 sent := s.sent ++ [.command "AT+CMGF=0".toList, .command "AT+CMGL=4".toList],
                 lastError := .E_UNKNOWN }) := by
  have h := GetFirstIndexOfReceivedSMS_none s ok rest hreplies
  refine ⟨by rw [h], ?_, ?_⟩
  · apply call_of_ret
    simp only [ReceiveSMS, Act.bind_def, invoke, h, succeedIf, beq_self_eq_true, if_true]
  · apply call_of_ret
    simp only [DeleteReceivedSMS, Act.bind_def, invoke, h, failIf, beq_self_eq_true, if_true]

/-- C19, at the replies `OK`, `OK` of a modem with no stored message. -/
theorem none_found_asymmetry_witness :
    (call (ReceiveSMS 160 none) (driverWith [some "OK".toList, some "OK".toList])).1 =
      .returned 0 none ∧
    (call (ReceiveSMS 160 none) (driverWith [some "OK".toList, some "OK".toList])).2.lastError
      = .E_OK ∧
    (call DeleteReceivedSMS (driverWith [some "OK".toList, some "OK".toList])).1 = false ∧
    (call DeleteReceivedSMS (driverWith [some "OK".toList, some "OK".toList])).2.lastError
      = .E_UNKNOWN ∧
    (call DeleteReceivedSMS (driverWith [some "OK".toList, some "OK".toList])).2.sent =
      [.command "AT+CMGF=0".toList, .command "AT+CMGL=4".toList] := by
  have h := none_found_asymmetry (driverWith [some "OK".toList, some "OK".toList])
    "OK".toList [] 160 none rfl
  rw [h.2.1, h.2.2]
  exact ⟨rfl, rfl, rfl, rfl, rfl⟩

theorem decodePdu_ok_size (data : List Nat) (messageSize : Int) (dialNumber : Option Int)
    (r : SmsResult) (h : decodePdu data messageSize dialNumber = .ok r) :
    0 ≤ r.smSize ∧ r.smSize + 1 ≤ messageSize := by
  simp only [decodePdu, Run.bind_eq_ok, Run.pure_eq_ok] at h
  obtain ⟨hd, _, number, _, ⟨smSize, sm⟩, _, message, hm, h⟩ := h
  have hr := Run.ok.inj h
  subst hr
  simp only [unpackUserData, Run.bind_eq_ok, Run.pure_eq_ok, require_eq_ok] at hm
  obtain ⟨_, hsize, _, _, _, hw, _⟩ := hm
  dsimp only at hsize hw ⊢
  unfold checkWrite at hw
  split at hw
  · rename_i hin
    simp only [Bool.not_eq_true', decide_eq_false_iff_not, not_lt] at hsize
    exact ⟨hin.1, by omega⟩
  · cases hw

/-- C20 (code defect): `ReceiveSMS` does not reject a negative symbol count. With the
UDHI bit set, user-data length 0 and header length 2, `smSize` is -3; the test
`messageSize < smSize + 1` passes for the capacity 160, the loop does nothing and
`message[smSize] = 0` writes at index -3, outside the caller buffer. -/
theorem ReceiveSMS_negative_size_write :
    decodeHexPdu shortUdlHexPdu 160 none = .outOfBounds .message (-3) ∧
    (call (ReceiveSMS 160 none) (driverWith (storedMessageReplies shortUdlHexPdu))).1 =
      .undefined .message (-3) := by
  decide

end StoredMessages

section Registration

theorem queryStatus_replied (command pattern : List Char) (s : Driver)
    (response ok : List Char) (rest : List (Option (List Char)))
    (hreplies : s.replies = some response :: some ok :: rest)
    (hsize : 2 ≤ (parseArguments response).length) :
    queryStatus command pattern s =
      if atoi ((parseArguments response).getD 1 []) = 0 then
        .ret false { s with replies := rest, sent := s.sent ++ [.command command],
                            lastError := .E_UNKNOWN }
      else
        .next (atoi ((parseArguments response).getD 1 []))
          { s with replies := rest, sent := s.sent ++ [.command command] } := by
  have hlt : ¬ ((parseArguments response).length < 2) := by omega
  by_cases h0 : atoi ((parseArguments response).getD 1 []) = 0
  · simp only [queryStatus, Act.bind_def, Act.pure_def, failIf, WriteCommand, ReadResponse,
      RET_ERR, hreplies, hlt, decide_False, Bool.false_eq_true, if_false, Option.isNone_some,
      h0, beq_self_eq_true, if_true]
  · simp only [queryStatus, Act.bind_def, Act.pure_def, failIf, WriteCommand, ReadResponse,
      RET_ERR, hreplies, hlt, decide_False, Bool.false_eq_true, if_false, Option.isNone_some,
      h0, beq_iff_eq]

theorem toUnsignedLong_of_nonneg (timeout : Int) (h0 : 0 ≤ timeout) (h1 : timeout < 2 ^ 32) :
    (toUnsignedLong timeout : Int) = timeout := by
  unfold toUnsignedLong
  rw [Int.emod_eq_of_lt h0 h1]
  exact Int.toNat_of_nonneg h0

theorem csRegistrationLoop_skip (sw : Nat → Nat) (timeout : Int)
    (pre : List (List Char × List Char)) :
    ∀ (k i : Nat) (s : Driver) (tail : List (Option (List Char))),
      s.replies = roundReplies pre ++ tail →
      (∀ p ∈ pre, 2 ≤ (parseArguments p.1).length ∧
        atoi ((parseArguments p.1).getD 1 []) ≠ 0 ∧
        atoi ((parseArguments p.1).getD 1 []) ≠ 1 ∧
        atoi ((parseArguments p.1).getD 1 []) ≠ 5) →
      (∀ j, j < pre.length → sw (i + j) < toUnsignedLong timeout) →
      csRegistrationLoop sw timeout (pre.length + k) i s =
        csRegistrationLoop sw timeout k (i + pre.length)
          { s with replies := tail,
                   sent := s.sent ++
                     List.replicate pre.length (.command "AT+CREG?".toList) } := by
  induction pre with
  | nil =>
    intro k i s tail hreplies _ _
    have hs : { s with replies := tail, sent := s.sent ++ [] } = s := by
      cases s
      simp only [roundReplies, List.nil_append] at hreplies
      simp only [List.append_nil, hreplies]
    simp only [List.length_nil, Nat.zero_add, Nat.add_zero, List.replicate_zero]
    rw [hs]
  | cons p pre ih =>
    intro k i s tail hreplies hpre hearly
    obtain ⟨response, ok⟩ := p
    obtain ⟨hsize, h0, h1, h5⟩ := hpre (response, ok) (List.mem_cons_self _ _)
    dsimp only at hsize h0 h1 h5
    have hlen : (((response, ok) :: pre).length + k) = (pre.length + k) + 1 := by
      simp only [List.length_cons]; omega
    have hr : s.replies = some response :: some ok :: (roundReplies pre ++ tail) := by
      rw [hreplies]; rfl
    have hsw : ¬ (sw i ≥ toUnsignedLong timeout) := by
      have := hearly 0 (by simp only [List.length_cons]; omega)
      simp only [Nat.add_zero] at this
      omega
    rw [hlen]
    simp only [csRegistrationLoop, Act.bind_def, Act.pure_def,
      queryStatus_replied _ _ s response ok _ hr hsize, h0, h1, h5, if_false, failIf, hsw,
      decide_False, Bool.false_eq_true, beq_iff_eq, Bool.or_eq_true, or_self]
    rw [ih k (i + 1)
      { s with replies := roundReplies pre ++ tail,
               sent := s.sent ++ [.command "AT+CREG?".toList] } tail rfl (fun q hq => hpre q (List.mem_cons_of_mem _ hq))
      (fun j hj => by
        have := hearly (j + 1) (by simp only [List.length_cons]; omega)
        rwa [show i + (j + 1) = i + 1 + j by omega] at this)]
    simp only [List.length_cons, List.replicate_succ, List.append_assoc, List.singleton_append,
      show i + 1 + pre.length = i + (pre.length + 1) by omega]

theorem roundReplies_length (pre : List (List Char × List Char)) :
    (roundReplies pre).length = 2 * pre.length := by
  induction pre with
  | nil => rfl
  | cons p pre ih =>
    obtain ⟨response, ok⟩ := p
    simp only [roundReplies, List.length_cons, ih]
    omega

theorem csRegistrationLoop_round (sw : Nat → Nat) (timeout : Int) (k i : Nat) (s : Driver)
    (response ok : List Char) (rest : List (Option (List Char)))
    (hreplies : s.replies = some response :: some ok :: rest)
    (hsize : 2 ≤ (parseArguments response).length) :
    csRegistrationLoop sw timeout (k + 1) i s =
      if atoi ((parseArguments response).getD 1 []) = 0 then
        .ret false { s with replies := rest, sent := s.sent ++ [.command "AT+CREG?".toList],
                            lastError := .E_UNKNOWN }
      else if atoi ((parseArguments response).getD 1 []) = 1 ∨
          atoi ((parseArguments response).getD 1 []) = 5 then
        .next () { s with replies := rest, sent := s.sent ++ [.command "AT+CREG?".toList] }
      else if toUnsignedLong timeout ≤ sw i then
        .ret false { s with replies := rest, sent := s.sent ++ [.command "AT+CREG?".toList],
                            lastError := .E_UNKNOWN }
      else
        csRegistrationLoop sw timeout k (i + 1)
          { s with replies := rest, sent := s.sent ++ [.command "AT+CREG?".toList] } := by
  simp only [csRegistrationLoop, Act.bind_def, queryStatus_replied _ _ s response ok rest
    hreplies hsize]
  by_cases h0 : atoi ((parseArguments response).getD 1 []) = 0
  · simp only [h0, if_true]
  · by_cases h15 : atoi ((parseArguments response).getD 1 []) = 1 ∨
        atoi ((parseArguments response).getD 1 []) = 5
    · simp only [h0, if_false, h15, if_true, Bool.or_eq_true, beq_iff_eq, Act.pure_def]
    · by_cases hsw : toUnsignedLong timeout ≤ sw i
      · simp only [h0, if_false, h15, Bool.or_eq_true, beq_iff_eq, Act.bind_def, failIf,
          ge_iff_le, hsw, decide_True, if_true]
      · simp only [h0, if_false, h15, Bool.or_eq_true, beq_iff_eq, Act.bind_def, failIf,
          ge_iff_le, hsw, decide_False, Bool.false_eq_true]

/-- C12: `WaitForCSRegistration` on well-formed replies. After any number of rounds
that observe a status other than 0, 1 and 5 before the timeout is reached, the next
round decides as follows: status 0 fails with Unknown in that round, status 1 or 5
succeeds in that round, and any other status fails with Unknown when the elapsed time
has reached the timeout (and only then, since the earlier rounds went on polling). In
each case one `AT+CREG?` per round has been sent and nothing after the deciding round.
The timeout is compared as `(unsigned long)timeout`, which is `timeout` itself when it
is not negative. -/
theorem WaitForCSRegistration_polling (sw : Nat → Nat) (timeout : Int) (s : Driver)
    (pre : List (List Char × List Char)) (response ok : List Char)
    (rest : List (Option (List Char)))
    (hreplies : s.replies = roundReplies pre ++ some response :: some ok :: rest)
    (hpre : ∀ p ∈ pre, 2 ≤ (parseArguments p.1).length ∧
      atoi ((parseArguments p.1).getD 1 []) ≠ 0 ∧
      atoi ((parseArguments p.1).getD 1 []) ≠ 1 ∧
      atoi ((parseArguments p.1).getD 1 []) ≠ 5)
    (hearly : ∀ j, j < pre.length → sw j < toUnsignedLong timeout)
    (hwell : 2 ≤ (parseArguments response).length) :
    (atoi ((parseArguments response).getD 1 []) = 0 →
      call (WaitForCSRegistration sw timeout) s =
        (false, { s with replies := rest,
                         sent := s.sent ++
                           List.replicate (pre.length + 1) (.command "AT+CREG?".toList),
                         lastError := .E_UNKNOWN })) ∧
    (atoi ((parseArguments response).getD 1 []) = 1 ∨
        atoi ((parseArguments response).getD 1 []) = 5 →
      call (WaitForCSRegistration sw timeout) s =
        (true, { s with replies := rest,
                        sent := s.sent ++
                          List.replicate (pre.length + 1) (.command "AT+CREG?".toList),
                        lastError := .E_OK })) ∧
    (atoi ((parseArguments response).getD 1 []) ≠ 0 →
      atoi ((parseArguments response).getD 1 []) ≠ 1 →
      atoi ((parseArguments response).getD 1 []) ≠ 5 →
      toUnsignedLong timeout ≤ sw pre.length →
      call (WaitForCSRegistration sw timeout) s =
        (false, { s with replies := rest,
                         sent := s.sent ++
                           List.replicate (pre.length + 1) (.command "AT+CREG?".toList),
                         lastError := .E_UNKNOWN })) ∧
    (0 ≤ timeout → timeout < 2 ^ 32 → (toUnsignedLong timeout : Int) = timeout) := by
  have hfuel : s.replies.length + 1 = pre.length + ((pre.length + rest.length + 2) + 1) := by
    rw [hreplies, List.length_append, roundReplies_length]
    simp only [List.length_cons]
    omega
  have hloop := csRegistrationLoop_skip sw timeout pre ((pre.length + rest.length + 2) + 1) 0 s
    (some response :: some ok :: rest) hreplies hpre
    (fun j hj => by rw [Nat.zero_add]; exact hearly j hj)
  rw [csRegistrationLoop_round sw timeout _ _ _ response ok rest rfl hwell, ← hfuel,
    Nat.zero_add] at hloop
  have hsent : ∀ (l : List Sent) (c : Sent) (n : Nat),
      l ++ List.replicate n c ++ [c] = l ++ List.replicate (n + 1) c := by
    intro l c n
    rw [List.append_assoc, List.replicate_succ', ]
  refine ⟨?_, ?_, ?_, toUnsignedLong_of_nonneg timeout⟩
  · intro h0
    apply call_of_ret
    simp only [WaitForCSRegistration, Act.bind_def, hloop, h0, if_true, hsent]
  · intro h15
    have h0 : atoi ((parseArguments response).getD 1 []) ≠ 0 := by
      rcases h15 with h | h <;> rw [h] <;> decide
    apply call_of_ret
    simp only [WaitForCSRegistration, Act.bind_def, hloop, h0, if_false, h15, if_true, RET_OK,
      hsent]
  · intro h0 h1 h5 hsw
    apply call_of_ret
    simp only [WaitForCSRegistration, Act.bind_def, hloop, h0, h1, h5, or_self, if_false, hsw,
      if_true, hsent]

/-- C12, with a stopwatch that reads 0, 500, 1000 in rounds 0, 1, 2, a timeout of 1000
and status 3 in every round: the third round fails with Unknown after three queries. -/
theorem WaitForCSRegistration_polling_witness :
    call (WaitForCSRegistration (fun i => 500 * i) 1000)
      (driverWith [some "0,3".toList, some "OK".toList, some "0,3".toList, some "OK".toList,
        some "0,3".toList, some "OK".toList]) =
      (false, { driverWith [] with
        sent := [.command "AT+CREG?".toList, .command "AT+CREG?".toList,
          .command "AT+CREG?".toList],
        lastError := .E_UNKNOWN }) :=
  (WaitForCSRegistration_polling (fun i => 500 * i) 1000
    (driverWith [some "0,3".toList, some "OK".toList, some "0,3".toList, some "OK".toList,
      some "0,3".toList, some "OK".toList])
    [("0,3".toList, "OK".toList), ("0,3".toList, "OK".toList)] "0,3".toList "OK".toList []
    rfl (by decide) (by decide) (by decide)).2.2.1 (by decide) (by decide) (by decide)
    (by decide)

end Registration

section RegistrationRounds

theorem queryStatus_next (command pattern : List Char) (s s1 : Driver) (status : Int)
    (h : queryStatus command pattern s = .next status s1) :
    s1.replies.length + 2 = s.replies.length := by
  obtain ⟨replies, sent, formatOk, lastError⟩ := s
  rcases replies with _ | ⟨_ | response, rest⟩
  · simp only [queryStatus, Act.bind_def, WriteCommand, ReadResponse, RET_ERR] at h
    cases h
  · simp only [queryStatus, Act.bind_def, WriteCommand, ReadResponse, RET_ERR] at h
    cases h
  · by_cases hsize : (parseArguments response).length < 2
    · simp only [queryStatus, Act.bind_def, WriteCommand, ReadResponse, failIf, hsize,
        decide_True, if_true] at h
      cases h
    · rcases rest with _ | ⟨_ | ok, rest⟩
      · simp only [queryStatus, Act.bind_def, WriteCommand, ReadResponse, failIf, hsize,
          decide_False, Bool.false_eq_true, if_false, Option.isNone_none, if_true] at h
        cases h
      · simp only [queryStatus, Act.bind_def, WriteCommand, ReadResponse, failIf, hsize,
          decide_False, Bool.false_eq_true, if_false, Option.isNone_none, if_true] at h
        cases h
      · rw [queryStatus_replied command pattern _ response ok rest rfl (by omega)] at h
        by_cases h0 : atoi ((parseArguments response).getD 1 []) = 0
        · rw [if_pos h0] at h
          cases h
        · rw [if_neg h0] at h
          cases h
          simp only [List.length_cons]

/-- The rounds `WaitForCSRegistration` provides are enough: the outcome of the loop is
the same for every number of rounds above half the number of scripted replies. -/
theorem csRegistrationLoop_rounds_enough (sw : Nat → Nat) (timeout : Int) :
    ∀ (k k2 i : Nat) (s : Driver), s.replies.length < 2 * k → s.replies.length < 2 * k2 →
      csRegistrationLoop sw timeout k i s = csRegistrationLoop sw timeout k2 i s := by
  intro k
  induction k with
  | zero => intro k2 i s h; omega
  | succ k ih =>
    intro k2 i s h h2
    cases k2 with
    | zero => omega
    | succ k2 =>
      simp only [csRegistrationLoop, Act.bind_def]
      cases hq : queryStatus "AT+CREG?".toList "^\\+CREG: (.*)$".toList s with
      | ret r s1 => rfl
      | next status s1 =>
        have hlen := queryStatus_next _ _ s s1 status hq
        dsimp only
        split
        · rfl
        · simp only [Act.bind_def, failIf]
          by_cases hsw : sw i ≥ toUnsignedLong timeout
          · simp only [hsw, decide_True, if_true]
          · simp only [hsw, decide_False, Bool.false_eq_true, if_false]
            exact ih k2 (i + 1) s1 (by omega) (by omega)

/-- The rounds `WaitForPSRegistration` provides are enough. -/
theorem psRegistrationLoop_rounds_enough (sw : Nat → Nat) (timeout : Int) :
    ∀ (k k2 i : Nat) (s : Driver), s.replies.length < 2 * k → s.replies.length < 2 * k2 →
      psRegistrationLoop sw timeout k i s = psRegistrationLoop sw timeout k2 i s := by
  intro k
  induction k with
  | zero => intro k2 i s h; omega
  | succ k ih =>
    intro k2 i s h h2
    cases k2 with
    | zero => omega
    | succ k2 =>
      simp only [psRegistrationLoop, Act.bind_def]
      cases hq : queryStatus "AT+CGREG?".toList "^\\+CGREG: (.*)$".toList s with
      | ret r s1 => rfl
      | next status s1 =>
        have hlen := queryStatus_next _ _ s s1 status hq
        dsimp only
        split
        · rfl
        · simp only [Act.bind_def]
          cases hq2 : queryStatus "AT+CEREG?".toList "^\\+CEREG: (.*)$".toList s1 with
          | ret r s2 => rfl
          | next status2 s2 =>
            have hlen2 := queryStatus_next _ _ s1 s2 status2 hq2
            dsimp only
            split
            · rfl
            · simp only [Act.bind_def, failIf]
              by_cases hsw : sw i ≥ toUnsignedLong timeout
              · simp only [hsw, decide_True, if_true]
              · simp only [hsw, decide_False, Bool.false_eq_true, if_false]
                exact ih k2 (i + 1) s2 (by omega) (by omega)

end RegistrationRounds

section PacketRegistration

theorem psRegistrationLoop_first (sw : Nat → Nat) (timeout : Int) (k i : Nat) (s : Driver)
    (cgreg ok : List Char) (rest : List (Option (List Char)))
    (hreplies : s.replies = some cgreg :: some ok :: rest)
    (hsize : 2 ≤ (parseArguments cgreg).length) :
    psRegistrationLoop sw timeout (k + 1) i s =
      if atoi ((parseArguments cgreg).getD 1 []) = 0 then
        .ret false { s with replies := rest, sent := s.sent ++ [.command "AT+CGREG?".toList],
                            lastError := .E_UNKNOWN }
      else if atoi ((parseArguments cgreg).getD 1 []) = 1 ∨
          atoi ((parseArguments cgreg).getD 1 []) = 5 then
        .next () { s with replies := rest, sent := s.sent ++ [.command "AT+CGREG?".toList] }
      else
        (do
          let status ← queryStatus "AT+CEREG?".toList "^\\+CEREG: (.*)$".toList
          if status == 1 || status == 5 then pure ()
          else do
            failIf (sw i ≥ toUnsignedLong timeout) false .E_UNKNOWN
            psRegistrationLoop sw timeout k (i + 1) : Act Bool Unit)
          { s with replies := rest, sent := s.sent ++ [.command "AT+CGREG?".toList] } := by
  simp only [psRegistrationLoop, Act.bind_def, queryStatus_replied _ _ s cgreg ok rest
    hreplies hsize]
  by_cases h0 : atoi ((parseArguments cgreg).getD 1 []) = 0
  · simp only [h0, if_true]
  · by_cases h15 : atoi ((parseArguments cgreg).getD 1 []) = 1 ∨
        atoi ((parseArguments cgreg).getD 1 []) = 5
    · simp only [h0, if_false, h15, if_true, Bool.or_eq_true, beq_iff_eq, Act.pure_def]
    · simp only [h0, if_false, h15, Bool.or_eq_true, beq_iff_eq, Act.bind_def]

theorem psRegistrationLoop_second (sw : Nat → Nat) (timeout : Int) (k i : Nat) (s : Driver)
    (cgreg ok cereg ok2 : List Char) (rest : List (Option (List Char)))
    (hreplies : s.replies = some cgreg :: some ok :: some cereg :: some ok2 :: rest)
    (hsize : 2 ≤ (parseArguments cgreg).length)
    (h0 : atoi ((parseArguments cgreg).getD 1 []) ≠ 0)
    (h1 : atoi ((parseArguments cgreg).getD 1 []) ≠ 1)
    (h5 : atoi ((parseArguments cgreg).getD 1 []) ≠ 5)
    (hsize2 : 2 ≤ (parseArguments cereg).length) :
    psRegistrationLoop sw timeout (k + 1) i s =
      if atoi ((parseArguments cereg).getD 1 []) = 0 then
        .ret false { s with replies := rest,
                            sent := s.sent ++ [.command "AT+CGREG?".toList,
                              .command "AT+CEREG?".toList],
                            lastError := .E_UNKNOWN }
      else if atoi ((parseArguments cereg).getD 1 []) = 1 ∨
          atoi ((parseArguments cereg).getD 1 []) = 5 then
        .next () { s with replies := rest,
                          sent := s.sent ++ [.command "AT+CGREG?".toList,
                            .command "AT+CEREG?".toList] }
      else if toUnsignedLong timeout ≤ sw i then
        .ret false { s with replies := rest,
                            sent := s.sent ++ [.command "AT+CGREG?".toList,
                              .command "AT+CEREG?".toList],
                            lastError := .E_UNKNOWN }
      else
        psRegistrationLoop sw timeout k (i + 1)
          { s with replies := rest,
                   sent := s.sent ++ [.command "AT+CGREG?".toList,
                     .command "AT+CEREG?".toList] } := by
  rw [psRegistrationLoop_first sw timeout k i s cgreg ok _ hreplies hsize]
  simp only [h0, h1, h5, or_self, if_false, Act.bind_def]
  rw [queryStatus_replied _ _ _ cereg ok2 rest rfl hsize2]
  by_cases e0 : atoi ((parseArguments cereg).getD 1 []) = 0
  · simp only [e0, if_true, List.append_assoc, List.singleton_append]
  · by_cases e15 : atoi ((parseArguments cereg).getD 1 []) = 1 ∨
        atoi ((parseArguments cereg).getD 1 []) = 5
    · simp only [e0, if_false, e15, if_true, Bool.or_eq_true, beq_iff_eq, Act.pure_def,
        List.append_assoc, List.singleton_append]
    · by_cases hsw : toUnsignedLong timeout ≤ sw i
      · simp only [e0, if_false, e15, Bool.or_eq_true, beq_iff_eq, Act.bind_def, failIf,
          ge_iff_le, hsw, decide_True, if_true, List.append_assoc, List.singleton_append]
      · simp only [e0, if_false, e15, Bool.or_eq_true, beq_iff_eq, Act.bind_def, failIf,
          ge_iff_le, hsw, decide_False, Bool.false_eq_true, List.append_assoc,
          List.singleton_append]

/-- C13, counterexample: `WaitForPSRegistration` does not succeed whenever either
register reports 1 or 5. With CGREG status 0 the call fails with Unknown after the single
query `AT+CGREG?`, and the reply `0,1` scripted for CEREG is never asked for; with CGREG
status 1 it succeeds, again without a query of CEREG. -/
theorem WaitForPSRegistration_skips_cereg :
    call (WaitForPSRegistration (fun _ => 0) 1000)
      (driverWith [some "0,0".toList, some "OK".toList, some "0,1".toList, some "OK".toList]) =
      (false, { driverWith [some "0,1".toList, some "OK".toList] with
        sent := [.command "AT+CGREG?".toList], lastError := .E_UNKNOWN }) ∧
    call (WaitForPSRegistration (fun _ => 0) 1000)
      (driverWith [some "0,1".toList, some "OK".toList, some "0,0".toList, some "OK".toList]) =
      (true, { driverWith [some "0,0".toList, some "OK".toList] with
        sent := [.command "AT+CGREG?".toList], lastError := .E_OK }) := by
  constructor
  · apply call_of_ret
    simp only [WaitForPSRegistration, Act.bind_def]
    rw [psRegistrationLoop_first _ _ _ _ _ "0,0".toList "OK".toList
      [some "0,1".toList, some "OK".toList] rfl (by decide)]
    rw [if_pos (by decide)]
    rfl
  · apply call_of_ret
    simp only [WaitForPSRegistration, Act.bind_def]
    rw [psRegistrationLoop_first _ _ _ _ _ "0,1".toList "OK".toList
      [some "0,0".toList, some "OK".toList] rfl (by decide)]
    rw [if_neg (by decide), if_pos (by decide)]
    rfl

/-- C13, amended: a polling round of `WaitForPSRegistration` (round `i` of the loop, from
any state) queries CGREG first. Status 0 fails with Unknown and status 1 or 5 ends the
loop with success, both without a query of CEREG. Only for another CGREG status is CEREG
queried: there status 0 fails with Unknown, status 1 or 5 ends the loop with success,
and another status fails with Unknown if the elapsed time has reached the timeout and
starts round `i + 1` otherwise. After the loop the function returns `true` with error
code Ok. -/
theorem WaitForPSRegistration_round (sw : Nat → Nat) (timeout : Int) (k i : Nat) (s : Driver)
    (cgreg ok : List Char) (rest : List (Option (List Char)))
    (hreplies : s.replies = some cgreg :: some ok :: rest)
    (hsize : 2 ≤ (parseArguments cgreg).length) :
    (atoi ((parseArguments cgreg).getD 1 []) = 0 →
      psRegistrationLoop sw timeout (k + 1) i s =
        .ret false { s with replies := rest,
                            sent := s.sent ++ [.command "AT+CGREG?".toList],
                            lastError := .E_UNKNOWN }) ∧
    (atoi ((parseArguments cgreg).getD 1 []) = 1 ∨
        atoi ((parseArguments cgreg).getD 1 []) = 5 →
      psRegistrationLoop sw timeout (k + 1) i s =
        .next () { s with replies := rest,
                          sent := s.sent ++ [.command "AT+CGREG?".toList] }) ∧
    (∀ (cereg ok2 : List Char) (rest2 : List (Option (List Char))),
      rest = some cereg :: some ok2 :: rest2 →
      2 ≤ (parseArguments cereg).length →
      atoi ((parseArguments cgreg).getD 1 []) ≠ 0 →
      atoi ((parseArguments cgreg).getD 1 []) ≠ 1 →
      atoi ((parseArguments cgreg).getD 1 []) ≠ 5 →
      psRegistrationLoop sw timeout (k + 1) i s =
        if atoi ((parseArguments cereg).getD 1 []) = 0 then
          .ret false { s with replies := rest2,
                              sent := s.sent ++ [.command "AT+CGREG?".toList,
                                .command "AT+CEREG?".toList],
                              lastError := .E_UNKNOWN }
        else if atoi ((parseArguments cereg).getD 1 []) = 1 ∨
            atoi ((parseArguments cereg).getD 1 []) = 5 then
          .next () { s with replies := rest2,
                            sent := s.sent ++ [.command "AT+CGREG?".toList,
                              .command "AT+CEREG?".toList] }
        else if toUnsignedLong timeout ≤ sw i then
          .ret false { s with replies := rest2,
                              sent := s.sent ++ [.command "AT+CGREG?".toList,
                                .command "AT+CEREG?".toList],
                              lastError := .E_UNKNOWN }
        else
          psRegistrationLoop sw timeout k (i + 1)
            { s with replies := rest2,
                     sent := s.sent ++ [.command "AT+CGREG?".toList,
                       .command "AT+CEREG?".toList] }) ∧
    (∀ s1 : Driver, psRegistrationLoop sw timeout (s.replies.length + 1) 0 s = .next () s1 →
      call (WaitForPSRegistration sw timeout) s = (true, { s1 with lastError := .E_OK })) ∧
    (∀ (r : Bool) (s1 : Driver),
      psRegistrationLoop sw timeout (s.replies.length + 1) 0 s = .ret r s1 →
      call (WaitForPSRegistration sw timeout) s = (r, s1)) := by
  have hfirst := psRegistrationLoop_first sw timeout k i s cgreg ok rest hreplies hsize
  refine ⟨?_, ?_, ?_, ?_, ?_⟩
  · intro h0
    rw [hfirst, if_pos h0]
  · intro h15
    have h0 : atoi ((parseArguments cgreg).getD 1 []) ≠ 0 := by
      rcases h15 with h | h <;> rw [h] <;> decide
    rw [hfirst, if_neg h0, if_pos h15]
  · intro cereg ok2 rest2 hrest hsize2 h0 h1 h5
    subst hrest
    exact psRegistrationLoop_second sw timeout k i s cgreg ok cereg ok2 rest2 hreplies hsize
      h0 h1 h5 hsize2
  · intro s1 h
    apply call_of_ret
    simp only [WaitForPSRegistration, Act.bind_def, h, RET_OK]
  · intro r s1 h
    apply call_of_ret
    simp only [WaitForPSRegistration, Act.bind_def, h]

/-- C13, amended, at a first round in which CGREG reports 2 (searching) and CEREG
reports 1: the round ends the loop after both queries. -/
theorem WaitForPSRegistration_round_witness :
    psRegistrationLoop (fun _ => 0) 1000 5 0
      (driverWith [some "0,2".toList, some "OK".toList, some "0,1".toList, some "OK".toList]) =
      .next () { driverWith [] with
        sent := [.command "AT+CGREG?".toList, .command "AT+CEREG?".toList] } :=
  ((WaitForPSRegistration_round (fun _ => 0) 1000 4 0
    (driverWith [some "0,2".toList, some "OK".toList, some "0,1".toList, some "OK".toList])
    "0,2".toList "OK".toList [some "0,1".toList, some "OK".toList] rfl (by decide)).2.2.1
    "0,1".toList "OK".toList [] rfl (by decide) (by decide) (by decide) (by decide)).trans
    (by rw [if_neg (by decide), if_pos (by decide)]; rfl)

end PacketRegistration

section Gnss

theorem locationLoop_error (replies : List (Option (List Char))) :
    ∀ (locStr : List Char) (err : ErrorCodeType),
      (locationLoop locStr replies).1 = .error err →
      err = .E_GNSS_NOT_FIXED ∨ err = .E_TIMEOUT ∨ err = .E_UNKNOWN := by
  induction replies with
  | nil =>
    intro locStr err h
    simp only [locationLoop] at h
    cases h
    exact Or.inr (Or.inl rfl)
  | cons r rest ih =>
    intro locStr err h
    cases r with
    | none =>
      simp only [locationLoop] at h
      cases h
      exact Or.inr (Or.inl rfl)
    | some response =>
      simp only [locationLoop] at h
      split at h
      · cases h
      · split at h
        · split at h
          · cases h
            exact Or.inl rfl
          · cases h
            exact Or.inr (Or.inr rfl)
        · exact ih response err h

theorem cme_reply_516 (response : List Char)
    (hcme : strncmpEq response "+CME ERROR: ".toList 12 = true)
    (h516 : response.drop 12 = "516".toList) : response = "+CME ERROR: 516".toList := by
  have hp : "+CME ERROR: ".toList <+: response :=
    (strncmpEq_literal "+CME ERROR: ".toList response).mp hcme
  obtain ⟨t, ht⟩ := hp
  subst ht
  rw [List.drop_left' (by decide)] at h516
  rw [h516]
  decide

theorem locationLoop_step (locStr response : List Char) (rest : List (Option (List Char)))
    (hok : response ≠ "OK".toList)
    (hcme : strncmpEq response "+CME ERROR: ".toList 12 = false) :
    locationLoop locStr (some response :: rest) = locationLoop response rest := by
  simp only [locationLoop, beq_iff_eq, hok, if_false, hcme, Bool.false_eq_true]

theorem locationLoop_notFixed_iff (replies : List (Option (List Char))) :
    ∀ locStr : List Char,
      (locationLoop locStr replies).1 = .error .E_GNSS_NOT_FIXED ↔
      ∃ (pre : List (List Char)) (rest : List (Option (List Char))),
        replies = pre.map some ++ some "+CME ERROR: 516".toList :: rest ∧
        ∀ r ∈ pre, r ≠ "OK".toList ∧ strncmpEq r "+CME ERROR: ".toList 12 = false := by
  induction replies with
  | nil =>
    intro locStr
    constructor
    · intro h
      simp only [locationLoop] at h
      cases h
    · rintro ⟨pre, rest, heq, _⟩
      cases pre <;> cases heq
  | cons r replies ih =>
    intro locStr
    cases r with
    | none =>
      constructor
      · intro h
        simp only [locationLoop] at h
        cases h
      · rintro ⟨pre, rest, heq, _⟩
        cases pre <;> cases heq
    | some response =>
      by_cases hok : response = "OK".toList
      · constructor
        · intro h
          simp only [locationLoop, hok, beq_self_eq_true, if_true] at h
          cases h
        · rintro ⟨pre, rest, heq, hpre⟩
          cases pre with
          | nil =>
            have hr : response = "+CME ERROR: 516".toList := by
              simpa using (List.cons.inj heq).1
            rw [hr] at hok
            exact absurd hok (by decide)
          | cons p pre =>
            have hr : response = p := by simpa using (List.cons.inj heq).1
            exact absurd (hr ▸ hok) (hpre p (List.mem_cons_self _ _)).1
      · by_cases hcme : strncmpEq response "+CME ERROR: ".toList 12 = true
        · by_cases h516 : response.drop 12 = "516".toList
          · constructor
            · intro _
              exact ⟨[], replies, by rw [cme_reply_516 response hcme h516]; rfl,
                fun r hr => absurd hr (List.not_mem_nil r)⟩
            · intro _
              simp only [locationLoop, beq_iff_eq, hok, if_false, hcme, if_true, h516]
          · constructor
            · intro h
              simp only [locationLoop, beq_iff_eq, hok, if_false, hcme, if_true, h516] at h
              cases h
            · rintro ⟨pre, rest, heq, hpre⟩
              cases pre with
              | nil =>
                have hr : response = "+CME ERROR: 516".toList := by
                  simpa using (List.cons.inj heq).1
                rw [hr] at h516
                exact absurd (by decide) h516
              | cons p pre =>
                have hr : response = p := by simpa using (List.cons.inj heq).1
                have := (hpre p (List.mem_cons_self _ _)).2
                rw [← hr, hcme] at this
                cases this
        · have hcme2 : strncmpEq response "+CME ERROR: ".toList 12 = false := by
            simpa using hcme
          rw [locationLoop_step locStr response replies hok hcme2, ih response]
          constructor
          · rintro ⟨pre, rest, heq, hpre⟩
            refine ⟨response :: pre, rest, by rw [heq]; rfl, ?_⟩
            intro r hr
            rcases List.mem_cons.mp hr with h | h
            · rw [h]; exact ⟨hok, hcme2⟩
            · exact hpre r h
          · rintro ⟨pre, rest, heq, hpre⟩
            cases pre with
            | nil =>
              have hr : response = "+CME ERROR: 516".toList := by
                simpa using (List.cons.inj heq).1
              rw [hr] at hcme
              exact absurd (by decide) hcme
            | cons p pre =>
              exact ⟨pre, rest, (List.cons.inj heq).2,
                fun r hr => hpre r (List.mem_cons_of_mem _ hr)⟩

theorem locationLoop_timeout_iff (replies : List (Option (List Char))) :
    ∀ locStr : List Char,
      (locationLoop locStr replies).1 = .error .E_TIMEOUT ↔
      ∃ pre : List (List Char),
        (∀ r ∈ pre, r ≠ "OK".toList ∧ strncmpEq r "+CME ERROR: ".toList 12 = false) ∧
        (replies = pre.map some ∨ ∃ rest, replies = pre.map some ++ none :: rest) := by
  induction replies with
  | nil =>
    intro locStr
    constructor
    · intro _
      exact ⟨[], fun r hr => absurd hr (List.not_mem_nil r), Or.inl rfl⟩
    · intro _
      simp only [locationLoop]
  | cons r replies ih =>
    intro locStr
    cases r with
    | none =>
      constructor
      · intro _
        exact ⟨[], fun r hr => absurd hr (List.not_mem_nil r), Or.inr ⟨replies, rfl⟩⟩
      · intro _
        simp only [locationLoop]
    | some response =>
      have hhead : ∀ pre : List (List Char),
          (some response :: replies = pre.map some ∨
            ∃ rest, some response :: replies = pre.map some ++ none :: rest) →
          ∃ pre2, pre = response :: pre2 ∧
            (replies = pre2.map some ∨ ∃ rest, replies = pre2.map some ++ none :: rest) := by
        intro pre h
        cases pre with
        | nil =>
          rcases h with h | ⟨rest, h⟩ <;> cases h
        | cons p pre2 =>
          rcases h with h | ⟨rest, h⟩
          · have hp : response = p := by simpa using (List.cons.inj h).1
            exact ⟨pre2, by rw [hp], Or.inl (List.cons.inj h).2⟩
          · have hp : response = p := by simpa using (List.cons.inj h).1
            exact ⟨pre2, by rw [hp], Or.inr ⟨rest, (List.cons.inj h).2⟩⟩
      by_cases hok : response = "OK".toList
      · constructor
        · intro h
          simp only [locationLoop, hok, beq_self_eq_true, if_true] at h
          cases h
        · rintro ⟨pre, hpre, h⟩
          obtain ⟨pre2, hp, _⟩ := hhead pre h
          subst hp
          exact absurd hok (hpre response (List.mem_cons_self _ _)).1
      · by_cases hcme : strncmpEq response "+CME ERROR: ".toList 12 = true
        · constructor
          · intro h
            simp only [locationLoop, beq_iff_eq, hok, if_false, hcme, if_true] at h
            split at h <;> cases h
          · rintro ⟨pre, hpre, h⟩
            obtain ⟨pre2, hp, _⟩ := hhead pre h
            subst hp
            have := (hpre response (List.mem_cons_self _ _)).2
            rw [hcme] at this
            cases this
        · have hcme2 : strncmpEq response "+CME ERROR: ".toList 12 = false := by
            simpa using hcme
          rw [locationLoop_step locStr response replies hok hcme2, ih response]
          constructor
          · rintro ⟨pre, hpre, h⟩
            refine ⟨response :: pre, ?_, ?_⟩
            · intro r hr
              rcases List.mem_cons.mp hr with h | h
              · rw [h]; exact ⟨hok, hcme2⟩
              · exact hpre r h
            · rcases h with h | ⟨rest, h⟩
              · exact Or.inl (by rw [h]; rfl)
              · exact Or.inr ⟨rest, by rw [h]; rfl⟩
          · rintro ⟨pre, hpre, h⟩
            obtain ⟨pre2, hp, h2⟩ := hhead pre h
            subst hp
            exact ⟨pre2, fun r hr => hpre r (List.mem_cons_of_mem _ hr), h2⟩

theorem GetGNSSLocation_loop_error (s : Driver) (longitude latitude altitude tim : Bool)
    (err : ErrorCodeType) (rest : List (Option (List Char)))
    (hloop : locationLoop [] s.replies = (.error err, rest)) :
    call (GetGNSSLocation longitude latitude altitude tim) s =
      (some false, { s with replies := rest,
                            sent := s.sent ++ [.command "AT+QGPSLOC?".toList],
                            lastError := err }) := by
  apply call_of_ret
  simp only [GetGNSSLocation, Act.bind_def, WriteCommand, hloop]

theorem GetGNSSLocation_after_loop (s : Driver) (longitude latitude altitude tim : Bool)
    (locStr : List Char) (rest : List (Option (List Char)))
    (hloop : locationLoop [] s.replies = (.ok locStr, rest))
    (hfail : (call (GetGNSSLocation longitude latitude altitude tim) s).1 = some false) :
    (call (GetGNSSLocation longitude latitude altitude tim) s).2.lastError = .E_UNKNOWN := by
  revert hfail
  simp only [GetGNSSLocation, call, Act.bind_def, WriteCommand, hloop, failIf, returnIf, RET_OK]
  generalize decide (locStr.length < 10) = b1
  generalize decide ((parseArguments (locStr.drop 10)).length < 5) = b2
  generalize (latitude && ((parseArguments (locStr.drop 10)).getD 1 []).isEmpty) = b3
  generalize (longitude && ((parseArguments (locStr.drop 10)).getD 2 []).isEmpty) = b4
  generalize (tim && decide ((parseArguments (locStr.drop 10)).length < 10)) = b5
  generalize (tim && ((parseArguments (locStr.drop 10)).getD 9 []).length != 6) = b6
  generalize (tim && decide (((parseArguments (locStr.drop 10)).getD 0 []).length < 6)) = b7
  cases b1 <;> cases b2 <;> cases b3 <;> cases b4 <;> cases b5 <;> cases b6 <;> cases b7 <;>
    simp

/-- C16, counterexample: a read that ends without a matching reply makes
`GetGNSSLocation` fail with error code Timeout, not Unknown. -/
theorem GetGNSSLocation_read_failure_is_timeout :
    (call (GetGNSSLocation true true true true) (driverWith [none])).1 = some false ∧
    (call (GetGNSSLocation true true true true) (driverWith [none])).2.lastError =
      .E_TIMEOUT := by
  decide

/-- C16, amended: the error code of a failing run of `GetGNSSLocation` is decided by the
reply that ends the read loop. Replies that are neither `OK` nor begin with
`+CME ERROR: ` are location lines and keep the loop going. If the first other reply is
`+CME ERROR: 516` the run fails with GnssNotFixed, and a failing run has that code only
then; if the first other read ends without a matching reply the run fails with Timeout,
and a failing run has that code only then; every other failing run (another CME error,
a too-short or malformed location line) has error code Unknown. -/
theorem GetGNSSLocation_error_codes (s : Driver) (longitude latitude altitude tim : Bool) :
    ((∃ (pre : List (List Char)) (rest : List (Option (List Char))),
        s.replies = pre.map some ++ some "+CME ERROR: 516".toList :: rest ∧
        ∀ r ∈ pre, r ≠ "OK".toList ∧ strncmpEq r "+CME ERROR: ".toList 12 = false) →
      (call (GetGNSSLocation longitude latitude altitude tim) s).1 = some false ∧
      (call (GetGNSSLocation longitude latitude altitude tim) s).2.lastError =
        .E_GNSS_NOT_FIXED) ∧
    ((∃ pre : List (List Char),
        (∀ r ∈ pre, r ≠ "OK".toList ∧ strncmpEq r "+CME ERROR: ".toList 12 = false) ∧
        (s.replies = pre.map some ∨ ∃ rest, s.replies = pre.map some ++ none :: rest)) →
      (call (GetGNSSLocation longitude latitude altitude tim) s).1 = some false ∧
      (call (GetGNSSLocation longitude latitude altitude tim) s).2.lastError = .E_TIMEOUT) ∧
    ((call (GetGNSSLocation longitude latitude altitude tim) s).1 = some false →
      ((call (GetGNSSLocation longitude latitude altitude tim) s).2.lastError =
          .E_GNSS_NOT_FIXED →
        ∃ (pre : List (List Char)) (rest : List (Option (List Char))),
          s.replies = pre.map some ++ some "+CME ERROR: 516".toList :: rest ∧
          ∀ r ∈ pre, r ≠ "OK".toList ∧ strncmpEq r "+CME ERROR: ".toList 12 = false) ∧
      ((call (GetGNSSLocation longitude latitude altitude tim) s).2.lastError = .E_TIMEOUT →
        ∃ pre : List (List Char),
          (∀ r ∈ pre, r ≠ "OK".toList ∧ strncmpEq r "+CME ERROR: ".toList 12 = false) ∧
          (s.replies = pre.map some ∨ ∃ rest, s.replies = pre.map some ++ none :: rest)) ∧
      ((call (GetGNSSLocation longitude latitude altitude tim) s).2.lastError =
          .E_GNSS_NOT_FIXED ∨
        (call (GetGNSSLocation longitude latitude altitude tim) s).2.lastError =
          .E_TIMEOUT ∨
        (call (GetGNSSLocation longitude latitude altitude tim) s).2.lastError =
          .E_UNKNOWN)) := by
  have hA := locationLoop_notFixed_iff s.replies []
  have hB := locationLoop_timeout_iff s.replies []
  rcases hloop : locationLoop [] s.replies with ⟨res, rest⟩
  rw [hloop] at hA hB
  cases res with
  | error err =>
    have hcall := GetGNSSLocation_loop_error s longitude latitude altitude tim err rest hloop
    have herr := locationLoop_error s.replies [] err (by rw [hloop])
    rw [hcall]
    refine ⟨fun h => ⟨rfl, ?_⟩, fun h => ⟨rfl, ?_⟩, fun _ => ⟨fun h => ?_, fun h => ?_, herr⟩⟩
    · exact Except.error.inj (hA.mpr h)
    · exact Except.error.inj (hB.mpr h)
    · exact hA.mp (congrArg Except.error h)
    · exact hB.mp (congrArg Except.error h)
  | ok locStr =>
    refine ⟨fun h => ?_, fun h => ?_, fun hfail => ?_⟩
    · cases hA.mpr h
    · cases hB.mpr h
    · have hu := GetGNSSLocation_after_loop s longitude latitude altitude tim locStr rest hloop
        hfail
      rw [hu]
      exact ⟨fun h => (by cases h), fun h => (by cases h), Or.inr (Or.inr rfl)⟩

/-- C16, amended, at the single reply `+CME ERROR: 516`: the run fails with
GnssNotFixed. -/
theorem GetGNSSLocation_error_codes_witness :
    (call (GetGNSSLocation true true true true)
      (driverWith [some "+CME ERROR: 516".toList])).1 = some false ∧
    (call (GetGNSSLocation true true true true)
      (driverWith [some "+CME ERROR: 516".toList])).2.lastError = .E_GNSS_NOT_FIXED :=
  (GetGNSSLocation_error_codes (driverWith [some "+CME ERROR: 516".toList])
    true true true true).1
    ⟨[], [], rfl, fun r hr => absurd hr (List.not_mem_nil r)⟩

end Gnss

section WaysOut

theorem returnsOnly_bind {ρ α β : Type} (x : Act ρ α) (f : α → Act ρ β)
    (P : ρ → Driver → Prop) (hx : x.returnsOnly P) (hf : ∀ a, (f a).returnsOnly P) :
    (x >>= f).returnsOnly P := by
  intro s r s1 h
  rw [Act.bind_def] at h
  cases hxs : x s with
  | next a s2 =>
    rw [hxs] at h
    exact hf a s2 r s1 h
  | ret r2 s2 =>
    rw [hxs] at h
    cases h
    exact hx s r s1 hxs

theorem returnsOnly_bind_of {ρ α β : Type} (x : Act ρ α) (f : α → Act ρ β)
    (P : ρ → Driver → Prop) (Q : α → Prop) (hq : x.yieldsOnly Q) (hx : x.returnsOnly P)
    (hf : ∀ a, Q a → (f a).returnsOnly P) :
    (x >>= f).returnsOnly P := by
  intro s r s1 h
  rw [Act.bind_def] at h
  cases hxs : x s with
  | next a s2 =>
    rw [hxs] at h
    exact hf a (hq s a s2 hxs) s2 r s1 h
  | ret r2 s2 =>
    rw [hxs] at h
    cases h
    exact hx s r s1 hxs

theorem yieldsOnly_bind {ρ α β : Type} (x : Act ρ α) (f : α → Act ρ β) (Q : β → Prop)
    (hf : ∀ a, (f a).yieldsOnly Q) : (x >>= f).yieldsOnly Q := by
  intro s b s1 h
  rw [Act.bind_def] at h
  cases hxs : x s with
  | next a s2 =>
    rw [hxs] at h
    exact hf a s2 b s1 h
  | ret r2 s2 =>
    rw [hxs] at h
    cases h

theorem yieldsOnly_pure {ρ α : Type} (a : α) (Q : α → Prop) (h : Q a) :
    (pure a : Act ρ α).yieldsOnly Q := by
  intro s b s1 hb
  rw [Act.pure_def] at hb
  cases hb
  exact h

theorem yieldsOnly_RET_ERR {ρ α : Type} (val : ρ) (err : ErrorCodeType) (Q : α → Prop) :
    (RET_ERR val err : Act ρ α).yieldsOnly Q := by
  intro s b s1 h
  cases h

theorem yieldsOnly_RET_OK {ρ α : Type} (val : ρ) (Q : α → Prop) :
    (RET_OK val : Act ρ α).yieldsOnly Q := by
  intro s b s1 h
  cases h

theorem returnsOnly_pure {ρ α : Type} (a : α) (P : ρ → Driver → Prop) :
    (pure a : Act ρ α).returnsOnly P := by
  intro s r s1 h
  cases h

theorem returnsOnly_RET_ERR {ρ α : Type} (val : ρ) (err : ErrorCodeType)
    (P : ρ → Driver → Prop) (h : ∀ s : Driver, P val { s with lastError := err }) :
    (RET_ERR val err : Act ρ α).returnsOnly P := by
  intro s r s1 hr
  cases hr
  exact h s

theorem returnsOnly_RET_OK {ρ α : Type} (val : ρ) (P : ρ → Driver → Prop)
    (h : ∀ s : Driver, P val { s with lastError := .E_OK }) :
    (RET_OK val : Act ρ α).returnsOnly P := by
  intro s r s1 hr
  cases hr
  exact h s

theorem returnsOnly_failIf {ρ : Type} (cond : Bool) (val : ρ) (err : ErrorCodeType)
    (P : ρ → Driver → Prop) (h : ∀ s : Driver, P val { s with lastError := err }) :
    (failIf cond val err).returnsOnly P := by
  intro s r s1 hr
  unfold failIf at hr
  split at hr
  · cases hr
    exact h s
  · cases hr

theorem returnsOnly_WriteCommand {ρ : Type} (text : List Char) (P : ρ → Driver → Prop) :
    (WriteCommand text : Act ρ Unit).returnsOnly P := by
  intro s r s1 h
  cases h

theorem returnsOnly_WriteBinary {ρ : Type} (bytes : List Char) (P : ρ → Driver → Prop) :
    (WriteBinary bytes : Act ρ Unit).returnsOnly P := by
  intro s r s1 h
  cases h

theorem returnsOnly_WriteFormat {ρ : Type} (sb rendered : List Char)
    (P : ρ → Driver → Prop) : (WriteFormat sb rendered : Act ρ _).returnsOnly P := by
  intro s r s1 h
  cases h

theorem returnsOnly_ReadResponse {ρ : Type} (pattern : List Char) (timeout : Int)
    (P : ρ → Driver → Prop) : (ReadResponse pattern timeout : Act ρ _).returnsOnly P := by
  intro s r s1 h
  unfold ReadResponse at h
  split at h <;> cases h

theorem returnsOnly_ReadBinary {ρ : Type} (length timeout : Int)
    (P : ρ → Driver → Prop) : (ReadBinary length timeout : Act ρ _).returnsOnly P := by
  intro s r s1 h
  unfold ReadBinary at h
  split at h <;> cases h

theorem returnsOnly_ReadResponseQHTTPREAD {ρ : Type} (dataSize timeout : Int)
    (P : ρ → Driver → Prop) :
    (ReadResponseQHTTPREAD dataSize timeout : Act ρ _).returnsOnly P := by
  intro s r s1 h
  unfold ReadResponseQHTTPREAD at h
  split at h <;> cases h

theorem returnsOnly_WriteCommandAndReadResponse {ρ : Type} (command pattern : List Char)
    (timeout : Int) (P : ρ → Driver → Prop) :
    (WriteCommandAndReadResponse command pattern timeout : Act ρ Bool).returnsOnly P := by
  unfold WriteCommandAndReadResponse
  exact returnsOnly_bind _ _ P (returnsOnly_WriteCommand _ P) fun _ =>
    returnsOnly_bind _ _ P (returnsOnly_ReadResponse _ _ P) fun _ => returnsOnly_pure _ P

theorem returnsOnly_invoke {ρ α : Type} (body : Act α α) (P : ρ → Driver → Prop) :
    (invoke body : Act ρ α).returnsOnly P := by
  intro s r s1 h
  cases h

theorem returnsOnly_pure_bind {ρ α β : Type} (a : α) (f : α → Act ρ β)
    (P : ρ → Driver → Prop) (h : (f a).returnsOnly P) :
    ((pure a : Act ρ α) >>= f).returnsOnly P := by
  intro s r s1 hr
  rw [Act.bind_def, Act.pure_def] at hr
  exact h s r s1 hr

theorem returnsOnly_RET_ERR_bind {ρ α β : Type} (val : ρ) (err : ErrorCodeType)
    (f : α → Act ρ β) (P : ρ → Driver → Prop)
    (h : ∀ s : Driver, P val { s with lastError := err }) :
    ((RET_ERR val err : Act ρ α) >>= f).returnsOnly P :=
  returnsOnly_bind_of _ _ P (fun _ => False) (yieldsOnly_RET_ERR _ _ _)
    (returnsOnly_RET_ERR _ _ P h) (fun _ hf => absurd hf id)

theorem call_of_ways_out {ρ : Type} (body : Act ρ ρ) (P : ρ → Driver → Prop)
    (hret : body.returnsOnly P) (hnext : body.yieldsOnly fun _ => False) (s : Driver) :
    P (call body s).1 (call body s).2 := by
  unfold call
  cases h : body s with
  | next a s1 => exact absurd (hnext s a s1 h) id
  | ret r s1 => exact hret s r s1 h

end WaysOut

section HttpGetReturn

theorem httpConfigure_returnsOnly (url : List Char) :
    (httpConfigure (-1 : Int) url).returnsOnly fun r s1 =>
      (s1.lastError = .E_UNKNOWN ∧ (r = -1 ∨ r = 0)) ∨ (s1.lastError = .E_OK ∧ 0 ≤ r) := by
  unfold httpConfigure
  repeat' first
    | exact returnsOnly_WriteCommandAndReadResponse _ _ _ _
    | exact returnsOnly_invoke _ _
    | exact returnsOnly_pure _ _
    | exact returnsOnly_failIf _ _ _ _ fun _ => Or.inl ⟨rfl, Or.inl rfl⟩
    | apply returnsOnly_bind
    | split
    | dsimp only
    | intro _

theorem httpGetRequest_returnsOnly (timeoutSec : Int) (headerSb : List Char) :
    (httpGetRequest timeoutSec headerSb).returnsOnly fun r s1 =>
      (s1.lastError = .E_UNKNOWN ∧ (r = -1 ∨ r = 0)) ∨ (s1.lastError = .E_OK ∧ 0 ≤ r) := by
  unfold httpGetRequest
  repeat' first
    | exact returnsOnly_WriteCommand _ _
    | exact returnsOnly_WriteBinary _ _
    | exact returnsOnly_WriteFormat _ _ _
    | exact returnsOnly_ReadResponse _ _ _
    | exact returnsOnly_pure _ _
    | exact returnsOnly_failIf _ _ _ _ fun _ => Or.inl ⟨rfl, Or.inr rfl⟩
    | exact returnsOnly_RET_ERR _ _ _ fun _ => Or.inl ⟨rfl, Or.inr rfl⟩
    | apply returnsOnly_bind
    | split
    | dsimp only
    | intro _

theorem httpGetResponse_returnsOnly (timeoutSec dataSize : Int) :
    (httpGetResponse timeoutSec dataSize).returnsOnly fun r s1 =>
      (s1.lastError = .E_UNKNOWN ∧ (r = -1 ∨ r = 0)) ∨ (s1.lastError = .E_OK ∧ 0 ≤ r) := by
  unfold httpGetResponse
  apply returnsOnly_bind
  · exact returnsOnly_ReadResponse _ _ _
  intro response
  split
  swap
  · exact returnsOnly_RET_ERR _ _ _ fun _ => Or.inl ⟨rfl, Or.inl rfl⟩
  dsimp only
  generalize (if (parseArguments _).length ≥ 3 then atoi ((parseArguments _).getD 2 [])
    else (-1 : Int)) = contentLength
  apply returnsOnly_bind
  · exact returnsOnly_failIf _ _ _ _ fun _ => Or.inl ⟨rfl, Or.inl rfl⟩
  intro _
  apply returnsOnly_bind
  · exact returnsOnly_failIf _ _ _ _ fun _ => Or.inl ⟨rfl, Or.inl rfl⟩
  intro _
  apply returnsOnly_bind
  · exact returnsOnly_WriteCommand _ _
  intro _
  apply returnsOnly_bind
  · exact returnsOnly_ReadResponse _ _ _
  intro _
  apply returnsOnly_bind
  · exact returnsOnly_failIf _ _ _ _ fun _ => Or.inl ⟨rfl, Or.inl rfl⟩
  intro _
  have tail : ∀ y : Int, 0 ≤ y →
      ((ReadResponse "^\\+QHTTPREAD: 0$".toList 1000 : Act Int _) >>= fun l =>
        failIf l.isNone (-1) .E_UNKNOWN >>= fun _ => (RET_OK y : Act Int Int)).returnsOnly
        fun r s1 =>
          (s1.lastError = .E_UNKNOWN ∧ (r = -1 ∨ r = 0)) ∨ (s1.lastError = .E_OK ∧ 0 ≤ r) := by
    intro y hy
    apply returnsOnly_bind
    · exact returnsOnly_ReadResponse _ _ _
    intro _
    apply returnsOnly_bind
    · exact returnsOnly_failIf _ _ _ _ fun _ => Or.inl ⟨rfl, Or.inl rfl⟩
    intro _
    exact returnsOnly_RET_OK _ _ fun _ => Or.inr ⟨rfl, hy⟩
  split
  · rename_i hlen
    apply returnsOnly_bind
    · exact returnsOnly_failIf _ _ _ _ fun _ => Or.inl ⟨rfl, Or.inl rfl⟩
    intro _
    apply returnsOnly_bind
    · exact returnsOnly_ReadBinary _ _ _
    intro _
    apply returnsOnly_bind
    · exact returnsOnly_failIf _ _ _ _ fun _ => Or.inl ⟨rfl, Or.inl rfl⟩
    intro _
    apply returnsOnly_bind
    · exact returnsOnly_ReadResponse _ _ _
    intro _
    apply returnsOnly_bind
    · exact returnsOnly_failIf _ _ _ _ fun _ => Or.inl ⟨rfl, Or.inl rfl⟩
    intro _
    exact returnsOnly_pure_bind _ _ _ (tail contentLength hlen)
  · apply returnsOnly_bind
    · exact returnsOnly_ReadResponseQHTTPREAD _ _ _
    intro body
    split
    · exact returnsOnly_pure_bind _ _ _ (tail _ (Int.ofNat_zero_le _))
    · exact returnsOnly_RET_ERR_bind _ _ _ _ fun _ => Or.inl ⟨rfl, Or.inl rfl⟩

theorem httpGetResponse_yieldsOnly (timeoutSec dataSize : Int) :
    (httpGetResponse timeoutSec dataSize).yieldsOnly fun _ => False := by
  unfold httpGetResponse
  refine yieldsOnly_bind _ _ (fun _ => False) fun response => ?_
  split
  swap
  · exact yieldsOnly_RET_ERR _ _ _
  dsimp only
  generalize (if (parseArguments _).length ≥ 3 then atoi ((parseArguments _).getD 2 [])
    else (-1 : Int)) = contentLength
  refine yieldsOnly_bind _ _ (fun _ => False) fun _ => ?_
  refine yieldsOnly_bind _ _ (fun _ => False) fun _ => ?_
  refine yieldsOnly_bind _ _ (fun _ => False) fun _ => ?_
  refine yieldsOnly_bind _ _ (fun _ => False) fun _ => ?_
  refine yieldsOnly_bind _ _ (fun _ => False) fun _ => ?_
  have tail : ∀ y : Int,
      ((ReadResponse "^\\+QHTTPREAD: 0$".toList 1000 : Act Int _) >>= fun l =>
        failIf l.isNone (-1) .E_UNKNOWN >>= fun _ => (RET_OK y : Act Int Int)).yieldsOnly
        fun _ => False := by
    intro y
    refine yieldsOnly_bind _ _ (fun _ => False) fun _ => ?_
    refine yieldsOnly_bind _ _ (fun _ => False) fun _ => ?_
    exact yieldsOnly_RET_OK _ _
  split
  · refine yieldsOnly_bind _ _ (fun _ => False) fun _ => ?_
    refine yieldsOnly_bind _ _ (fun _ => False) fun _ => ?_
    refine yieldsOnly_bind _ _ (fun _ => False) fun _ => ?_
    refine yieldsOnly_bind _ _ (fun _ => False) fun _ => ?_
    refine yieldsOnly_bind _ _ (fun _ => False) fun _ => ?_
    refine yieldsOnly_bind _ _ (fun _ => False) fun y => ?_
    exact tail y
  · refine yieldsOnly_bind _ _ (fun _ => False) fun body => ?_
    split
    · refine yieldsOnly_bind _ _ (fun _ => False) fun y => ?_
      exact tail y
    · refine yieldsOnly_bind _ _ (fun _ => False) fun y => ?_
      exact tail y

theorem HttpGet_ways_out (url : List Char) (dataSize : Int) (header : WioLTEHttpHeader)
    (timeout : Int) :
    ((HttpGet url dataSize header timeout).returnsOnly fun r s1 =>
      (s1.lastError = .E_UNKNOWN ∧ (r = -1 ∨ r = 0)) ∨ (s1.lastError = .E_OK ∧ 0 ≤ r)) ∧
    (HttpGet url dataSize header timeout).yieldsOnly fun _ => False := by
  unfold HttpGet
  dsimp only
  constructor
  · apply returnsOnly_bind
    · exact httpConfigure_returnsOnly url
    intro _
    split
    · apply returnsOnly_bind
      · exact httpGetRequest_returnsOnly _ _
      intro _
      exact httpGetResponse_returnsOnly _ _
    · exact returnsOnly_RET_ERR _ _ _ fun _ => Or.inl ⟨rfl, Or.inr rfl⟩
  · refine yieldsOnly_bind _ _ (fun _ => False) fun _ => ?_
    split
    · refine yieldsOnly_bind _ _ (fun _ => False) fun _ => ?_
      exact httpGetResponse_yieldsOnly _ _
    · exact yieldsOnly_RET_ERR _ _ _

/-- Every run of `HttpGet` ends either with error code Ok and a return value that is
not negative, or with error code Unknown and the return value -1 or 0. A negative return
value therefore comes with an error code other than Ok, but not the other way round. -/
theorem HttpGet_outcomes (url : List Char) (dataSize : Int) (header : WioLTEHttpHeader)
    (timeout : Int) (s : Driver) :
    ((call (HttpGet url dataSize header timeout) s).2.lastError = .E_UNKNOWN ∧
      ((call (HttpGet url dataSize header timeout) s).1 = -1 ∨
        (call (HttpGet url dataSize header timeout) s).1 = 0)) ∨
    ((call (HttpGet url dataSize header timeout) s).2.lastError = .E_OK ∧
      0 ≤ (call (HttpGet url dataSize header timeout) s).1) :=
  call_of_ways_out _ _ (HttpGet_ways_out url dataSize header timeout).1
    (HttpGet_ways_out url dataSize header timeout).2 s

/-- C21 (code defect): four failure paths of `HttpGet` hand `false` to `RET_ERR`, which
in a function returning `int` comes back as 0. A url with neither the `http://` nor the
`https://` prefix, and a request command after which the modem does not answer
`CONNECT`, both end with error code Unknown and the return value 0, which is not
negative. -/
theorem HttpGet_failure_returns_zero :
    (call (HttpGet "ftp://example.com/".toList 100 [] 1000)
      (driverWith [some "OK".toList, some "CONNECT".toList, some "OK".toList])).1 = 0 ∧
    (call (HttpGet "ftp://example.com/".toList 100 [] 1000)
      (driverWith [some "OK".toList, some "CONNECT".toList, some "OK".toList])).2.lastError =
      .E_UNKNOWN ∧
    (call (HttpGet "http://example.com/".toList 100 [] 1000)
      (driverWith [some "OK".toList, some "CONNECT".toList, some "OK".toList, none])).1 = 0 ∧
    (call (HttpGet "http://example.com/".toList 100 [] 1000)
      (driverWith [some "OK".toList, some "CONNECT".toList, some "OK".toList,
        none])).2.lastError = .E_UNKNOWN ∧
    (call (HttpGet "http://example.com/".toList 100 [] 1000)
      (driverWith [some "OK".toList, some "CONNECT".toList, some "OK".toList, none])).2.sent =
      [.command "AT+QHTTPCFG=\"requestheader\",1".toList, .command "AT+QHTTPURL=19".toList,
        .binary "http://example.com/".toList, .command "AT+QHTTPGET=1,37".toList] := by
  decide

end HttpGetReturn

section RoundTripInMemory

theorem leValue_append (l m : List Nat) :
    leValue (l ++ m) = leValue l + 256 ^ l.length * leValue m := by
  induction l with
  | nil => simp [leValue]
  | cons b rest ih =>
    show leValue (b :: (rest ++ m)) = leValue (b :: rest) + 256 ^ (rest.length + 1) * leValue m
    simp only [leValue, pow_succ]
    rw [ih]
    ring

/-- Unpacking the packed form of a text yields the text, whatever bytes follow the
packed form in memory. -/
theorem unpack_packSeptets_in (data beyond : List Nat) (sm : Nat) (text : List Nat)
    (messageSize : Int) (hb : ∀ b ∈ data, b < 256) (hbeyond : ∀ b ∈ beyond, b < 256)
    (hmemory : beyond ≠ []) (hsm : sm ≤ data.length)
    (hdrop : data.drop sm = packSeptets text)
    (htext : ∀ c ∈ text, c < 128)
    (hmsg : (text.length : Int) + 1 ≤ messageSize) :
    unpackUserData (data ++ beyond) (text.length : Int) sm messageSize = .ok text := by
  have hlength : data.length = sm + (7 * text.length + 7) / 8 := by
    have := congrArg List.length hdrop
    rw [List.length_drop, packSeptets_length] at this
    omega
  have hpos : 1 ≤ beyond.length := List.length_pos.mpr hmemory
  have hb2 : ∀ b ∈ data ++ beyond, b < 256 := by
    intro b hb0
    rcases List.mem_append.mp hb0 with h | h
    · exact hb b h
    · exact hbeyond b h
  have hread : ∀ i, i < text.length → sm + (i - i / 8) < (data ++ beyond).length := by
    intro i hi
    rw [List.length_append, hlength]
    have hr : text.length % 8 = 0 ∨ text.length % 8 = 1 ∨ text.length % 8 = 2 ∨
        text.length % 8 = 3 ∨ text.length % 8 = 4 ∨ text.length % 8 = 5 ∨
        text.length % 8 = 6 ∨ text.length % 8 = 7 := by omega
    have hs : i % 8 = 0 ∨ i % 8 = 1 ∨ i % 8 = 2 ∨ i % 8 = 3 ∨ i % 8 = 4 ∨ i % 8 = 5 ∨
        i % 8 = 6 ∨ i % 8 = 7 := by omega
    rcases hr with hr | hr | hr | hr | hr | hr | hr | hr <;>
      rcases hs with hs | hs | hs | hs | hs | hs | hs | hs <;> omega
  rw [unpackUserData_eq (data ++ beyond) sm text.length messageSize hb2 hread hmsg,
    List.drop_append_of_le_length hsm, hdrop, leValue_append, leValue_packSeptets text htext,
    packSeptets_length]
  congr 1
  have hmap : ((List.range text.length).map fun j =>
        (septetValue text + 256 ^ ((7 * text.length + 7) / 8) * leValue beyond) /
          2 ^ (7 * j) % 128) =
      (List.range text.length).map fun j => text.getD j 0 := by
    apply List.map_congr_left
    intro j hj
    have hj2 : j < text.length := List.mem_range.mp hj
    obtain ⟨t, ht⟩ : ∃ t, 8 * ((7 * text.length + 7) / 8) = 7 * j + (7 + t) :=
      ⟨8 * ((7 * text.length + 7) / 8) - (7 * j + 7), by omega⟩
    have e256 : (256 : Nat) ^ ((7 * text.length + 7) / 8) = 2 ^ (7 * j) * (128 * 2 ^ t) := by
      rw [show (256 : Nat) = 2 ^ 8 by norm_num, ← pow_mul, ht, pow_add, pow_add]
      norm_num
    have e : (2 : Nat) ^ (7 * j) = 128 ^ j := by
      rw [pow_mul]
      norm_num
    rw [e256, Nat.mul_assoc, Nat.add_mul_div_left _ _ (by positivity), Nat.mul_assoc,
      Nat.add_mul_mod_self_left, e]
    exact septetValue_field text htext j hj2
  rw [hmap, map_range_getD]

end RoundTripInMemory

section RoundTripEveryText

/-- The layout the decoder finds in a PDU that `encodeDeliverPdu` lays out: the header
walk runs through, the address decodes to the digits, the symbol count is the length of
the text, and the packed text starts at the offset `sm`. -/
theorem encodeDeliverPdu_layout (smsc digits scts text : List Nat)
    (typeOfAddress pid dcs : Nat) (udh : Option (List Nat)) (dialNumberSize : Int)
    (hdigits : ∀ d ∈ digits, d < 10) (hscts : scts.length = 7)
    (hdial : (digits.length : Int) + 1 ≤ dialNumberSize) :
    ∃ (h : PduHeader) (sm : Nat),
      headerWalk (encodeDeliverPdu smsc typeOfAddress digits pid dcs scts udh text) = .ok h ∧
      decodeDialNumber (encodeDeliverPdu smsc typeOfAddress digits pid dcs scts udh text) h
        (some dialNumberSize) = .ok (some (digitChars digits)) ∧
      userDataLayout (encodeDeliverPdu smsc typeOfAddress digits pid dcs scts udh text) h =
        .ok ((text.length : Int), sm) ∧
      sm ≤ (encodeDeliverPdu smsc typeOfAddress digits pid dcs scts udh text).length ∧
      (encodeDeliverPdu smsc typeOfAddress digits pid dcs scts udh text).drop sm =
        packSeptets text := by
  generalize hdata : encodeDeliverPdu smsc typeOfAddress digits pid dcs scts udh text = data
  cases udh with
  | none =>
    have e1 : data = smsc.length :: (smsc ++ (0 :: digits.length :: typeOfAddress ::
        (packDigits digits ++ (pid :: dcs ::
          (scts ++ (text.length :: packSeptets text)))))) := by
      subst hdata; simp [encodeDeliverPdu, encodeAddress]
    obtain ⟨h, hw, hudhi, hoa, hud⟩ := headerWalk_layout smsc (packDigits digits) scts
      (text.length :: packSeptets text) 0 digits.length typeOfAddress pid dcs (by decide)
      (packDigits_length digits) hscts (by simp)
    rw [← e1] at hw
    have hnum : decodeDialNumber data h (some dialNumberSize) =
        .ok (some (digitChars digits)) := by
      have e2 : data = (smsc.length :: (smsc ++ [0])) ++ digits.length :: typeOfAddress ::
          (packDigits digits ++ (pid :: dcs ::
            (scts ++ (text.length :: packSeptets text)))) := by
        rw [e1]; simp
      rw [e2]
      exact decodeDialNumber_layout _ _ _ _ h dialNumberSize (by simp [hoa]) hdigits hdial
    have e3 : data = (smsc.length :: (smsc ++ (0 :: digits.length :: typeOfAddress ::
        (packDigits digits ++ (pid :: dcs :: scts))))) ++
          text.length :: packSeptets text := by
      rw [e1]; simp
    have hfront : (smsc.length :: (smsc ++ (0 :: digits.length :: typeOfAddress ::
        (packDigits digits ++ (pid :: dcs :: scts))))).length = h.tpUd := by
      simp only [List.length_cons, List.length_append, hscts, hud]
      omega
    have r1 : readData data h.tpUd = .ok text.length := by
      rw [e3]
      exact readData_append_cons _ _ _ _ hfront.symm
    have hf : h.tpUdhi = false := by rw [hudhi]; decide
    have hlayout : userDataLayout data h = .ok ((text.length : Int), h.tpUd + 1) := by
      simp [userDataLayout, hf, r1, Run.pure_eq_ok]
    have hdrop : data.drop (h.tpUd + 1) = packSeptets text := by
      have e4 : data = ((smsc.length :: (smsc ++ (0 :: digits.length :: typeOfAddress ::
          (packDigits digits ++ (pid :: dcs :: scts))))) ++ [text.length]) ++
            packSeptets text := by
        rw [e3]; simp
      rw [e4]
      exact List.drop_left' (by rw [List.length_append, hfront]; rfl)
    have hsm : h.tpUd + 1 ≤ data.length := by
      rw [e3, List.length_append, hfront, List.length_cons]
      omega
    exact ⟨h, h.tpUd + 1, hw, hnum, hlayout, hsm, hdrop⟩
  | some hdr =>
    have e1 : data = smsc.length :: (smsc ++ (0x40 :: digits.length :: typeOfAddress ::
        (packDigits digits ++ (pid :: dcs ::
          (scts ++ ((text.length + 1 + hdr.length) :: hdr.length ::
            (hdr ++ packSeptets text))))))) := by
      subst hdata; simp [encodeDeliverPdu, encodeAddress]
    obtain ⟨h, hw, hudhi, hoa, hud⟩ := headerWalk_layout smsc (packDigits digits) scts
      ((text.length + 1 + hdr.length) :: hdr.length :: (hdr ++ packSeptets text)) 0x40
      digits.length typeOfAddress pid dcs (by decide) (packDigits_length digits) hscts
      (by simp)
    rw [← e1] at hw
    have hnum : decodeDialNumber data h (some dialNumberSize) =
        .ok (some (digitChars digits)) := by
      have e2 : data = (smsc.length :: (smsc ++ [0x40])) ++ digits.length :: typeOfAddress ::
          (packDigits digits ++ (pid :: dcs ::
            (scts ++ ((text.length + 1 + hdr.length) :: hdr.length ::
              (hdr ++ packSeptets text))))) := by
        rw [e1]; simp
      rw [e2]
      exact decodeDialNumber_layout _ _ _ _ h dialNumberSize (by simp [hoa]) hdigits hdial
    have e3 : data = (smsc.length :: (smsc ++ (0x40 :: digits.length :: typeOfAddress ::
        (packDigits digits ++ (pid :: dcs :: scts))))) ++
          (text.length + 1 + hdr.length) :: (hdr.length :: (hdr ++ packSeptets text)) := by
      rw [e1]; simp
    have hfront : (smsc.length :: (smsc ++ (0x40 :: digits.length :: typeOfAddress ::
        (packDigits digits ++ (pid :: dcs :: scts))))).length = h.tpUd := by
      simp only [List.length_cons, List.length_append, hscts, hud]
      omega
    have r1 : readData data h.tpUd = .ok (text.length + 1 + hdr.length) := by
      rw [e3]
      exact readData_append_cons _ _ _ _ hfront.symm
    have e4 : data = ((smsc.length :: (smsc ++ (0x40 :: digits.length :: typeOfAddress ::
        (packDigits digits ++ (pid :: dcs :: scts))))) ++ [text.length + 1 + hdr.length]) ++
          hdr.length :: (hdr ++ packSeptets text) := by
      rw [e3]; simp
    have r2 : readData data (h.tpUd + 1) = .ok hdr.length := by
      rw [e4]
      exact readData_append_cons _ _ _ _ (by rw [List.length_append, hfront]; rfl)
    have hlength : data.length = h.tpUd + 2 + hdr.length + (packSeptets text).length := by
      rw [e3, List.length_append, hfront]
      simp only [List.length_cons, List.length_append]
      omega
    have ht : h.tpUdhi = true := by rw [hudhi]; decide
    have hreq : require (!decide (h.tpUd + 1 ≥ data.length)) = .ok () := by
      simp [require]; omega
    have hcount : (((text.length + 1 + hdr.length : Nat) : Int) - (1 + (hdr.length : Int))) =
        (text.length : Int) := by
      push_cast; omega
    have hlayout : userDataLayout data h =
        .ok ((text.length : Int), h.tpUd + 2 + hdr.length) := by
      simp only [userDataLayout, ht, Bool.not_true, Bool.false_eq_true, if_false, hreq, r1, r2,
        Run.ok_bind, Run.pure_eq_ok, hcount]
    have hdrop : data.drop (h.tpUd + 2 + hdr.length) = packSeptets text := by
      have e5 : data = ((smsc.length :: (smsc ++ (0x40 :: digits.length :: typeOfAddress ::
          (packDigits digits ++ (pid :: dcs :: scts))))) ++
            [text.length + 1 + hdr.length, hdr.length] ++ hdr) ++ packSeptets text := by
        rw [e3]; simp
      rw [e5]
      exact List.drop_left' (by
        simp only [List.length_append, hfront, List.length_cons, List.length_nil])
    have hsm : h.tpUd + 2 + hdr.length ≤ data.length := by omega
    exact ⟨h, h.tpUd + 2 + hdr.length, hw, hnum, hlayout, hsm, hdrop⟩

/-- C3: for every text of 7-bit symbols and every originating number of decimal digits,
with or without a user-data header, decoding the PDU that `encodeDeliverPdu` lays out
(all of its bytes below 256, buffers large enough) succeeds and returns the text and
the number. When the length of the text is a positive multiple of 8 the unpacking loop
reads one byte after the end of the buffer (the unchecked read of C1); the result is
the same for every value of the bytes that follow the buffer in memory. For every other
length no read leaves the buffer. -/
theorem roundtrip_every_text (smsc digits scts text beyond : List Nat)
    (typeOfAddress pid dcs : Nat) (udh : Option (List Nat))
    (messageSize dialNumberSize : Int)
    (hbytes : ∀ b ∈ encodeDeliverPdu smsc typeOfAddress digits pid dcs scts udh text, b < 256)
    (hdigits : ∀ d ∈ digits, d < 10) (hscts : scts.length = 7)
    (htext : ∀ c ∈ text, c < 128)
    (hbeyond : ∀ b ∈ beyond, b < 256) (hmemory : beyond ≠ [])
    (hmsg : (text.length : Int) + 1 ≤ messageSize)
    (hdial : (digits.length : Int) + 1 ≤ dialNumberSize) :
    decodePduIn (encodeDeliverPdu smsc typeOfAddress digits pid dcs scts udh text) beyond
        messageSize (some dialNumberSize) =
      .ok ⟨text.length, text, some (digitChars digits)⟩ ∧
    (text.length % 8 ≠ 0 ∨ text = [] →
      decodePdu (encodeDeliverPdu smsc typeOfAddress digits pid dcs scts udh text)
          messageSize (some dialNumberSize) =
        .ok ⟨text.length, text, some (digitChars digits)⟩) := by
  refine ⟨?_, fun hlen => roundtrip_other_lengths smsc digits scts text typeOfAddress pid dcs
    udh messageSize dialNumberSize hbytes hdigits hscts htext hlen hmsg hdial⟩
  obtain ⟨h, sm, hw, hnum, hlayout, hsm, hdrop⟩ := encodeDeliverPdu_layout smsc digits scts
    text typeOfAddress pid dcs udh dialNumberSize hdigits hscts hdial
  have hunpack := unpack_packSeptets_in _ beyond sm text messageSize hbytes hbeyond hmemory
    hsm hdrop htext hmsg
  simp only [decodePduIn, hw, hnum, hlayout, hunpack, Run.ok_bind, Run.pure_eq_ok]

/-- C3, at the text `ABCDEFGH` from the number `1234`, without and with a user-data
header, with the byte `0xFF` after the buffer: the decode returns the text and the
number. -/
theorem roundtrip_every_text_witness :
    decodePduIn (encodeDeliverPdu [] 0x81 [1, 2, 3, 4] 0 0 sampleScts none
        [65, 66, 67, 68, 69, 70, 71, 72]) [0xFF] 160 (some 20) =
      .ok ⟨8, [65, 66, 67, 68, 69, 70, 71, 72], some (digitChars [1, 2, 3, 4])⟩ ∧
    decodePduIn (encodeDeliverPdu [0x91, 0x13] 0x91 [1, 2, 3, 4, 5] 0 0 sampleScts
        (some [0, 3, 7, 2, 1]) [65, 66, 67, 68, 69, 70, 71, 72]) [0x00] 160 (some 20) =
      .ok ⟨8, [65, 66, 67, 68, 69, 70, 71, 72], some (digitChars [1, 2, 3, 4, 5])⟩ :=
  ⟨(roundtrip_every_text [] [1, 2, 3, 4] sampleScts [65, 66, 67, 68, 69, 70, 71, 72] [0xFF]
      0x81 0 0 none 160 20 (by decide) (by decide) (by decide) (by decide) (by decide)
      (by decide) (by decide) (by decide)).1,
   (roundtrip_every_text [0x91, 0x13] [1, 2, 3, 4, 5] sampleScts
      [65, 66, 67, 68, 69, 70, 71, 72] [0x00] 0x91 0 0 (some [0, 3, 7, 2, 1]) 160 20
      (by decide) (by decide) (by decide) (by decide) (by decide) (by decide) (by decide)
      (by decide)).1⟩

end RoundTripEveryText

end WioLTE

